import Mathlib

/-!
The Nordic Secure DFU driver `NrfDfuServer` of nrf52-desktop-dfu.

A shallow embedding of `src/src-dfu/NrfDfuServer.cpp` and `NrfDfuServerTypes.h`.

* Bytes of a `std::string` are `Fin 256`; `uint32_t` values are `Nat` reduced `% 2^32`
  wherever the source stores into a 32-bit object.
* The two transport callbacks (`write_command`, `write_request`) append to a log kept in the
  session, so that what the driver emitted is observable.
* The driver thread and the notification thread are linearised: during one `run` the
  notifications that arrive are delivered after `manage_state` and before `event_handler`.
-/

namespace NativeDFU

/-! ## Constants of `NrfDfuServerTypes.h` -/

abbrev Byte := Fin 256

def NORDIC_SECURE_DFU_SERVICE : String := "0000fe59-0000-1000-8000-00805f9b34fb"
def NORDIC_DFU_CONTROL_POINT_CHAR : String := "8ec90001-f315-4f60-9fb8-838830daea50"
def NORDIC_DFU_PACKET_CHAR : String := "8ec90002-f315-4f60-9fb8-838830daea50"

def FLASH_PAGE_SIZE : Nat := 4096
def MTU_CHUNK : Nat := 244

def CREATE_KEY : Byte := 0x01
def PACKET_RECEIPT_NOTIF_REQ_KEY : Byte := 0x02
def CALCULATE_CHECKSUM_KEY : Byte := 0x03
def EXECUTE_KEY : Byte := 0x04
def SELECT_OBJECT_KEY : Byte := 0x06
def RESPONSE_CODE_KEY : Byte := 0x60

def SUCCESS_RESP : Byte := 0x01

/-- The enum `object_type_t`: `COMMAND = 0x01`, `DATA = 0x02`. -/
inductive object_type_t
  | COMMAND
  | DATA
  deriving DecidableEq, Repr

/-- The enumerator value of an `object_type_t`, as the `char` the source appends. -/
def object_type_t.toByte : object_type_t → Byte
  | .COMMAND => 0x01
  | .DATA => 0x02

/-- The enum `state_t`, the states of the FSM. -/
inductive state_t
  | DFU_IDLE
  | SET_NOTIF_VALUE
  | DATAFILE_CREATE_COM_OBJ
  | DATAFILE_WRITE_FILE
  | DATAFILE_REQ_CHECKSUM
  | DATAFILE_WRITE_EXECUTE
  | BINFILE_CREATE_DATA_OBJ
  | BINFILE_WRITE_MTU_CHUNK
  | BINFILE_REQ_CHECKSUM
  | BINFILE_WRITE_EXECUTE
  | BINFILE_WRITE_EXECUTE_FINAL
  | DFU_ERROR_CHECKSUM
  | DFU_ERROR
  | DFU_FINISHED
  deriving DecidableEq, Repr

/-- The enum `event_t`, the events of the FSM. -/
inductive event_t
  | CHECKSUM_RECEIVED
  | SELECT_OBJ_RECEIVED
  | CREATE_SUC
  | PACKET_RECEIPT_NOTIF_REQ_SUC
  | EXECUTE_SUC
  | SELECT_OBJECT_SUC
  | RESPONSE_CODE_SUC
  | NO_EVENT
  | ERROR_INV_LEN
  | ERROR_RECEIVED
  | ERROR_UNKNOW_REC_OP
  | ERROR_NO_RESP_KEY
  | ERROR_NOT_SUP_SERV_CHAR
  deriving DecidableEq, Repr

/-- The union `response_value_t`: three 32-bit words of storage. The member `checksum`
overlays `offset` on word 0 and `crc32` on word 1; the member `select` overlays
`maximum_size`, `offset`, `crc32` on words 0, 1, 2. -/
structure response_value_t where
  word0 : Nat
  word1 : Nat
  word2 : Nat
  deriving DecidableEq, Repr

/-- Member `checksum.offset` of the union. -/
def response_value_t.checksum_offset (v : response_value_t) : Nat := v.word0
/-- Member `checksum.crc32` of the union. -/
def response_value_t.checksum_crc32 (v : response_value_t) : Nat := v.word1
/-- Member `select.maximum_size` of the union. -/
def response_value_t.select_maximum_size (v : response_value_t) : Nat := v.word0
/-- Member `select.offset` of the union. -/
def response_value_t.select_offset (v : response_value_t) : Nat := v.word1
/-- Member `select.crc32` of the union. -/
def response_value_t.select_crc32 (v : response_value_t) : Nat := v.word2

/-- The struct `control_point_response_t`. -/
structure control_point_response_t where
  request_opcode : Byte
  result_code : Byte
  resp_val : response_value_t
  deriving DecidableEq, Repr

/-- Which of the two transport callbacks was invoked. -/
inductive write_kind
  | command
  | request
  deriving DecidableEq, Repr

/-- One invocation of a transport callback: its three arguments, and the value the member
`waiting_response` had at the moment of the call. -/
structure BleWrite where
  kind : write_kind
  service : String
  characteristic : String
  data : List Byte
  awaiting : Bool
  deriving DecidableEq, Repr

/-- The data members of `class NrfDfuServer` (the mutex and the condition variable apart),
and the log of the transport callbacks invoked so far, oldest first. -/
structure Session where
  state : state_t
  response : control_point_response_t
  received_event : event_t
  waiting_response : Bool
  datafile_data : List Byte
  binfile_data : List Byte
  bin_bytes_written : Nat
  bin_bytes_to_write : Nat
  mtu_extra_bytes : Nat
  mtu_chunks_remaing : Nat
  mtu_last_chunk : Bool
  crc32_result : Nat
  writes : List BleWrite
  deriving Repr

/-- The constructor `NrfDfuServer::NrfDfuServer`. -/
def Session.init (datafile_data_r binfile_data_r : List Byte) : Session :=
  { state := .DFU_IDLE
    response := { request_opcode := 0, result_code := 0, resp_val := ⟨0, 0, 0⟩ }
    received_event := .NO_EVENT
    waiting_response := false
    datafile_data := datafile_data_r
    binfile_data := binfile_data_r
    bin_bytes_written := 0
    bin_bytes_to_write := 0
    mtu_extra_bytes := 0
    mtu_chunks_remaing := 0
    mtu_last_chunk := false
    crc32_result := 0
    writes := [] }

/-! ## Bytes and words -/

/-- The object representation of a 32-bit value on a little-endian host, as
`std::string(reinterpret_cast<const char *>(&size), sizeof(size))` yields it. -/
def le32_bytes (n : Nat) : List Byte :=
  [Fin.ofNat (n % 256), Fin.ofNat (n / 256 % 256), Fin.ofNat (n / 65536 % 256),
   Fin.ofNat (n / 16777216 % 256)]

/-- The object representation of a 16-bit value on a little-endian host. -/
def le16_bytes (n : Nat) : List Byte :=
  [Fin.ofNat (n % 256), Fin.ofNat (n / 256 % 256)]

/-- The expression `data[i]` on a `std::string`: the byte at `i` inside the string, the
terminating zero at `i = data.length()`, and no value past it (the read is undefined). -/
def char_at (data : List Byte) (i : Nat) : Option Byte :=
  if h : i < data.length then some (data.get ⟨i, h⟩)
  else if i = data.length then some 0
  else none

/-- The load `*reinterpret_cast<uint32_t *>(&data[off])` on a little-endian host. -/
def read_u32 (data : List Byte) (off : Nat) : Option Nat :=
  match char_at data off, char_at data (off + 1), char_at data (off + 2),
      char_at data (off + 3) with
  | some b0, some b1, some b2, some b3 =>
      some (b0.val + 256 * b1.val + 65536 * b2.val + 16777216 * b3.val)
  | _, _, _, _ => none

/-! ## Response decoding: `process_response_data`, `notify` -/

/-- The switch of `process_response_data` on the echoed opcode, reached on success with no
response value. -/
def success_event (op : Byte) : event_t :=
  if op = CREATE_KEY then .CREATE_SUC
  else if op = PACKET_RECEIPT_NOTIF_REQ_KEY then .PACKET_RECEIPT_NOTIF_REQ_SUC
  else if op = EXECUTE_KEY then .EXECUTE_SUC
  else if op = SELECT_OBJECT_KEY then .SELECT_OBJECT_SUC
  else if op = RESPONSE_CODE_KEY then .RESPONSE_CODE_SUC
  else .ERROR_UNKNOW_REC_OP

/-- The method `NrfDfuServer::process_response_data`. The result is `none` where the source
reads past the terminator of `data`. -/
def process_response_data (data : List Byte) (s : Session) : Option Session :=
  match char_at data 1, char_at data 2 with
  | some op, some rc =>
    let response_value_len : Nat := (data.length + 2 ^ 32 - 3) % 2 ^ 32
    let s1 : Session :=
      { s with received_event := .NO_EVENT
               response := { s.response with request_opcode := op, result_code := rc } }
    if rc = SUCCESS_RESP then
      if op = CALCULATE_CHECKSUM_KEY then
        match read_u32 data 3, read_u32 data 7 with
        | some v0, some v1 =>
          some { s1 with
            response := { s1.response with
              resp_val := { s1.response.resp_val with word0 := v0, word1 := v1 } }
            received_event := .CHECKSUM_RECEIVED }
        | _, _ => none
      else if op = SELECT_OBJECT_KEY then
        match read_u32 data 3, read_u32 data 7, read_u32 data 11 with
        | some v0, some v1, some v2 =>
          some { s1 with
            response := { s1.response with resp_val := ⟨v0, v1, v2⟩ }
            received_event := .SELECT_OBJ_RECEIVED }
        | _, _, _ => none
      else if response_value_len ≠ 0 then
        some { s1 with received_event := .ERROR_INV_LEN }
      else
        some { s1 with received_event := success_event op }
    else
      some { s1 with received_event := .ERROR_RECEIVED }
  | _, _ => none

/-- The method `NrfDfuServer::notify`. -/
def notify (service characteristic : String) (data : List Byte) (s : Session) :
    Option Session :=
  if service = NORDIC_SECURE_DFU_SERVICE ∧ characteristic = NORDIC_DFU_CONTROL_POINT_CHAR then
    match char_at data 0 with
    | some b =>
      if b = RESPONSE_CODE_KEY then
        match process_response_data data s with
        | some s1 => some { s1 with waiting_response := false }
        | none => none
      else
        some { s with received_event := .ERROR_NO_RESP_KEY }
    | none => none
  else
    some { s with received_event := .ERROR_NOT_SUP_SERV_CHAR }

/-! ## The FSM: `checksum_match`, `event_handler` -/

/-- The method `NrfDfuServer::checksum_match`. -/
def checksum_match (s : Session) : Bool :=
  s.crc32_result == s.response.resp_val.checksum_crc32

/-- The switch of `NrfDfuServer::event_handler`: the value of `state` after it. -/
def next_state (s : Session) : state_t :=
  match s.state with
  | .DFU_IDLE => .SET_NOTIF_VALUE
  | .SET_NOTIF_VALUE =>
    if s.received_event = .PACKET_RECEIPT_NOTIF_REQ_SUC then .DATAFILE_CREATE_COM_OBJ
    else .DFU_ERROR
  | .DATAFILE_CREATE_COM_OBJ =>
    if s.received_event = .CREATE_SUC then .DATAFILE_WRITE_FILE else .DFU_ERROR
  | .DATAFILE_WRITE_FILE => .DATAFILE_REQ_CHECKSUM
  | .DATAFILE_REQ_CHECKSUM =>
    if s.received_event = .CHECKSUM_RECEIVED then
      if checksum_match s then .DATAFILE_WRITE_EXECUTE else .DFU_ERROR_CHECKSUM
    else .DFU_ERROR
  | .DATAFILE_WRITE_EXECUTE =>
    if s.received_event = .EXECUTE_SUC then .BINFILE_CREATE_DATA_OBJ else .DFU_ERROR
  | .BINFILE_CREATE_DATA_OBJ =>
    if s.received_event = .CREATE_SUC then .BINFILE_WRITE_MTU_CHUNK else .DFU_ERROR
  | .BINFILE_WRITE_MTU_CHUNK => .BINFILE_REQ_CHECKSUM
  | .BINFILE_REQ_CHECKSUM =>
    if s.received_event = .CHECKSUM_RECEIVED then
      if checksum_match s then .BINFILE_WRITE_EXECUTE else .DFU_ERROR_CHECKSUM
    else .DFU_ERROR
  | .BINFILE_WRITE_EXECUTE =>
    if s.received_event = .EXECUTE_SUC then
      (if s.mtu_last_chunk then .BINFILE_WRITE_EXECUTE_FINAL else .BINFILE_CREATE_DATA_OBJ)
    else .DFU_ERROR
  | .BINFILE_WRITE_EXECUTE_FINAL =>
    if s.received_event = .EXECUTE_SUC then .DFU_FINISHED else .DFU_ERROR
  | .DFU_FINISHED => .DFU_FINISHED
  | .DFU_ERROR_CHECKSUM => .DFU_ERROR_CHECKSUM
  | .DFU_ERROR => .DFU_ERROR

/-- The method `NrfDfuServer::event_handler`. -/
def event_handler (s : Session) : Session :=
  { s with state := next_state s, waiting_response := false }

/-! ## The checksum engine (`crc.h`) -/

def POLYNOMIAL : Nat := 0x04C11DB7
def INITIAL_REMAINDER : Nat := 0xFFFFFFFF
def FINAL_XOR_VALUE : Nat := 0xFFFFFFFF

/-- Modelled from the spec: the bit reversal behind "reflected input/output" of the checksum
engine (`crc.c` is not among the sources): the low `nBits` bits of `data`, in reverse order. -/
def reflect (data nBits : Nat) : Nat :=
  (List.range nBits).foldl
    (fun acc i => if data.testBit i then acc ||| 1 <<< (nBits - 1 - i) else acc) 0

/-- Modelled from the spec: one bit of the polynomial division by `POLYNOMIAL` on a 32-bit
remainder (`crc.c` is not among the sources). -/
def crc_bit_step (remainder : Nat) : Nat :=
  if remainder.testBit 31 then (remainder <<< 1 ^^^ POLYNOMIAL) % 2 ^ 32
  else remainder <<< 1 % 2 ^ 32

/-- Modelled from the spec: one message byte, reflected and brought into the top byte of the
remainder, then eight division bits (`crc.c` is not among the sources). -/
def crc_byte_step (remainder : Nat) (b : Byte) : Nat :=
  crc_bit_step^[8] (remainder ^^^ reflect b.val 8 <<< 24)

/-- Modelled from the spec: `crcFast` of `crc.h`, whose body (`crc.c`) is not among the
sources: the CRC-32 with polynomial 0x04C11DB7, reflected input bytes and reflected
remainder, initial remainder 0xFFFFFFFF and final XOR 0xFFFFFFFF, over the first `nBytes`
bytes of `message`. -/
def crcFast (message : List Byte) (nBytes : Nat) : Nat :=
  reflect ((message.take nBytes).foldl crc_byte_step INITIAL_REMAINDER) 32 ^^^ FINAL_XOR_VALUE

/-- The method `NrfDfuServer::calculate_crc`; the member `crc32_result` is a `uint32_t`. -/
def calculate_crc (data : List Byte) (length : Nat) (s : Session) : Session :=
  { s with crc32_result := crcFast data length % 2 ^ 32 }

/-! ## Requests: the methods that write to the transport -/

/-- The callback `write_command`, logged. -/
def write_command (service characteristic : String) (data : List Byte) (s : Session) :
    Session :=
  { s with writes :=
      s.writes ++ [⟨.command, service, characteristic, data, s.waiting_response⟩] }

/-- The callback `write_request`, logged. -/
def write_request (service characteristic : String) (data : List Byte) (s : Session) :
    Session :=
  { s with writes :=
      s.writes ++ [⟨.request, service, characteristic, data, s.waiting_response⟩] }

/-- The method `NrfDfuServer::write_procedure`. -/
def write_procedure (opcode_parameters : List Byte) (s : Session) : Session :=
  write_request NORDIC_SECURE_DFU_SERVICE NORDIC_DFU_CONTROL_POINT_CHAR opcode_parameters s

/-- The method `NrfDfuServer::set_pck_notif_value`; `num_pcks` is a `uint16_t`. -/
def set_pck_notif_value (num_pcks : Nat) (s : Session) : Session :=
  write_procedure (PACKET_RECEIPT_NOTIF_REQ_KEY :: le16_bytes num_pcks) s

/-- The method `NrfDfuServer::select_object`. -/
def select_object (obj_type : object_type_t) (s : Session) : Session :=
  write_procedure [SELECT_OBJECT_KEY, obj_type.toByte] s

/-- The method `NrfDfuServer::write_create_request`; `size` is a `uint32_t`. -/
def write_create_request (obj_type : object_type_t) (size : Nat) (s : Session) : Session :=
  write_procedure (CREATE_KEY :: obj_type.toByte :: le32_bytes size) s

/-- The method `NrfDfuServer::write_packet`. -/
def write_packet (data_send : List Byte) (s : Session) : Session :=
  write_command NORDIC_SECURE_DFU_SERVICE NORDIC_DFU_PACKET_CHAR data_send s

/-- The method `NrfDfuServer::request_checksum`. -/
def request_checksum (s : Session) : Session :=
  write_procedure [CALCULATE_CHECKSUM_KEY] s

/-- The method `NrfDfuServer::write_execute`. -/
def write_execute (s : Session) : Session :=
  write_procedure [EXECUTE_KEY] s

/-! ## The FSM: `manage_state` -/

/-- The expression `std::string(&data.c_str()[pos], n)`: the `n` bytes from index `pos`.
A read that would leave the buffer is cut at its end. -/
def substr (data : List Byte) (pos n : Nat) : List Byte :=
  (data.drop pos).take n

/-- The expression `binfile_data.length() - bin_bytes_written`, an unsigned subtraction in
`size_t` (64 bits wide). -/
def bytes_remaining (s : Session) : Nat :=
  (s.binfile_data.length + 2 ^ 64 - s.bin_bytes_written) % 2 ^ 64

/-- The case `BINFILE_CREATE_DATA_OBJ` of `manage_state`. -/
def manage_create_data_obj (s : Session) : Session :=
  let s1 : Session := { s with bin_bytes_to_write := FLASH_PAGE_SIZE }
  let s2 : Session :=
    if bytes_remaining s1 ≤ FLASH_PAGE_SIZE then
      { s1 with bin_bytes_to_write := bytes_remaining s1 % 2 ^ 32, mtu_last_chunk := true }
    else s1
  if s2.bin_bytes_to_write ≠ 0 then
    write_create_request .DATA s2.bin_bytes_to_write
      (calculate_crc s2.binfile_data ((s2.bin_bytes_written + s2.bin_bytes_to_write) % 2 ^ 32)
        { s2 with waiting_response := true })
  else s2

/-- The loop `for (i = 0; i < mtu_chunks_remaing; i++)` of the case
`BINFILE_WRITE_MTU_CHUNK`: one packet of `MTU_CHUNK` bytes for each `i` of the list. -/
def write_full_chunks (l : List Nat) (s : Session) : Session :=
  l.foldl
    (fun acc i =>
      write_packet
        (substr acc.binfile_data ((acc.bin_bytes_written + MTU_CHUNK * i) % 2 ^ 32) MTU_CHUNK)
        acc)
    s

/-- The case `BINFILE_WRITE_MTU_CHUNK` of `manage_state`. The loop counter `i` ends the loop
at `mtu_chunks_remaing`, which is where the trailing packet starts. -/
def manage_write_mtu_chunk (s : Session) : Session :=
  let s1 : Session :=
    { s with waiting_response := false
             mtu_chunks_remaing := s.bin_bytes_to_write / MTU_CHUNK
             mtu_extra_bytes := s.bin_bytes_to_write % MTU_CHUNK }
  let s2 : Session := write_full_chunks (List.range s1.mtu_chunks_remaing) s1
  let s3 : Session :=
    if s2.mtu_extra_bytes ≠ 0 then
      write_packet
        (substr s2.binfile_data
          ((s2.bin_bytes_written + MTU_CHUNK * s2.mtu_chunks_remaing) % 2 ^ 32)
          s2.mtu_extra_bytes)
        s2
    else s2
  { s3 with bin_bytes_written := (s3.bin_bytes_written + s3.bin_bytes_to_write) % 2 ^ 32 }

/-- The method `NrfDfuServer::manage_state`. -/
def manage_state (s0 : Session) : Session :=
  let s : Session := { s0 with waiting_response := false }
  match s.state with
  | .DFU_IDLE => { s with waiting_response := false }
  | .SET_NOTIF_VALUE => set_pck_notif_value 0 { s with waiting_response := true }
  | .DATAFILE_CREATE_COM_OBJ =>
    write_create_request .COMMAND (s.datafile_data.length % 2 ^ 32)
      { s with waiting_response := true }
  | .DATAFILE_WRITE_FILE =>
    write_packet s.datafile_data
      (calculate_crc s.datafile_data s.datafile_data.length
        { s with waiting_response := false })
  | .DATAFILE_REQ_CHECKSUM => request_checksum { s with waiting_response := true }
  | .BINFILE_REQ_CHECKSUM => request_checksum { s with waiting_response := true }
  | .DATAFILE_WRITE_EXECUTE => write_execute { s with waiting_response := true }
  | .BINFILE_WRITE_EXECUTE => write_execute { s with waiting_response := true }
  | .BINFILE_WRITE_EXECUTE_FINAL => write_execute { s with waiting_response := false }
  | .BINFILE_CREATE_DATA_OBJ => manage_create_data_obj s
  | .BINFILE_WRITE_MTU_CHUNK => manage_write_mtu_chunk s
  | .DFU_FINISHED => s
  | .DFU_ERROR_CHECKSUM => s
  | .DFU_ERROR => s

/-! ## The driver: `run`, `run_dfu` -/

/-- A notification handed to `notify`: service, characteristic, data. -/
abbrev Notification := String × String × List Byte

/-- The peer: the notifications that arrive while the driver is in `run`, given the session
as `manage_state` left it (the log of writes included). -/
abbrev Device := Session → List Notification

/-- The calls of `notify` for the notifications of one `run`, in order of arrival. -/
def deliver : List Notification → Session → Option Session
  | [], s => some s
  | n :: ns, s =>
    match notify n.1 n.2.1 n.2.2 s with
    | some s1 => deliver ns s1
    | none => none

/-- The method `NrfDfuServer::run`: `manage_state`, the wait on the condition variable until
`waiting_response` is false, `event_handler`. The result is `none` when the wait never ends
(no notification clears `waiting_response`) or a notification is read past its end. -/
def run (dev : Device) (s : Session) : Option Session :=
  match deliver (dev (manage_state s)) (manage_state s) with
  | some s1 => if s1.waiting_response then none else some (event_handler s1)
  | none => none

/-- The loop condition of `run_dfu`, negated. -/
def terminal (st : state_t) : Bool :=
  st == .DFU_FINISHED || st == .DFU_ERROR || st == .DFU_ERROR_CHECKSUM

/-- The method `NrfDfuServer::run_dfu`, with a bound on the number of iterations: the
session at the exit of the loop, and the value of `state` at the head of each iteration
made. The result is `none` when an iteration does not return or the bound is reached. -/
def run_dfu (dev : Device) : Nat → Session → Option (List state_t × Session)
  | 0, s => if terminal s.state then some ([], s) else none
  | fuel + 1, s =>
    if terminal s.state then some ([], s)
    else
      match run dev s with
      | some s1 =>
        match run_dfu dev fuel s1 with
        | some (visited, fin) => some (s.state :: visited, fin)
        | none => none
      | none => none

/-! ## Concrete sessions and payloads used below -/

/-- A session in `BINFILE_REQ_CHECKSUM` whose event is `NO_EVENT`, with local CRC 0 and
device-reported CRC 1. -/
def mismatch_without_checksum_event : Session :=
  { Session.init [] [] with
    state := .BINFILE_REQ_CHECKSUM
    received_event := .NO_EVENT
    crc32_result := 0
    response := { request_opcode := 0, result_code := 0, resp_val := ⟨0, 1, 0⟩ } }

/-- A success response echoing opcode 0x07 (`MTU_GET_KEY`), followed by one more byte. -/
def unknown_opcode_with_value : List Byte := [0x60, 0x07, 0x01, 0x00]

/-- A success response to a create request followed by 2^32 more bytes. -/
def oversized_create_response : List Byte :=
  RESPONSE_CODE_KEY :: CREATE_KEY :: SUCCESS_RESP :: List.replicate (2 ^ 32) 0

/-- The transport writes made between the session `before` and the later session `after`,
oldest first. -/
def new_writes (before after : Session) : List BleWrite :=
  after.writes.drop before.writes.length

/-- The packet `write_packet` logs for the bytes `[pos, pos + n)` of the binary payload,
written while `waiting_response` is false. -/
def packet_write (data : List Byte) (pos n : Nat) : BleWrite :=
  ⟨.command, NORDIC_SECURE_DFU_SERVICE, NORDIC_DFU_PACKET_CHAR, substr data pos n, false⟩

/-- A session about to write the last object of a payload of 2^32 bytes: 2^32 - 4096 bytes
written, an object of 4096 bytes. -/
def wrapping_write_session : Session :=
  { Session.init [] (List.replicate (2 ^ 32) 0) with
    state := .BINFILE_WRITE_MTU_CHUNK
    bin_bytes_written := 2 ^ 32 - 4096
    bin_bytes_to_write := 4096 }

/-- A session about to write an object of 4096 bytes, the whole of its payload. -/
def page_write_session : Session :=
  { Session.init [] (List.replicate 4096 0) with
    state := .BINFILE_WRITE_MTU_CHUNK
    bin_bytes_written := 0
    bin_bytes_to_write := 4096 }

/-! ## The object planner, iterated -/

/-- One pass of the object planner: the action of `BINFILE_CREATE_DATA_OBJ`, then the action
of `BINFILE_WRITE_MTU_CHUNK`. -/
def plan_object (s : Session) : Session :=
  manage_state
    { manage_state { s with state := .BINFILE_CREATE_DATA_OBJ } with
      state := .BINFILE_WRITE_MTU_CHUNK }

/-- The passes of the planner from `s` until a pass sets the final flag, at most `fuel` of
them: for each pass that creates an object (`bin_bytes_to_write` is not zero, the guard of
the create request), the size of the object and the flag. The result is `none` when `fuel`
passes do not set the flag. -/
def plan_objects : Nat → Session → Option (List (Nat × Bool))
  | 0, _ => none
  | fuel + 1, s =>
    if (plan_object s).mtu_last_chunk = true then
      some (if (plan_object s).bin_bytes_to_write = 0 then []
        else [((plan_object s).bin_bytes_to_write, true)])
    else
      match plan_objects fuel (plan_object s) with
      | some objs => some (((plan_object s).bin_bytes_to_write, false) :: objs)
      | none => none

/-- A binary payload of 2^33 bytes. -/
def oversized_payload : List Byte := List.replicate (2 ^ 33) 0

/-- The members that only the driver thread writes have the same value in `t` as in `s`. -/
def DriverFrame (s t : Session) : Prop :=
  t.state = s.state ∧ t.datafile_data = s.datafile_data ∧ t.binfile_data = s.binfile_data ∧
  t.bin_bytes_written = s.bin_bytes_written ∧ t.bin_bytes_to_write = s.bin_bytes_to_write ∧
  t.mtu_last_chunk = s.mtu_last_chunk ∧ t.crc32_result = s.crc32_result ∧
  t.writes = s.writes

/-! ## The driver and the notifications, step by step -/

/-- A step of the program on a pair `(mid, s)`, where `mid` tells that `manage_state` has
run in the current iteration of `run_dfu` and `event_handler` has not yet: the driver calls
`manage_state` at the head of an iteration (the loop condition holds), the driver calls
`event_handler` once `waiting_response` is false, or a notification is handed to
`notify`. -/
inductive Step : Bool × Session → Bool × Session → Prop
  | manage (s : Session) : terminal s.state = false → Step (false, s) (true, manage_state s)
  | handle (s : Session) : s.waiting_response = false →
      Step (true, s) (false, event_handler s)
  | notified (mid : Bool) (s s1 : Session) (service characteristic : String)
      (data : List Byte) : notify service characteristic data s = some s1 →
      Step (mid, s) (mid, s1)

/-- The pairs reachable from the constructed session by steps. -/
inductive Reachable (datafile binfile : List Byte) : Bool × Session → Prop
  | init : Reachable datafile binfile (false, Session.init datafile binfile)
  | step (c c1 : Bool × Session) : Reachable datafile binfile c → Step c c1 →
      Reachable datafile binfile c1

/-- The object in flight ends inside a payload of `L` bytes, and ends where the payload ends
when it is flagged final. -/
def planned (w tw : Nat) (flag : Bool) (L : Nat) : Prop :=
  w + tw ≤ L ∧ (flag = true → w + tw = L)

/-- What holds of the planner's counters (`w` bytes written, object size `tw`, final flag)
in each state, before (`mid = false`) and after (`mid = true`) the action of the state. The
count of bytes written is a 32-bit value: once the final object is written it is `L` reduced
modulo 2^32. -/
def plan_ok (st : state_t) (mid : Bool) (w tw : Nat) (flag : Bool) (L : Nat) : Prop :=
  match st with
  | .DFU_IDLE => flag = false
  | .SET_NOTIF_VALUE => flag = false
  | .DATAFILE_CREATE_COM_OBJ => flag = false
  | .DATAFILE_WRITE_FILE => flag = false
  | .DATAFILE_REQ_CHECKSUM => flag = false
  | .DATAFILE_WRITE_EXECUTE => flag = false
  | .BINFILE_CREATE_DATA_OBJ => if mid = true then planned w tw flag L else flag = false
  | .BINFILE_WRITE_MTU_CHUNK =>
    if mid = true then (flag = true → w = L % 2 ^ 32) else planned w tw flag L
  | .BINFILE_REQ_CHECKSUM => flag = true → w = L % 2 ^ 32
  | .BINFILE_WRITE_EXECUTE => flag = true → w = L % 2 ^ 32
  | .BINFILE_WRITE_EXECUTE_FINAL => w = L % 2 ^ 32
  | .DFU_FINISHED => w = L % 2 ^ 32
  | .DFU_ERROR_CHECKSUM => True
  | .DFU_ERROR => True

/-- The invariant of the planner's counters for a payload of `L` bytes. -/
def PlanInv (L : Nat) (c : Bool × Session) : Prop :=
  c.2.binfile_data.length = L ∧ c.2.bin_bytes_written ≤ L ∧
  plan_ok c.2.state c.1 c.2.bin_bytes_written c.2.bin_bytes_to_write c.2.mtu_last_chunk L

/-- The payloads of the create requests for data objects in a log of writes: the
`write_request` calls whose payload starts with `CREATE_KEY` and the type `DATA`. -/
def data_object_requests (log : List BleWrite) : List (List Byte) :=
  (log.filter (fun w =>
    decide (w.kind = .request) &&
      decide (w.data.take 2 = [CREATE_KEY, object_type_t.DATA.toByte]))).map
    (fun w => w.data)

/-- A session about to create the last object of a payload of 2^32 bytes, 2^32 - 1 zero
bytes followed by the byte `b`: 2^32 - 4096 bytes are written. -/
def wrapping_create_session (b : Byte) : Session :=
  { Session.init [] (List.replicate (2 ^ 32 - 1) 0 ++ [b]) with
    state := .BINFILE_CREATE_DATA_OBJ
    bin_bytes_written := 2 ^ 32 - 4096 }

/-- A binary payload of 2^32 bytes. -/
def full_range_payload : List Byte := List.replicate (2 ^ 32) 0

/-! ## Requests as they appear in the log -/

/-- The entry `write_procedure` logs: a `write_request` on the DFU service and the
control-point characteristic with the payload `data`, made while `waiting_response` had the
value `awaiting`. -/
def request_write (data : List Byte) (awaiting : Bool) : BleWrite :=
  ⟨.request, NORDIC_SECURE_DFU_SERVICE, NORDIC_DFU_CONTROL_POINT_CHAR, data, awaiting⟩

/-- The nine ASCII bytes `123456789`. -/
def check_message : List Byte := [0x31, 0x32, 0x33, 0x34, 0x35, 0x36, 0x37, 0x38, 0x39]

/-- A session about to create the command object for an init payload of 2^32 bytes. -/
def oversized_init_session : Session :=
  { Session.init (List.replicate (2 ^ 32) 0) [0xAA] with state := .DATAFILE_CREATE_COM_OBJ }

/-- The session with empty payloads, moved to `BINFILE_CREATE_DATA_OBJ`. -/
def empty_create_session : Session :=
  { Session.init [] [] with state := .BINFILE_CREATE_DATA_OBJ }

/-- The payloads written to the packet characteristic in a log of writes. -/
def packet_payloads (log : List BleWrite) : List (List Byte) :=
  (log.filter (fun w => decide (w.characteristic = NORDIC_DFU_PACKET_CHAR))).map
    (fun w => w.data)

/-- A step of the program as in `Step`, where no notification is handed to `notify` between
the call of `event_handler` that enters `BINFILE_WRITE_EXECUTE_FINAL` and the call of
`manage_state` of the next iteration, that is, while `mid = false` and the state is
`BINFILE_WRITE_EXECUTE_FINAL`. -/
inductive QuietStep : Bool × Session → Bool × Session → Prop
  | manage (s : Session) : terminal s.state = false →
      QuietStep (false, s) (true, manage_state s)
  | handle (s : Session) : s.waiting_response = false →
      QuietStep (true, s) (false, event_handler s)
  | notified (mid : Bool) (s s1 : Session) (service characteristic : String)
      (data : List Byte) : (mid = false → s.state ≠ .BINFILE_WRITE_EXECUTE_FINAL) →
      notify service characteristic data s = some s1 → QuietStep (mid, s) (mid, s1)

/-- The pairs reachable from the constructed session by steps of `QuietStep`. -/
inductive QuietReachable (datafile binfile : List Byte) : Bool × Session → Prop
  | init : QuietReachable datafile binfile (false, Session.init datafile binfile)
  | step (c c1 : Bool × Session) : QuietReachable datafile binfile c → QuietStep c c1 →
      QuietReachable datafile binfile c1

/-! ## A peer that answers every awaited request with success -/

/-- The success response to the request with opcode `op`, carrying `value`, as a notification
on the control-point characteristic. -/
def success_response (op : Byte) (value : List Byte) : Notification :=
  (NORDIC_SECURE_DFU_SERVICE, NORDIC_DFU_CONTROL_POINT_CHAR,
    RESPONSE_CODE_KEY :: op :: SUCCESS_RESP :: value)

/-- The peer sends nothing while the driver does not await a response; when the driver awaits
one, the last write being a request with opcode `op`, the peer sends exactly the success
response echoing `op`, which for a checksum request carries some offset and the CRC the
driver computed, and no value otherwise. -/
def Answers (dev : Device) : Prop :=
  ∀ s : Session,
    (s.waiting_response = false → dev s = []) ∧
    (s.waiting_response = true →
      ∀ (w : BleWrite) (op : Byte) (rest : List Byte),
        s.writes.getLast? = some w → w.kind = .request → w.data = op :: rest →
        (op = CALCULATE_CHECKSUM_KEY →
          ∃ off, off < 2 ^ 32 ∧
            dev s = [success_response op (le32_bytes off ++ le32_bytes s.crc32_result)]) ∧
        (op ≠ CALCULATE_CHECKSUM_KEY → dev s = [success_response op []]))

/-- A peer of the kind `Answers` describes, reporting offset 0 in checksum responses. -/
def honest_device : Device := fun s =>
  if s.waiting_response = true then
    match s.writes.getLast? with
    | some w =>
      match w.data with
      | op :: _ =>
        if op = CALCULATE_CHECKSUM_KEY then
          [success_response op (le32_bytes 0 ++ le32_bytes s.crc32_result)]
        else [success_response op []]
      | [] => []
    | none => []
  else []

/-- The four states the driver goes through for one data object. -/
def object_cycle : List state_t :=
  [.BINFILE_CREATE_DATA_OBJ, .BINFILE_WRITE_MTU_CHUNK, .BINFILE_REQ_CHECKSUM,
   .BINFILE_WRITE_EXECUTE]

/-- The states of a successful run for a binary payload of `L` bytes, in order: the six
states up to the execution of the init packet, `ceil(L / 4096)` object cycles, the final
execute, and `DFU_FINISHED`. -/
def success_path (L : Nat) : List state_t :=
  [.DFU_IDLE, .SET_NOTIF_VALUE, .DATAFILE_CREATE_COM_OBJ, .DATAFILE_WRITE_FILE,
   .DATAFILE_REQ_CHECKSUM, .DATAFILE_WRITE_EXECUTE]
    ++ (List.replicate ((L + 4095) / 4096) object_cycle).flatten
    ++ [.BINFILE_WRITE_EXECUTE_FINAL, .DFU_FINISHED]

/-- Iterations of the loop of `run_dfu`: from `s`, the loop makes one iteration for each
state of the list, each at that state and returning, and is then at `t`. -/
def Reaches (dev : Device) : Session → List state_t → Session → Prop
  | s, [], t => s = t
  | s, st :: path, t =>
    s.state = st ∧ terminal st = false ∧ ∃ s1, run dev s = some s1 ∧ Reaches dev s1 path t

/-- The planner's view of the binary payload is the same in `t` as in `s`. -/
def SameBin (s t : Session) : Prop :=
  t.binfile_data = s.binfile_data ∧ t.bin_bytes_written = s.bin_bytes_written ∧
  t.bin_bytes_to_write = s.bin_bytes_to_write ∧ t.mtu_last_chunk = s.mtu_last_chunk

/-! ## Lemmas on bytes and words -/

theorem ofNat_mod_val (n : Nat) : (Fin.ofNat (n % 256) : Byte).val = n % 256 := by
  simp [Fin.ofNat]

theorem le32_bytes_length (n : Nat) : (le32_bytes n).length = 4 := rfl

theorem char_at_cons_succ (a : Byte) (l : List Byte) (i : Nat) :
    char_at (a :: l) (i + 1) = char_at l i := by
  simp [char_at]

theorem char_at_append_cons (pre post : List Byte) (b : Byte) :
    char_at (pre ++ b :: post) pre.length = some b := by
  induction pre with
  | nil => simp [char_at]
  | cons a l ih => simpa [char_at_cons_succ] using ih

/-- Reading a word where four known bytes lie, after `pre` and before `post`. -/
theorem read_u32_append (pre post : List Byte) (b0 b1 b2 b3 : Byte) :
    read_u32 (pre ++ b0 :: b1 :: b2 :: b3 :: post) pre.length
      = some (b0.val + 256 * b1.val + 65536 * b2.val + 16777216 * b3.val) := by
  have h0 := char_at_append_cons pre (b1 :: b2 :: b3 :: post) b0
  have h1 := char_at_append_cons (pre ++ [b0]) (b2 :: b3 :: post) b1
  have h2 := char_at_append_cons (pre ++ [b0, b1]) (b3 :: post) b2
  have h3 := char_at_append_cons (pre ++ [b0, b1, b2]) post b3
  simp only [List.append_assoc, List.cons_append, List.nil_append, List.length_append,
    List.length_cons, List.length_nil] at h1 h2 h3
  simp [read_u32, h0, h1, h2, h3]

/-- Little-endian decoding undoes little-endian encoding of a 32-bit value. -/
theorem read_u32_le32_bytes (pre post : List Byte) (n : Nat) (hn : n < 2 ^ 32) :
    read_u32 (pre ++ le32_bytes n ++ post) pre.length = some n := by
  have h := read_u32_append pre post (Fin.ofNat (n % 256)) (Fin.ofNat (n / 256 % 256))
    (Fin.ofNat (n / 65536 % 256)) (Fin.ofNat (n / 16777216 % 256))
  simp only [le32_bytes, List.append_assoc, List.cons_append, List.nil_append]
  rw [h, ofNat_mod_val, ofNat_mod_val, ofNat_mod_val, ofNat_mod_val]
  congr 1
  omega

/-- The bytes 1 and 2 of a payload of at least three bytes. -/
theorem char_at_header (b0 op rc : Byte) (rest : List Byte) :
    char_at (b0 :: op :: rc :: rest) 0 = some b0 ∧
    char_at (b0 :: op :: rc :: rest) 1 = some op ∧
    char_at (b0 :: op :: rc :: rest) 2 = some rc := by
  simp [char_at]

/-! ## Decoding of responses -/

/-- What `notify` does on the control-point channel with a payload of at least three bytes
that starts with the response key: `process_response_data`, then the flag is cleared. -/
theorem notify_control_point (op rc : Byte) (rest : List Byte) (s : Session) :
    notify NORDIC_SECURE_DFU_SERVICE NORDIC_DFU_CONTROL_POINT_CHAR
        (RESPONSE_CODE_KEY :: op :: rc :: rest) s
      = (process_response_data (RESPONSE_CODE_KEY :: op :: rc :: rest) s).map
          (fun s1 => { s1 with waiting_response := false }) := by
  obtain ⟨h0, -, -⟩ := char_at_header RESPONSE_CODE_KEY op rc rest
  unfold notify
  rw [h0]
  cases process_response_data (RESPONSE_CODE_KEY :: op :: rc :: rest) s <;> simp

/-- The decoder on a success response to a checksum request carrying two encoded words. -/
theorem process_checksum_response (offset crc : Nat) (ho : offset < 2 ^ 32)
    (hc : crc < 2 ^ 32) (s : Session) :
    process_response_data
        (RESPONSE_CODE_KEY :: CALCULATE_CHECKSUM_KEY :: SUCCESS_RESP ::
          (le32_bytes offset ++ le32_bytes crc)) s
      = some { s with
          received_event := .CHECKSUM_RECEIVED
          response :=
            { request_opcode := CALCULATE_CHECKSUM_KEY
              result_code := SUCCESS_RESP
              resp_val := { s.response.resp_val with word0 := offset, word1 := crc } } } := by
  obtain ⟨-, h1, h2⟩ := char_at_header RESPONSE_CODE_KEY CALCULATE_CHECKSUM_KEY SUCCESS_RESP
    (le32_bytes offset ++ le32_bytes crc)
  have r3 := read_u32_le32_bytes [RESPONSE_CODE_KEY, CALCULATE_CHECKSUM_KEY, SUCCESS_RESP]
    (le32_bytes crc) offset ho
  have r7 := read_u32_le32_bytes
    ([RESPONSE_CODE_KEY, CALCULATE_CHECKSUM_KEY, SUCCESS_RESP] ++ le32_bytes offset) [] crc hc
  simp only [List.append_assoc, List.cons_append, List.nil_append, List.length_append,
    List.length_cons, List.length_nil, le32_bytes_length, List.append_nil] at r3 r7
  unfold process_response_data
  rw [h1, h2]
  simp only [if_true, r3, r7]

/-- C1: for all 32-bit offset and crc, `notify` on the DFU service and control-point
characteristic with the payload `[0x60, 0x03, 0x01] ++ LE32(offset) ++ LE32(crc)` returns,
sets `received_event` to `CHECKSUM_RECEIVED` and stores `request_opcode = 0x03`,
`result_code = 0x01`, `checksum.offset = offset`, `checksum.crc32 = crc`. -/
theorem C1_checksum_response_roundtrip (offset crc : Nat) (ho : offset < 2 ^ 32)
    (hc : crc < 2 ^ 32) (s : Session) :
    ∃ s1, notify NORDIC_SECURE_DFU_SERVICE NORDIC_DFU_CONTROL_POINT_CHAR
            ([0x60, 0x03, 0x01] ++ le32_bytes offset ++ le32_bytes crc) s = some s1 ∧
      s1.received_event = .CHECKSUM_RECEIVED ∧
      s1.response.request_opcode = 0x03 ∧
      s1.response.result_code = 0x01 ∧
      s1.response.resp_val.checksum_offset = offset ∧
      s1.response.resp_val.checksum_crc32 = crc := by
  have hn := notify_control_point CALCULATE_CHECKSUM_KEY SUCCESS_RESP
    (le32_bytes offset ++ le32_bytes crc) s
  rw [process_checksum_response offset crc ho hc s] at hn
  refine ⟨_, hn, rfl, rfl, rfl, rfl, rfl⟩

/-- C1 at offset 4096 and crc 0xCBF43926, from the constructed session. -/
theorem C1_checksum_response_roundtrip_witness :
    (4096 < 2 ^ 32 ∧ 0xCBF43926 < 2 ^ 32) ∧
    ∃ s1, notify NORDIC_SECURE_DFU_SERVICE NORDIC_DFU_CONTROL_POINT_CHAR
            ([0x60, 0x03, 0x01] ++ le32_bytes 4096 ++ le32_bytes 0xCBF43926)
            (Session.init [] []) = some s1 ∧
      s1.received_event = .CHECKSUM_RECEIVED ∧
      s1.response.request_opcode = 0x03 ∧
      s1.response.result_code = 0x01 ∧
      s1.response.resp_val.checksum_offset = 4096 ∧
      s1.response.resp_val.checksum_crc32 = 0xCBF43926 :=
  ⟨⟨by decide, by decide⟩,
    C1_checksum_response_roundtrip 4096 0xCBF43926 (by decide) (by decide) (Session.init [] [])⟩

/-! ## Transitions of `event_handler` -/

/-- C3: from `DATAFILE_CREATE_COM_OBJ`, `event_handler` yields `DATAFILE_WRITE_FILE` when
the event is `CREATE_SUC` and `DFU_ERROR` for every other event, whatever the other fields
of the session are. -/
theorem C3_datafile_create_transition (s : Session)
    (hs : s.state = .DATAFILE_CREATE_COM_OBJ) :
    (s.received_event = .CREATE_SUC → (event_handler s).state = .DATAFILE_WRITE_FILE) ∧
    (s.received_event ≠ .CREATE_SUC → (event_handler s).state = .DFU_ERROR) := by
  constructor <;> intro he <;> simp [event_handler, next_state, hs, he]

/-- C3 at the constructed session moved to `DATAFILE_CREATE_COM_OBJ`, whose event is
`NO_EVENT`. -/
theorem C3_datafile_create_transition_witness :
    ({ Session.init [] [] with state := .DATAFILE_CREATE_COM_OBJ } : Session).state
        = .DATAFILE_CREATE_COM_OBJ ∧
    (event_handler { Session.init [] [] with state := .DATAFILE_CREATE_COM_OBJ }).state
        = .DFU_ERROR :=
  ⟨rfl, (C3_datafile_create_transition
    { Session.init [] [] with state := .DATAFILE_CREATE_COM_OBJ } rfl).2 (by decide)⟩

/-- C4 as stated fails: in `BINFILE_REQ_CHECKSUM` with event `NO_EVENT`, local CRC 0 and
device-reported CRC 1, `event_handler` yields `DFU_ERROR`, not `DFU_ERROR_CHECKSUM`. -/
theorem C4_counterexample :
    mismatch_without_checksum_event.state = .BINFILE_REQ_CHECKSUM ∧
    mismatch_without_checksum_event.crc32_result
      ≠ mismatch_without_checksum_event.response.resp_val.checksum_crc32 ∧
    (event_handler mismatch_without_checksum_event).state = .DFU_ERROR ∧
    (event_handler mismatch_without_checksum_event).state ≠ .DFU_ERROR_CHECKSUM := by
  decide

/-- C4, amended: in `BINFILE_REQ_CHECKSUM` with a local CRC that differs from the CRC of the
decoded response, `event_handler` yields `DFU_ERROR_CHECKSUM` when the event is
`CHECKSUM_RECEIVED`, and `DFU_ERROR` for every other event. -/
theorem C4_binfile_checksum_mismatch (s : Session) (hs : s.state = .BINFILE_REQ_CHECKSUM)
    (hx : s.crc32_result ≠ s.response.resp_val.checksum_crc32) :
    (s.received_event = .CHECKSUM_RECEIVED →
      (event_handler s).state = .DFU_ERROR_CHECKSUM) ∧
    (s.received_event ≠ .CHECKSUM_RECEIVED → (event_handler s).state = .DFU_ERROR) := by
  constructor <;> intro he <;> simp [event_handler, next_state, checksum_match, hs, he, hx]

/-- C4, amended, at a session in `BINFILE_REQ_CHECKSUM` with event `CHECKSUM_RECEIVED`,
local CRC 0 and device-reported CRC 1. -/
theorem C4_binfile_checksum_mismatch_witness :
    ({ mismatch_without_checksum_event with
        received_event := .CHECKSUM_RECEIVED } : Session).state = .BINFILE_REQ_CHECKSUM ∧
    (event_handler { mismatch_without_checksum_event with
        received_event := .CHECKSUM_RECEIVED }).state = .DFU_ERROR_CHECKSUM :=
  ⟨rfl, (C4_binfile_checksum_mismatch
    { mismatch_without_checksum_event with received_event := .CHECKSUM_RECEIVED } rfl
    (by decide)).1 rfl⟩

/-- C5: in each checksum state with event `CHECKSUM_RECEIVED`, `event_handler` advances to
the matching execute state exactly when `crc32_result` equals the device-reported
`checksum.crc32`, and otherwise yields `DFU_ERROR_CHECKSUM`. -/
theorem C5_checksum_states (s : Session) (he : s.received_event = .CHECKSUM_RECEIVED) :
    (s.state = .DATAFILE_REQ_CHECKSUM →
      ((event_handler s).state = .DATAFILE_WRITE_EXECUTE ↔
        s.crc32_result = s.response.resp_val.checksum_crc32) ∧
      (s.crc32_result ≠ s.response.resp_val.checksum_crc32 →
        (event_handler s).state = .DFU_ERROR_CHECKSUM)) ∧
    (s.state = .BINFILE_REQ_CHECKSUM →
      ((event_handler s).state = .BINFILE_WRITE_EXECUTE ↔
        s.crc32_result = s.response.resp_val.checksum_crc32) ∧
      (s.crc32_result ≠ s.response.resp_val.checksum_crc32 →
        (event_handler s).state = .DFU_ERROR_CHECKSUM)) := by
  constructor <;> intro hs <;>
    by_cases hx : s.crc32_result = s.response.resp_val.checksum_crc32 <;>
    simp [event_handler, next_state, checksum_match, hs, he, hx]

/-- C5 at a session in `BINFILE_REQ_CHECKSUM` with event `CHECKSUM_RECEIVED`, local CRC 0
and device-reported CRC 1. -/
theorem C5_checksum_states_witness :
    ({ mismatch_without_checksum_event with
        received_event := .CHECKSUM_RECEIVED } : Session).received_event
      = .CHECKSUM_RECEIVED ∧
    (event_handler { mismatch_without_checksum_event with
        received_event := .CHECKSUM_RECEIVED }).state = .DFU_ERROR_CHECKSUM :=
  ⟨rfl, ((C5_checksum_states
    { mismatch_without_checksum_event with received_event := .CHECKSUM_RECEIVED } rfl).2
    rfl).2 (by decide)⟩

/-- C6: in each of the seven states gated by a device event, listed with the one event the
state expects, every other event makes `event_handler` yield `DFU_ERROR`. -/
theorem C6_unexpected_event (s : Session) (p : state_t × event_t)
    (hp : p ∈
      [(state_t.SET_NOTIF_VALUE, event_t.PACKET_RECEIPT_NOTIF_REQ_SUC),
      (state_t.DATAFILE_CREATE_COM_OBJ, event_t.CREATE_SUC),
      (state_t.DATAFILE_REQ_CHECKSUM, event_t.CHECKSUM_RECEIVED),
      (state_t.DATAFILE_WRITE_EXECUTE, event_t.EXECUTE_SUC),
      (state_t.BINFILE_CREATE_DATA_OBJ, event_t.CREATE_SUC),
      (state_t.BINFILE_REQ_CHECKSUM, event_t.CHECKSUM_RECEIVED),
      (state_t.BINFILE_WRITE_EXECUTE, event_t.EXECUTE_SUC)])
    (hs : s.state = p.1) (he : s.received_event ≠ p.2) :
    (event_handler s).state = .DFU_ERROR := by
  simp only [List.mem_cons, List.mem_singleton, List.not_mem_nil,
    or_false] at hp
  rcases hp with rfl | rfl | rfl | rfl | rfl | rfl | rfl <;>
    simp only at hs he <;> simp [event_handler, next_state, hs, he]

/-- C6 at a session in `BINFILE_REQ_CHECKSUM` with event `NO_EVENT`. -/
theorem C6_unexpected_event_witness :
    ((state_t.BINFILE_REQ_CHECKSUM, event_t.CHECKSUM_RECEIVED) ∈
      [(state_t.SET_NOTIF_VALUE, event_t.PACKET_RECEIPT_NOTIF_REQ_SUC),
      (state_t.DATAFILE_CREATE_COM_OBJ, event_t.CREATE_SUC),
      (state_t.DATAFILE_REQ_CHECKSUM, event_t.CHECKSUM_RECEIVED),
      (state_t.DATAFILE_WRITE_EXECUTE, event_t.EXECUTE_SUC),
      (state_t.BINFILE_CREATE_DATA_OBJ, event_t.CREATE_SUC),
      (state_t.BINFILE_REQ_CHECKSUM, event_t.CHECKSUM_RECEIVED),
      (state_t.BINFILE_WRITE_EXECUTE, event_t.EXECUTE_SUC)] ∧
      mismatch_without_checksum_event.state = .BINFILE_REQ_CHECKSUM ∧
      mismatch_without_checksum_event.received_event ≠ .CHECKSUM_RECEIVED) ∧
    (event_handler mismatch_without_checksum_event).state = .DFU_ERROR :=
  ⟨⟨by decide, rfl, by decide⟩,
    C6_unexpected_event mismatch_without_checksum_event
      (.BINFILE_REQ_CHECKSUM, .CHECKSUM_RECEIVED) (by decide) rfl (by decide)⟩

/-- C7: from `BINFILE_WRITE_EXECUTE` with event `EXECUTE_SUC`, `event_handler` yields
`BINFILE_WRITE_EXECUTE_FINAL` when `mtu_last_chunk` is true and `BINFILE_CREATE_DATA_OBJ`
otherwise. -/
theorem C7_binfile_execute_routing (s : Session) (hs : s.state = .BINFILE_WRITE_EXECUTE)
    (he : s.received_event = .EXECUTE_SUC) :
    (event_handler s).state =
      if s.mtu_last_chunk = true then .BINFILE_WRITE_EXECUTE_FINAL
      else .BINFILE_CREATE_DATA_OBJ := by
  simp [event_handler, next_state, hs, he]

/-- C7 at a session in `BINFILE_WRITE_EXECUTE` with event `EXECUTE_SUC` and the flag set. -/
theorem C7_binfile_execute_routing_witness :
    (({ Session.init [] [] with
        state := .BINFILE_WRITE_EXECUTE, received_event := .EXECUTE_SUC,
        mtu_last_chunk := true } : Session).state = .BINFILE_WRITE_EXECUTE ∧
      ({ Session.init [] [] with
        state := .BINFILE_WRITE_EXECUTE, received_event := .EXECUTE_SUC,
        mtu_last_chunk := true } : Session).received_event = .EXECUTE_SUC) ∧
    (event_handler { Session.init [] [] with
        state := .BINFILE_WRITE_EXECUTE, received_event := .EXECUTE_SUC,
        mtu_last_chunk := true }).state = .BINFILE_WRITE_EXECUTE_FINAL :=
  ⟨⟨rfl, rfl⟩, C7_binfile_execute_routing
    { Session.init [] [] with
        state := .BINFILE_WRITE_EXECUTE, received_event := .EXECUTE_SUC,
        mtu_last_chunk := true } rfl rfl⟩

/-! ## Decoding of responses that carry no value -/

/-- The decoder on a response whose result code is not success. -/
theorem process_failure_response (op rc : Byte) (rest : List Byte) (s : Session)
    (hrc : rc ≠ SUCCESS_RESP) :
    process_response_data (RESPONSE_CODE_KEY :: op :: rc :: rest) s
      = some { s with
          received_event := .ERROR_RECEIVED
          response := { s.response with request_opcode := op, result_code := rc } } := by
  obtain ⟨-, h1, h2⟩ := char_at_header RESPONSE_CODE_KEY op rc rest
  unfold process_response_data
  rw [h1, h2]
  simp [hrc]

/-- The decoder on a success response whose opcode is neither checksum nor select. -/
theorem process_plain_success_response (op : Byte) (rest : List Byte) (s : Session)
    (h3 : op ≠ CALCULATE_CHECKSUM_KEY) (h6 : op ≠ SELECT_OBJECT_KEY) :
    process_response_data (RESPONSE_CODE_KEY :: op :: SUCCESS_RESP :: rest) s
      = some { s with
          received_event :=
            if rest.length % 2 ^ 32 = 0 then success_event op else .ERROR_INV_LEN
          response :=
            { s.response with request_opcode := op, result_code := SUCCESS_RESP } } := by
  obtain ⟨-, h1, h2⟩ := char_at_header RESPONSE_CODE_KEY op SUCCESS_RESP rest
  have hlen : ((RESPONSE_CODE_KEY :: op :: SUCCESS_RESP :: rest).length + 2 ^ 32 - 3) % 2 ^ 32
      = rest.length % 2 ^ 32 := by
    simp only [List.length_cons]
    omega
  unfold process_response_data
  rw [h1, h2]
  simp only [hlen, if_true, if_neg h3, if_neg h6]
  by_cases hz : rest.length % 2 ^ 32 = 0
  · rw [if_neg (not_not.mpr hz), if_pos hz]
  · rw [if_pos hz, if_neg hz]

/-- C8 as stated fails: the success response `[0x60, 0x07, 0x01, 0x00]`, whose opcode 0x07
is none of the listed ones and which has one byte after the result code, is decoded to
`ERROR_INV_LEN`, not to `ERROR_UNKNOW_REC_OP`. -/
theorem C8_counterexample :
    (notify NORDIC_SECURE_DFU_SERVICE NORDIC_DFU_CONTROL_POINT_CHAR unknown_opcode_with_value
        (Session.init [] [])).map Session.received_event = some .ERROR_INV_LEN ∧
    (notify NORDIC_SECURE_DFU_SERVICE NORDIC_DFU_CONTROL_POINT_CHAR unknown_opcode_with_value
        (Session.init [] [])).map Session.received_event ≠ some .ERROR_UNKNOW_REC_OP := by
  have h : (notify NORDIC_SECURE_DFU_SERVICE NORDIC_DFU_CONTROL_POINT_CHAR
      unknown_opcode_with_value (Session.init [] [])).map Session.received_event
        = some .ERROR_INV_LEN := by
    have hn := notify_control_point 0x07 SUCCESS_RESP [0x00] (Session.init [] [])
    rw [process_plain_success_response 0x07 [0x00] (Session.init [] []) (by decide)
      (by decide)] at hn
    have hd : unknown_opcode_with_value = RESPONSE_CODE_KEY :: 0x07 :: SUCCESS_RESP :: [0x00] :=
      rfl
    rw [hd, hn]
    rfl
  refine ⟨h, ?_⟩
  rw [h]
  decide

/-- C8, amended: for every success response on the control-point channel whose echoed
opcode is none of 0x01, 0x02, 0x03, 0x04, 0x06, 0x60, `notify` returns and sets
`received_event` to `ERROR_UNKNOW_REC_OP` when the 32-bit count of bytes after the result
code is zero, and to `ERROR_INV_LEN` when it is not. -/
theorem C8_unknown_opcode (op : Byte) (rest : List Byte) (s : Session)
    (hop : op ∉ [CREATE_KEY, PACKET_RECEIPT_NOTIF_REQ_KEY, CALCULATE_CHECKSUM_KEY,
      EXECUTE_KEY, SELECT_OBJECT_KEY, RESPONSE_CODE_KEY]) :
    ∃ s1, notify NORDIC_SECURE_DFU_SERVICE NORDIC_DFU_CONTROL_POINT_CHAR
            (0x60 :: op :: 0x01 :: rest) s = some s1 ∧
      (rest.length % 2 ^ 32 = 0 → s1.received_event = .ERROR_UNKNOW_REC_OP) ∧
      (rest.length % 2 ^ 32 ≠ 0 → s1.received_event = .ERROR_INV_LEN) := by
  simp only [List.mem_cons, List.mem_singleton, List.not_mem_nil, or_false, not_or] at hop
  obtain ⟨h1, h2, h3, h4, h6, h60⟩ := hop
  have hn := notify_control_point op SUCCESS_RESP rest s
  rw [process_plain_success_response op rest s h3 h6] at hn
  refine ⟨_, hn, ?_, ?_⟩
  · intro hz
    show (if rest.length % 2 ^ 32 = 0 then success_event op else event_t.ERROR_INV_LEN) = _
    rw [if_pos hz]
    simp [success_event, h1, h2, h4, h6, h60]
  · intro hz
    show (if rest.length % 2 ^ 32 = 0 then success_event op else event_t.ERROR_INV_LEN) = _
    rw [if_neg hz]

/-- C8, amended, at opcode 0x07 with no byte after the result code. -/
theorem C8_unknown_opcode_witness :
    (0x07 : Byte) ∉ [CREATE_KEY, PACKET_RECEIPT_NOTIF_REQ_KEY, CALCULATE_CHECKSUM_KEY,
      EXECUTE_KEY, SELECT_OBJECT_KEY, RESPONSE_CODE_KEY] ∧
    ∃ s1, notify NORDIC_SECURE_DFU_SERVICE NORDIC_DFU_CONTROL_POINT_CHAR
            (0x60 :: 0x07 :: 0x01 :: []) (Session.init [] []) = some s1 ∧
      (([] : List Byte).length % 2 ^ 32 = 0 → s1.received_event = .ERROR_UNKNOW_REC_OP) ∧
      (([] : List Byte).length % 2 ^ 32 ≠ 0 → s1.received_event = .ERROR_INV_LEN) :=
  ⟨by decide, C8_unknown_opcode 0x07 [] (Session.init [] []) (by decide)⟩

/-- C9: for every payload of at least three bytes that starts with 0x60 and arrives on the
control-point channel, if byte 2 is not `SUCCESS_RESP` then `notify` returns with
`received_event = ERROR_RECEIVED`, whatever byte 1 and the bytes after byte 2 are, bytes 1
and 2 are stored as `request_opcode` and `result_code`, and `resp_val` is unchanged. -/
theorem C9_failure_result (op rc : Byte) (rest : List Byte) (s : Session)
    (hrc : rc ≠ SUCCESS_RESP) :
    ∃ s1, notify NORDIC_SECURE_DFU_SERVICE NORDIC_DFU_CONTROL_POINT_CHAR
            (0x60 :: op :: rc :: rest) s = some s1 ∧
      s1.received_event = .ERROR_RECEIVED ∧
      s1.response.request_opcode = op ∧
      s1.response.result_code = rc ∧
      s1.response.resp_val = s.response.resp_val := by
  have hn := notify_control_point op rc rest s
  rw [process_failure_response op rc rest s hrc] at hn
  exact ⟨_, hn, rfl, rfl, rfl, rfl⟩

/-- C9 at the response `[0x60, 0x03, 0x0B, 0xFF]` (extended error on a checksum request). -/
theorem C9_failure_result_witness :
    (0x0B : Byte) ≠ SUCCESS_RESP ∧
    ∃ s1, notify NORDIC_SECURE_DFU_SERVICE NORDIC_DFU_CONTROL_POINT_CHAR
            (0x60 :: 0x03 :: 0x0B :: [0xFF]) mismatch_without_checksum_event = some s1 ∧
      s1.received_event = .ERROR_RECEIVED ∧
      s1.response.request_opcode = 0x03 ∧
      s1.response.result_code = 0x0B ∧
      s1.response.resp_val = mismatch_without_checksum_event.response.resp_val :=
  ⟨by decide, C9_failure_result 0x03 0x0B [0xFF] mismatch_without_checksum_event (by decide)⟩

/-- C10: for every three-byte response `[0x60, op, 0x01]` on the control-point channel,
`notify` returns and maps `op = 0x01` to `CREATE_SUC`, `op = 0x02` to
`PACKET_RECEIPT_NOTIF_REQ_SUC`, `op = 0x04` to `EXECUTE_SUC` and `op = 0x60` to
`RESPONSE_CODE_SUC`. -/
theorem C10_success_events (s : Session) :
    (notify NORDIC_SECURE_DFU_SERVICE NORDIC_DFU_CONTROL_POINT_CHAR [0x60, 0x01, 0x01] s).map
        Session.received_event = some .CREATE_SUC ∧
    (notify NORDIC_SECURE_DFU_SERVICE NORDIC_DFU_CONTROL_POINT_CHAR [0x60, 0x02, 0x01] s).map
        Session.received_event = some .PACKET_RECEIPT_NOTIF_REQ_SUC ∧
    (notify NORDIC_SECURE_DFU_SERVICE NORDIC_DFU_CONTROL_POINT_CHAR [0x60, 0x04, 0x01] s).map
        Session.received_event = some .EXECUTE_SUC ∧
    (notify NORDIC_SECURE_DFU_SERVICE NORDIC_DFU_CONTROL_POINT_CHAR [0x60, 0x60, 0x01] s).map
        Session.received_event = some .RESPONSE_CODE_SUC := by
  have key : ∀ op : Byte, op ≠ CALCULATE_CHECKSUM_KEY → op ≠ SELECT_OBJECT_KEY →
      (notify NORDIC_SECURE_DFU_SERVICE NORDIC_DFU_CONTROL_POINT_CHAR [0x60, op, 0x01] s).map
        Session.received_event = some (success_event op) := by
    intro op h3 h6
    have hn := notify_control_point op SUCCESS_RESP [] s
    rw [process_plain_success_response op [] s h3 h6] at hn
    have hd : ([0x60, op, 0x01] : List Byte) = RESPONSE_CODE_KEY :: op :: SUCCESS_RESP :: [] :=
      rfl
    rw [hd, hn]
    rfl
  exact ⟨key 0x01 (by decide) (by decide), key 0x02 (by decide) (by decide),
    key 0x04 (by decide) (by decide), key 0x60 (by decide) (by decide)⟩

/-! ## One iteration of the driver against an answering peer -/

theorem run_not_awaiting (dev : Device) (hdev : Answers dev) (s : Session)
    (hw : (manage_state s).waiting_response = false) :
    run dev s = some (event_handler (manage_state s)) := by
  unfold run
  rw [(hdev (manage_state s)).1 hw]
  simp [deliver, hw]

/-- An awaited request other than checksum and select: the event is the success event of the
echoed opcode. -/
theorem run_awaiting_plain (dev : Device) (hdev : Answers dev) (s : Session) (w : BleWrite)
    (op : Byte) (rest : List Byte) (hw : (manage_state s).waiting_response = true)
    (hl : (manage_state s).writes.getLast? = some w) (hk : w.kind = .request)
    (hd : w.data = op :: rest) (h3 : op ≠ CALCULATE_CHECKSUM_KEY)
    (h6 : op ≠ SELECT_OBJECT_KEY) :
    run dev s = some (event_handler
      { manage_state s with
        received_event := success_event op
        response :=
          { (manage_state s).response with request_opcode := op, result_code := SUCCESS_RESP }
        waiting_response := false }) := by
  have hdv := ((hdev (manage_state s)).2 hw w op rest hl hk hd).2 h3
  have hn := notify_control_point op SUCCESS_RESP [] (manage_state s)
  rw [process_plain_success_response op [] (manage_state s) h3 h6] at hn
  unfold run
  rw [hdv]
  simp only [deliver, success_response, hn, Option.map_some']
  rfl

/-- An awaited checksum request: the event is `CHECKSUM_RECEIVED` and the decoded CRC is the
one the driver computed. -/
theorem run_awaiting_checksum (dev : Device) (hdev : Answers dev) (s : Session) (w : BleWrite)
    (rest : List Byte) (hw : (manage_state s).waiting_response = true)
    (hl : (manage_state s).writes.getLast? = some w) (hk : w.kind = .request)
    (hd : w.data = CALCULATE_CHECKSUM_KEY :: rest)
    (hc : (manage_state s).crc32_result < 2 ^ 32) :
    ∃ off, run dev s = some (event_handler
      { manage_state s with
        received_event := .CHECKSUM_RECEIVED
        response :=
          { request_opcode := CALCULATE_CHECKSUM_KEY
            result_code := SUCCESS_RESP
            resp_val :=
              { (manage_state s).response.resp_val with
                word0 := off, word1 := (manage_state s).crc32_result } }
        waiting_response := false }) := by
  obtain ⟨off, ho, hdv⟩ :=
    ((hdev (manage_state s)).2 hw w CALCULATE_CHECKSUM_KEY rest hl hk hd).1 rfl
  refine ⟨off, ?_⟩
  have hn := notify_control_point CALCULATE_CHECKSUM_KEY SUCCESS_RESP
    (le32_bytes off ++ le32_bytes (manage_state s).crc32_result) (manage_state s)
  rw [process_checksum_response off _ ho hc (manage_state s)] at hn
  unfold run
  rw [hdv]
  simp only [deliver, success_response, hn, Option.map_some']
  rfl

/-! ## The iterations up to the first data object -/

theorem step_idle (dev : Device) (hdev : Answers dev) (s : Session)
    (hs : s.state = .DFU_IDLE) :
    ∃ s1, run dev s = some s1 ∧ s1.state = .SET_NOTIF_VALUE ∧ SameBin s s1 := by
  have hw : (manage_state s).waiting_response = false := by simp [manage_state, hs]
  refine ⟨_, run_not_awaiting dev hdev s hw, ?_, ?_⟩
  · simp [event_handler, next_state, manage_state, hs]
  · simp [SameBin, event_handler, manage_state, hs]

theorem step_set_notif_value (dev : Device) (hdev : Answers dev) (s : Session)
    (hs : s.state = .SET_NOTIF_VALUE) :
    ∃ s1, run dev s = some s1 ∧ s1.state = .DATAFILE_CREATE_COM_OBJ ∧ SameBin s s1 := by
  have hm : manage_state s = set_pck_notif_value 0 { s with waiting_response := true } := by
    simp [manage_state, hs]
  refine ⟨_, run_awaiting_plain dev hdev s
    ⟨.request, NORDIC_SECURE_DFU_SERVICE, NORDIC_DFU_CONTROL_POINT_CHAR,
      PACKET_RECEIPT_NOTIF_REQ_KEY :: le16_bytes 0, true⟩
    PACKET_RECEIPT_NOTIF_REQ_KEY (le16_bytes 0) ?_ ?_ rfl rfl (by decide) (by decide), ?_, ?_⟩
  · simp [hm, set_pck_notif_value, write_procedure, write_request]
  · simp [hm, set_pck_notif_value, write_procedure, write_request]
  · simp [hm, event_handler, next_state, set_pck_notif_value, write_procedure, write_request,
      hs, success_event, PACKET_RECEIPT_NOTIF_REQ_KEY, CREATE_KEY]
  · simp [SameBin, hm, event_handler, set_pck_notif_value, write_procedure, write_request]

theorem step_datafile_create (dev : Device) (hdev : Answers dev) (s : Session)
    (hs : s.state = .DATAFILE_CREATE_COM_OBJ) :
    ∃ s1, run dev s = some s1 ∧ s1.state = .DATAFILE_WRITE_FILE ∧ SameBin s s1 := by
  have hm : manage_state s = write_create_request .COMMAND (s.datafile_data.length % 2 ^ 32)
      { s with waiting_response := true } := by
    simp [manage_state, hs]
  refine ⟨_, run_awaiting_plain dev hdev s
    ⟨.request, NORDIC_SECURE_DFU_SERVICE, NORDIC_DFU_CONTROL_POINT_CHAR,
      CREATE_KEY :: object_type_t.COMMAND.toByte ::
        le32_bytes (s.datafile_data.length % 2 ^ 32), true⟩
    CREATE_KEY _ ?_ ?_ rfl rfl (by decide) (by decide), ?_, ?_⟩
  · simp [hm, write_create_request, write_procedure, write_request]
  · simp [hm, write_create_request, write_procedure, write_request]
  · simp [hm, event_handler, next_state, write_create_request, write_procedure, write_request,
      hs, success_event]
  · simp [SameBin, hm, event_handler, write_create_request, write_procedure, write_request]

theorem step_datafile_write (dev : Device) (hdev : Answers dev) (s : Session)
    (hs : s.state = .DATAFILE_WRITE_FILE) :
    ∃ s1, run dev s = some s1 ∧ s1.state = .DATAFILE_REQ_CHECKSUM ∧ SameBin s s1 ∧
      s1.crc32_result < 2 ^ 32 := by
  have hm : manage_state s = write_packet s.datafile_data
      (calculate_crc s.datafile_data s.datafile_data.length
        { s with waiting_response := false }) := by
    simp [manage_state, hs]
  have hw : (manage_state s).waiting_response = false := by
    simp [hm, write_packet, write_command, calculate_crc]
  refine ⟨_, run_not_awaiting dev hdev s hw, ?_, ?_, ?_⟩
  · simp [hm, event_handler, next_state, write_packet, write_command, calculate_crc, hs]
  · simp [SameBin, hm, event_handler, write_packet, write_command, calculate_crc]
  · rw [hm]
    show crcFast s.datafile_data s.datafile_data.length % 2 ^ 32 < 2 ^ 32
    exact Nat.mod_lt _ (by decide)

theorem step_datafile_checksum (dev : Device) (hdev : Answers dev) (s : Session)
    (hs : s.state = .DATAFILE_REQ_CHECKSUM) (hc : s.crc32_result < 2 ^ 32) :
    ∃ s1, run dev s = some s1 ∧ s1.state = .DATAFILE_WRITE_EXECUTE ∧ SameBin s s1 := by
  have hm : manage_state s = request_checksum { s with waiting_response := true } := by
    simp [manage_state, hs]
  obtain ⟨off, hr⟩ := run_awaiting_checksum dev hdev s
    ⟨.request, NORDIC_SECURE_DFU_SERVICE, NORDIC_DFU_CONTROL_POINT_CHAR,
      [CALCULATE_CHECKSUM_KEY], true⟩ []
    (by simp [hm, request_checksum, write_procedure, write_request])
    (by simp [hm, request_checksum, write_procedure, write_request]) rfl rfl
    (by simpa [hm, request_checksum, write_procedure, write_request] using hc)
  refine ⟨_, hr, ?_, ?_⟩
  · simp [hm, event_handler, next_state, request_checksum, write_procedure, write_request, hs,
      checksum_match, response_value_t.checksum_crc32]
  · simp [SameBin, hm, event_handler, request_checksum, write_procedure, write_request]

theorem step_datafile_execute (dev : Device) (hdev : Answers dev) (s : Session)
    (hs : s.state = .DATAFILE_WRITE_EXECUTE) :
    ∃ s1, run dev s = some s1 ∧ s1.state = .BINFILE_CREATE_DATA_OBJ ∧ SameBin s s1 := by
  have hm : manage_state s = write_execute { s with waiting_response := true } := by
    simp [manage_state, hs]
  refine ⟨_, run_awaiting_plain dev hdev s
    ⟨.request, NORDIC_SECURE_DFU_SERVICE, NORDIC_DFU_CONTROL_POINT_CHAR, [EXECUTE_KEY], true⟩
    EXECUTE_KEY [] ?_ ?_ rfl rfl (by decide) (by decide), ?_, ?_⟩
  · simp [hm, write_execute, write_procedure, write_request]
  · simp [hm, write_execute, write_procedure, write_request]
  · simp [hm, event_handler, next_state, write_execute, write_procedure, write_request,
      hs, success_event, EXECUTE_KEY, CREATE_KEY, PACKET_RECEIPT_NOTIF_REQ_KEY]
  · simp [SameBin, hm, event_handler, write_execute, write_procedure, write_request]

/-! ## The iterations of one data object -/

theorem step_binfile_checksum (dev : Device) (hdev : Answers dev) (s : Session)
    (hs : s.state = .BINFILE_REQ_CHECKSUM) (hc : s.crc32_result < 2 ^ 32) :
    ∃ s1, run dev s = some s1 ∧ s1.state = .BINFILE_WRITE_EXECUTE ∧ SameBin s s1 := by
  have hm : manage_state s = request_checksum { s with waiting_response := true } := by
    simp [manage_state, hs]
  obtain ⟨off, hr⟩ := run_awaiting_checksum dev hdev s
    ⟨.request, NORDIC_SECURE_DFU_SERVICE, NORDIC_DFU_CONTROL_POINT_CHAR,
      [CALCULATE_CHECKSUM_KEY], true⟩ []
    (by simp [hm, request_checksum, write_procedure, write_request])
    (by simp [hm, request_checksum, write_procedure, write_request]) rfl rfl
    (by simpa [hm, request_checksum, write_procedure, write_request] using hc)
  refine ⟨_, hr, ?_, ?_⟩
  · simp [hm, event_handler, next_state, request_checksum, write_procedure, write_request, hs,
      checksum_match, response_value_t.checksum_crc32]
  · simp [SameBin, hm, event_handler, request_checksum, write_procedure, write_request]

theorem step_binfile_execute (dev : Device) (hdev : Answers dev) (s : Session)
    (hs : s.state = .BINFILE_WRITE_EXECUTE) :
    ∃ s1, run dev s = some s1 ∧ SameBin s s1 ∧ s1.received_event = .EXECUTE_SUC ∧
      s1.state = (if s.mtu_last_chunk = true then .BINFILE_WRITE_EXECUTE_FINAL
        else .BINFILE_CREATE_DATA_OBJ) := by
  have hm : manage_state s = write_execute { s with waiting_response := true } := by
    simp [manage_state, hs]
  refine ⟨_, run_awaiting_plain dev hdev s
    ⟨.request, NORDIC_SECURE_DFU_SERVICE, NORDIC_DFU_CONTROL_POINT_CHAR, [EXECUTE_KEY], true⟩
    EXECUTE_KEY [] ?_ ?_ rfl rfl (by decide) (by decide), ?_, ?_, ?_⟩
  · simp [hm, write_execute, write_procedure, write_request]
  · simp [hm, write_execute, write_procedure, write_request]
  · simp [SameBin, hm, event_handler, write_execute, write_procedure, write_request]
  · simp [hm, event_handler, write_execute, write_procedure, write_request,
      success_event, EXECUTE_KEY, CREATE_KEY, PACKET_RECEIPT_NOTIF_REQ_KEY]
  · simp [hm, event_handler, next_state, write_execute, write_procedure, write_request,
      hs, success_event, EXECUTE_KEY, CREATE_KEY, PACKET_RECEIPT_NOTIF_REQ_KEY]

theorem step_binfile_execute_final (dev : Device) (hdev : Answers dev) (s : Session)
    (hs : s.state = .BINFILE_WRITE_EXECUTE_FINAL) (he : s.received_event = .EXECUTE_SUC) :
    ∃ s1, run dev s = some s1 ∧ s1.state = .DFU_FINISHED := by
  have hm : manage_state s = write_execute { s with waiting_response := false } := by
    simp [manage_state, hs]
  have hw : (manage_state s).waiting_response = false := by
    simp [hm, write_execute, write_procedure, write_request]
  refine ⟨_, run_not_awaiting dev hdev s hw, ?_⟩
  simp [hm, event_handler, next_state, write_execute, write_procedure, write_request, hs, he]

/-- What the case `BINFILE_CREATE_DATA_OBJ` of `manage_state` does when bytes remain to be
written and the payload length fits 32 bits. -/
theorem manage_create_data_obj_spec (s : Session)
    (hw : s.bin_bytes_written < s.binfile_data.length)
    (hL : s.binfile_data.length ≤ 2 ^ 32) :
    (manage_create_data_obj s).state = s.state ∧
    (manage_create_data_obj s).waiting_response = true ∧
    (∃ w : BleWrite, (manage_create_data_obj s).writes.getLast? = some w ∧
      w.kind = .request ∧ ∃ rest, w.data = CREATE_KEY :: rest) ∧
    (manage_create_data_obj s).binfile_data = s.binfile_data ∧
    (manage_create_data_obj s).bin_bytes_written = s.bin_bytes_written ∧
    (manage_create_data_obj s).bin_bytes_to_write
      = min FLASH_PAGE_SIZE (s.binfile_data.length - s.bin_bytes_written) ∧
    (manage_create_data_obj s).mtu_last_chunk
      = (if s.binfile_data.length - s.bin_bytes_written ≤ FLASH_PAGE_SIZE then true
          else s.mtu_last_chunk) ∧
    (manage_create_data_obj s).crc32_result < 2 ^ 32 := by
  have hrem : bytes_remaining { s with bin_bytes_to_write := FLASH_PAGE_SIZE }
      = s.binfile_data.length - s.bin_bytes_written := by
    simp only [bytes_remaining]
    omega
  have hcrc : ∀ (d : List Byte) (n : Nat), crcFast d n % 2 ^ 32 < 2 ^ 32 :=
    fun d n => Nat.mod_lt _ (by decide)
  by_cases hle : s.binfile_data.length - s.bin_bytes_written ≤ FLASH_PAGE_SIZE
  · have hmod : (s.binfile_data.length - s.bin_bytes_written) % 2 ^ 32
        = s.binfile_data.length - s.bin_bytes_written :=
      Nat.mod_eq_of_lt (by simp only [FLASH_PAGE_SIZE] at hle; omega)
    have hne : s.binfile_data.length - s.bin_bytes_written ≠ 0 := by omega
    have hmin : min FLASH_PAGE_SIZE (s.binfile_data.length - s.bin_bytes_written)
        = s.binfile_data.length - s.bin_bytes_written := Nat.min_eq_right hle
    simp only [manage_create_data_obj, hrem, if_pos hle, hmod, hmin, ne_eq, hne,
      not_false_eq_true, if_true, write_create_request, write_procedure, write_request,
      calculate_crc, List.getLast?_concat]
    exact ⟨trivial, trivial, ⟨_, rfl, rfl, _, rfl⟩, trivial, trivial, trivial, trivial,
      hcrc _ _⟩
  · have hmin : min FLASH_PAGE_SIZE (s.binfile_data.length - s.bin_bytes_written)
        = FLASH_PAGE_SIZE := Nat.min_eq_left (by omega)
    have hne : FLASH_PAGE_SIZE ≠ 0 := by decide
    simp only [manage_create_data_obj, hrem, if_neg hle, hmin, ne_eq, hne,
      not_false_eq_true, if_true, write_create_request, write_procedure, write_request,
      calculate_crc, List.getLast?_concat]
    exact ⟨trivial, trivial, ⟨_, rfl, rfl, _, rfl⟩, trivial, trivial, trivial, trivial,
      hcrc _ _⟩

theorem step_binfile_create (dev : Device) (hdev : Answers dev) (s : Session)
    (hs : s.state = .BINFILE_CREATE_DATA_OBJ)
    (hw : s.bin_bytes_written < s.binfile_data.length)
    (hL : s.binfile_data.length ≤ 2 ^ 32) :
    ∃ s1, run dev s = some s1 ∧ s1.state = .BINFILE_WRITE_MTU_CHUNK ∧
      s1.binfile_data = s.binfile_data ∧
      s1.bin_bytes_written = s.bin_bytes_written ∧
      s1.bin_bytes_to_write
        = min FLASH_PAGE_SIZE (s.binfile_data.length - s.bin_bytes_written) ∧
      s1.mtu_last_chunk
        = (if s.binfile_data.length - s.bin_bytes_written ≤ FLASH_PAGE_SIZE then true
            else s.mtu_last_chunk) ∧
      s1.crc32_result < 2 ^ 32 := by
  have hm : manage_state s = manage_create_data_obj { s with waiting_response := false } := by
    simp [manage_state, hs]
  obtain ⟨h1, h2, ⟨w, hl, hk, rest, hd⟩, h4, h5, h6, h7, h8⟩ :=
    manage_create_data_obj_spec { s with waiting_response := false } hw hL
  rw [← hm] at h1 h2 hl h4 h5 h6 h7 h8
  refine ⟨_, run_awaiting_plain dev hdev s w CREATE_KEY rest h2 hl hk hd (by decide)
    (by decide), ?_, h4, h5, h6, h7, h8⟩
  have hst : (manage_state s).state = .BINFILE_CREATE_DATA_OBJ := by rw [h1]; exact hs
  simp [event_handler, next_state, hst, success_event]

/-- The packet loop of `BINFILE_WRITE_MTU_CHUNK` only extends the log of writes. -/
theorem write_full_chunks_fields (l : List Nat) (s : Session) :
    (write_full_chunks l s).state = s.state ∧
    (write_full_chunks l s).waiting_response = s.waiting_response ∧
    (write_full_chunks l s).binfile_data = s.binfile_data ∧
    (write_full_chunks l s).bin_bytes_written = s.bin_bytes_written ∧
    (write_full_chunks l s).bin_bytes_to_write = s.bin_bytes_to_write ∧
    (write_full_chunks l s).mtu_last_chunk = s.mtu_last_chunk ∧
    (write_full_chunks l s).crc32_result = s.crc32_result ∧
    (write_full_chunks l s).mtu_extra_bytes = s.mtu_extra_bytes ∧
    (write_full_chunks l s).mtu_chunks_remaing = s.mtu_chunks_remaing ∧
    (write_full_chunks l s).received_event = s.received_event := by
  induction l generalizing s with
  | nil => simp [write_full_chunks]
  | cons i l ih =>
    have h := ih (write_packet
      (substr s.binfile_data ((s.bin_bytes_written + MTU_CHUNK * i) % 2 ^ 32) MTU_CHUNK) s)
    simpa [write_full_chunks, write_packet, write_command] using h

theorem manage_write_mtu_chunk_spec (s : Session) :
    (manage_write_mtu_chunk s).state = s.state ∧
    (manage_write_mtu_chunk s).waiting_response = false ∧
    (manage_write_mtu_chunk s).binfile_data = s.binfile_data ∧
    (manage_write_mtu_chunk s).bin_bytes_written
      = (s.bin_bytes_written + s.bin_bytes_to_write) % 2 ^ 32 ∧
    (manage_write_mtu_chunk s).bin_bytes_to_write = s.bin_bytes_to_write ∧
    (manage_write_mtu_chunk s).mtu_last_chunk = s.mtu_last_chunk ∧
    (manage_write_mtu_chunk s).crc32_result = s.crc32_result := by
  obtain ⟨h1, h2, h3, h4, h5, h6, h7, h8, -, -⟩ :=
    write_full_chunks_fields (List.range (s.bin_bytes_to_write / MTU_CHUNK))
      { s with waiting_response := false
               mtu_chunks_remaing := s.bin_bytes_to_write / MTU_CHUNK
               mtu_extra_bytes := s.bin_bytes_to_write % MTU_CHUNK }
  simp only at h1 h2 h3 h4 h5 h6 h7 h8
  unfold manage_write_mtu_chunk
  simp only [h8]
  split_ifs <;>
    simp only [write_packet, write_command, h1, h2, h3, h4, h5, h6, h7] <;>
    exact ⟨trivial, trivial, trivial, trivial, trivial, trivial, trivial⟩

theorem step_binfile_write (dev : Device) (hdev : Answers dev) (s : Session)
    (hs : s.state = .BINFILE_WRITE_MTU_CHUNK) :
    ∃ s1, run dev s = some s1 ∧ s1.state = .BINFILE_REQ_CHECKSUM ∧
      s1.binfile_data = s.binfile_data ∧
      s1.bin_bytes_written = (s.bin_bytes_written + s.bin_bytes_to_write) % 2 ^ 32 ∧
      s1.bin_bytes_to_write = s.bin_bytes_to_write ∧
      s1.mtu_last_chunk = s.mtu_last_chunk ∧
      s1.crc32_result = s.crc32_result := by
  have hm : manage_state s = manage_write_mtu_chunk { s with waiting_response := false } := by
    simp [manage_state, hs]
  obtain ⟨h1, h2, h3, h4, h5, h6, h7⟩ :=
    manage_write_mtu_chunk_spec { s with waiting_response := false }
  rw [← hm] at h1 h2 h3 h4 h5 h6 h7
  refine ⟨_, run_not_awaiting dev hdev s h2, ?_, h3, h4, h5, h6, h7⟩
  have hst : (manage_state s).state = .BINFILE_WRITE_MTU_CHUNK := by rw [h1]; exact hs
  simp [event_handler, next_state, hst]

/-! ## Chaining iterations -/

theorem Reaches.append (dev : Device) (p1 p2 : List state_t) (s m t : Session)
    (h1 : Reaches dev s p1 m) (h2 : Reaches dev m p2 t) : Reaches dev s (p1 ++ p2) t := by
  induction p1 generalizing s with
  | nil =>
    have hsm : s = m := h1
    simpa [hsm] using h2
  | cons st p ih =>
    obtain ⟨hst, hterm, s1, hrun, hrest⟩ := h1
    exact ⟨hst, hterm, s1, hrun, ih s1 hrest⟩

theorem Reaches.one (dev : Device) (s s1 : Session) (st : state_t) (hst : s.state = st)
    (hterm : terminal st = false) (hrun : run dev s = some s1) : Reaches dev s [st] s1 :=
  ⟨hst, hterm, s1, hrun, rfl⟩

/-- Iterations that end in a terminal state are what `run_dfu` does, given enough fuel. -/
theorem run_dfu_of_reaches (dev : Device) (path : List state_t) (s t : Session)
    (h : Reaches dev s path t) (ht : terminal t.state = true) (fuel : Nat)
    (hf : path.length ≤ fuel) : run_dfu dev fuel s = some (path, t) := by
  induction path generalizing s fuel with
  | nil =>
    have hst : s = t := h
    subst hst
    cases fuel <;> simp [run_dfu, ht]
  | cons st p ih =>
    obtain ⟨hst, hterm, s1, hrun, hrest⟩ := h
    cases fuel with
    | zero => simp at hf
    | succ n =>
      have hn : p.length ≤ n := by simpa using hf
      have hs : terminal s.state = false := by rw [hst]; exact hterm
      subst hst
      simp [run_dfu, hs, hrun, ih s1 hrest n hn]

/-- The six iterations from the constructed session to the first data object. -/
theorem reaches_first_object (dev : Device) (hdev : Answers dev) (s : Session)
    (hs : s.state = .DFU_IDLE) :
    ∃ t, Reaches dev s
        [.DFU_IDLE, .SET_NOTIF_VALUE, .DATAFILE_CREATE_COM_OBJ, .DATAFILE_WRITE_FILE,
         .DATAFILE_REQ_CHECKSUM, .DATAFILE_WRITE_EXECUTE] t ∧
      t.state = .BINFILE_CREATE_DATA_OBJ ∧ SameBin s t := by
  obtain ⟨s1, r1, e1, b1⟩ := step_idle dev hdev s hs
  obtain ⟨s2, r2, e2, b2⟩ := step_set_notif_value dev hdev s1 e1
  obtain ⟨s3, r3, e3, b3⟩ := step_datafile_create dev hdev s2 e2
  obtain ⟨s4, r4, e4, b4, c4⟩ := step_datafile_write dev hdev s3 e3
  obtain ⟨s5, r5, e5, b5⟩ := step_datafile_checksum dev hdev s4 e4 c4
  obtain ⟨s6, r6, e6, b6⟩ := step_datafile_execute dev hdev s5 e5
  refine ⟨s6, ⟨hs, rfl, s1, r1, e1, rfl, s2, r2, e2, rfl, s3, r3, e3, rfl, s4, r4, e4, rfl,
    s5, r5, e5, rfl, s6, r6, rfl⟩, e6, ?_⟩
  simp only [SameBin] at b1 b2 b3 b4 b5 b6 ⊢
  refine ⟨?_, ?_, ?_, ?_⟩
  · rw [b6.1, b5.1, b4.1, b3.1, b2.1, b1.1]
  · rw [b6.2.1, b5.2.1, b4.2.1, b3.2.1, b2.2.1, b1.2.1]
  · rw [b6.2.2.1, b5.2.2.1, b4.2.2.1, b3.2.2.1, b2.2.2.1, b1.2.2.1]
  · rw [b6.2.2.2, b5.2.2.2, b4.2.2.2, b3.2.2.2, b2.2.2.2, b1.2.2.2]

/-- The four iterations of one data object, from `w` bytes written of `L`. -/
theorem reaches_object_cycle (dev : Device) (hdev : Answers dev) (s : Session)
    (hs : s.state = .BINFILE_CREATE_DATA_OBJ)
    (hw : s.bin_bytes_written < s.binfile_data.length)
    (hL : s.binfile_data.length ≤ 2 ^ 32) (hlast : s.mtu_last_chunk = false) :
    ∃ t, Reaches dev s object_cycle t ∧ t.binfile_data = s.binfile_data ∧
      t.received_event = .EXECUTE_SUC ∧
      (s.binfile_data.length - s.bin_bytes_written ≤ FLASH_PAGE_SIZE →
        t.state = .BINFILE_WRITE_EXECUTE_FINAL) ∧
      (FLASH_PAGE_SIZE < s.binfile_data.length - s.bin_bytes_written →
        t.state = .BINFILE_CREATE_DATA_OBJ ∧
        t.bin_bytes_written = s.bin_bytes_written + FLASH_PAGE_SIZE ∧
        t.mtu_last_chunk = false) := by
  obtain ⟨s1, r1, e1, d1, w1, t1, l1, c1⟩ := step_binfile_create dev hdev s hs hw hL
  obtain ⟨s2, r2, e2, d2, w2, t2, l2, c2⟩ := step_binfile_write dev hdev s1 e1
  obtain ⟨s3, r3, e3, b3⟩ := step_binfile_checksum dev hdev s2 e2 (by rw [c2]; exact c1)
  obtain ⟨s4, r4, b4, v4, e4⟩ := step_binfile_execute dev hdev s3 e3
  simp only [SameBin] at b3 b4
  have hd : s4.binfile_data = s.binfile_data := by rw [b4.1, b3.1, d2, d1]
  have hwr : s4.bin_bytes_written
      = (s.bin_bytes_written
          + min FLASH_PAGE_SIZE (s.binfile_data.length - s.bin_bytes_written)) % 2 ^ 32 := by
    rw [b4.2.1, b3.2.1, w2, w1, t1]
  have hl4 : s4.mtu_last_chunk
      = (if s.binfile_data.length - s.bin_bytes_written ≤ FLASH_PAGE_SIZE then true
          else s.mtu_last_chunk) := by
    rw [b4.2.2.2, b3.2.2.2, l2, l1]
  have hl3 : s3.mtu_last_chunk
      = (if s.binfile_data.length - s.bin_bytes_written ≤ FLASH_PAGE_SIZE then true
          else s.mtu_last_chunk) := by
    rw [b3.2.2.2, l2, l1]
  refine ⟨s4, ⟨hs, rfl, s1, r1, e1, rfl, s2, r2, e2, rfl, s3, r3, e3, rfl, s4, r4, rfl⟩,
    hd, v4, ?_, ?_⟩
  · intro hle
    rw [e4, hl3, if_pos hle]
    rfl
  · intro hgt
    have hnle : ¬ s.binfile_data.length - s.bin_bytes_written ≤ FLASH_PAGE_SIZE := by omega
    refine ⟨?_, ?_, ?_⟩
    · rw [e4, hl3, if_neg hnle, hlast]
      rfl
    · rw [hwr, Nat.min_eq_left (by omega)]
      apply Nat.mod_eq_of_lt
      simp only [FLASH_PAGE_SIZE] at hgt ⊢
      omega
    · rw [hl4, if_neg hnle, hlast]

/-- The object cycles from `w` bytes written up to the final execute: as many as there are
pages in the `L - w` bytes that remain. -/
theorem reaches_final_execute (dev : Device) (hdev : Answers dev) (n : Nat) :
    ∀ s : Session, s.state = .BINFILE_CREATE_DATA_OBJ →
      s.bin_bytes_written < s.binfile_data.length → s.binfile_data.length ≤ 2 ^ 32 →
      s.mtu_last_chunk = false →
      (s.binfile_data.length - s.bin_bytes_written + 4095) / 4096 = n →
      ∃ t, Reaches dev s (List.replicate n object_cycle).flatten t ∧
        t.state = .BINFILE_WRITE_EXECUTE_FINAL ∧ t.received_event = .EXECUTE_SUC := by
  induction n with
  | zero =>
    intro s _ hw _ _ hn
    omega
  | succ k ih =>
    intro s hs hw hL hlast hn
    obtain ⟨t, hr, hd, hev, hfin, hmore⟩ := reaches_object_cycle dev hdev s hs hw hL hlast
    by_cases hle : s.binfile_data.length - s.bin_bytes_written ≤ FLASH_PAGE_SIZE
    · have hk : k = 0 := by
        simp only [FLASH_PAGE_SIZE] at hle
        omega
      subst hk
      refine ⟨t, ?_, hfin hle, hev⟩
      simpa [List.replicate] using hr
    · simp only [FLASH_PAGE_SIZE] at hle
      obtain ⟨hst, hwt, hlt⟩ := hmore (by simp only [FLASH_PAGE_SIZE]; omega)
      simp only [FLASH_PAGE_SIZE] at hwt
      obtain ⟨u, hru, hsu, heu⟩ := ih t hst (by rw [hd, hwt]; omega) (by rw [hd]; exact hL)
        hlt (by rw [hd, hwt]; omega)
      refine ⟨u, ?_, hsu, heu⟩
      have hsplit : (List.replicate (k + 1) object_cycle).flatten
          = object_cycle ++ (List.replicate k object_cycle).flatten := by
        simp [List.replicate_succ]
      rw [hsplit]
      exact Reaches.append dev _ _ s t u hr hru

theorem honest_device_answers : Answers honest_device := by
  intro s
  constructor
  · intro h
    simp [honest_device, h]
  · intro h w op rest hl _ hd
    constructor
    · intro hop
      refine ⟨0, by decide, ?_⟩
      simp [honest_device, h, hl, hd, hop]
    · intro hop
      simp [honest_device, h, hl, hd, hop]

/-- C2: for every binary payload of non-zero length `L < 2^32` and every init payload,
against a peer that answers each awaited request with the success response echoing its
opcode (checksum responses carrying the locally computed CRC) and sends nothing else,
`run_dfu` returns once it may make as many iterations as the path is long, with state
`DFU_FINISHED`, and the states it visits are, in order, `DFU_IDLE`, `SET_NOTIF_VALUE`,
`DATAFILE_CREATE_COM_OBJ`, `DATAFILE_WRITE_FILE`, `DATAFILE_REQ_CHECKSUM`,
`DATAFILE_WRITE_EXECUTE`, then `ceil(L / 4096)` times the four states of an object cycle,
then `BINFILE_WRITE_EXECUTE_FINAL`, then `DFU_FINISHED`. -/
theorem C2_run_dfu_success (dev : Device) (datafile binfile : List Byte)
    (hdev : Answers dev) (h0 : binfile.length ≠ 0) (h32 : binfile.length < 2 ^ 32)
    (fuel : Nat) (hf : (success_path binfile.length).length ≤ fuel) :
    ∃ visited fin, run_dfu dev fuel (Session.init datafile binfile) = some (visited, fin) ∧
      fin.state = .DFU_FINISHED ∧
      visited ++ [fin.state] = success_path binfile.length := by
  obtain ⟨m, hr1, hm, hb⟩ := reaches_first_object dev hdev (Session.init datafile binfile) rfl
  simp only [SameBin, Session.init] at hb
  obtain ⟨hbd, hbw, -, hbl⟩ := hb
  obtain ⟨u, hr2, hu, hev⟩ := reaches_final_execute dev hdev _ m hm
    (by rw [hbd, hbw]; omega) (by rw [hbd]; exact Nat.le_of_lt h32) hbl rfl
  obtain ⟨fin, hr3, hfin⟩ := step_binfile_execute_final dev hdev u hu hev
  have hr : Reaches dev (Session.init datafile binfile)
      ([.DFU_IDLE, .SET_NOTIF_VALUE, .DATAFILE_CREATE_COM_OBJ, .DATAFILE_WRITE_FILE,
        .DATAFILE_REQ_CHECKSUM, .DATAFILE_WRITE_EXECUTE]
        ++ (List.replicate ((binfile.length + 4095) / 4096) object_cycle).flatten
        ++ [.BINFILE_WRITE_EXECUTE_FINAL]) fin := by
    refine Reaches.append dev _ _ _ u fin (Reaches.append dev _ _ _ m u hr1 ?_)
      (Reaches.one dev u fin _ hu rfl hr3)
    rw [hbd, hbw] at hr2
    exact hr2
  have hpath : success_path binfile.length
      = ([.DFU_IDLE, .SET_NOTIF_VALUE, .DATAFILE_CREATE_COM_OBJ, .DATAFILE_WRITE_FILE,
          .DATAFILE_REQ_CHECKSUM, .DATAFILE_WRITE_EXECUTE]
          ++ (List.replicate ((binfile.length + 4095) / 4096) object_cycle).flatten
          ++ [.BINFILE_WRITE_EXECUTE_FINAL]) ++ [.DFU_FINISHED] := by
    simp [success_path]
  refine ⟨_, fin, run_dfu_of_reaches dev _ _ fin hr (by rw [hfin]; rfl) fuel ?_, hfin, ?_⟩
  · rw [hpath, List.length_append] at hf
    omega
  · rw [hfin, hpath]

/-- C2 for an init payload of three bytes and a binary payload of one byte, against the
peer `honest_device`, with room for 100 iterations. -/
theorem C2_run_dfu_success_witness :
    (Answers honest_device ∧ ([0xAA] : List Byte).length ≠ 0 ∧
      ([0xAA] : List Byte).length < 2 ^ 32 ∧
      (success_path ([0xAA] : List Byte).length).length ≤ 100) ∧
    ∃ visited fin,
      run_dfu honest_device 100 (Session.init [0x01, 0x02, 0x03] [0xAA])
        = some (visited, fin) ∧
      fin.state = .DFU_FINISHED ∧
      visited ++ [fin.state] = success_path ([0xAA] : List Byte).length :=
  ⟨⟨honest_device_answers, by decide, by decide, by decide⟩,
    C2_run_dfu_success honest_device [0x01, 0x02, 0x03] [0xAA] honest_device_answers
      (by decide) (by decide) 100 (by decide)⟩

/-! ## Length and framing errors of the decoder -/

/-- C11 as stated fails: the success response to a create request that is followed by 2^32
bytes is longer than three bytes and is decoded to `CREATE_SUC`, because the count of
trailing bytes is kept in 32 bits. -/
theorem C11_counterexample :
    3 < oversized_create_response.length ∧
    (notify NORDIC_SECURE_DFU_SERVICE NORDIC_DFU_CONTROL_POINT_CHAR oversized_create_response
        (Session.init [] [])).map Session.received_event = some .CREATE_SUC := by
  constructor
  · unfold oversized_create_response
    rw [List.length_cons, List.length_cons, List.length_cons, List.length_replicate]
    omega
  · have hn := notify_control_point CREATE_KEY SUCCESS_RESP (List.replicate (2 ^ 32) 0)
      (Session.init [] [])
    rw [process_plain_success_response CREATE_KEY (List.replicate (2 ^ 32) 0)
      (Session.init [] []) (by decide) (by decide)] at hn
    have hz : (List.replicate (2 ^ 32) (0 : Byte)).length % 2 ^ 32 = 0 := by
      rw [List.length_replicate, Nat.mod_self]
    rw [if_pos hz] at hn
    unfold oversized_create_response
    rw [hn]
    rfl

/-- C11, amended: for every success response on the control-point channel whose echoed
opcode is 0x01, 0x02, 0x04 or 0x60 and whose number of bytes after the result code is not a
multiple of 2^32 (so for every length from 4 to 2^32 + 2), `notify` returns and sets
`received_event` to `ERROR_INV_LEN`, which is not the success event of the opcode. -/
theorem C11_trailing_bytes (op : Byte) (rest : List Byte) (s : Session)
    (hop : op ∈ [CREATE_KEY, PACKET_RECEIPT_NOTIF_REQ_KEY, EXECUTE_KEY, RESPONSE_CODE_KEY])
    (hlen : rest.length % 2 ^ 32 ≠ 0) :
    ∃ s1, notify NORDIC_SECURE_DFU_SERVICE NORDIC_DFU_CONTROL_POINT_CHAR
            (0x60 :: op :: 0x01 :: rest) s = some s1 ∧
      s1.received_event = .ERROR_INV_LEN ∧ s1.received_event ≠ success_event op := by
  have h36 : op ≠ CALCULATE_CHECKSUM_KEY ∧ op ≠ SELECT_OBJECT_KEY := by
    simp only [List.mem_cons, List.mem_singleton, List.not_mem_nil, or_false] at hop
    rcases hop with rfl | rfl | rfl | rfl <;> decide
  have hn := notify_control_point op SUCCESS_RESP rest s
  rw [process_plain_success_response op rest s h36.1 h36.2, if_neg hlen] at hn
  refine ⟨_, hn, rfl, ?_⟩
  show event_t.ERROR_INV_LEN ≠ success_event op
  simp only [List.mem_cons, List.mem_singleton, List.not_mem_nil, or_false] at hop
  rcases hop with rfl | rfl | rfl | rfl <;> decide

/-- C11, amended, at the response `[0x60, 0x04, 0x01, 0x00]` (execute, one trailing byte). -/
theorem C11_trailing_bytes_witness :
    (EXECUTE_KEY ∈ [CREATE_KEY, PACKET_RECEIPT_NOTIF_REQ_KEY, EXECUTE_KEY, RESPONSE_CODE_KEY] ∧
      ([0x00] : List Byte).length % 2 ^ 32 ≠ 0) ∧
    ∃ s1, notify NORDIC_SECURE_DFU_SERVICE NORDIC_DFU_CONTROL_POINT_CHAR
            (0x60 :: EXECUTE_KEY :: 0x01 :: [0x00]) (Session.init [] []) = some s1 ∧
      s1.received_event = .ERROR_INV_LEN ∧ s1.received_event ≠ success_event EXECUTE_KEY :=
  ⟨⟨by decide, by decide⟩,
    C11_trailing_bytes EXECUTE_KEY [0x00] (Session.init [] []) (by decide) (by decide)⟩

/-- C12: for every payload, `notify` returns; when the service and characteristic are not
the DFU service and the control-point characteristic, `received_event` becomes
`ERROR_NOT_SUP_SERV_CHAR`; on that channel, when the payload does not start with 0x60,
`received_event` becomes `ERROR_NO_RESP_KEY`; in both cases `response` and `state` are as
before. -/
theorem C12_framing_errors (service characteristic : String) (data : List Byte)
    (s : Session) :
    (¬ (service = NORDIC_SECURE_DFU_SERVICE ∧
        characteristic = NORDIC_DFU_CONTROL_POINT_CHAR) →
      ∃ s1, notify service characteristic data s = some s1 ∧
        s1.received_event = .ERROR_NOT_SUP_SERV_CHAR ∧
        s1.response = s.response ∧ s1.state = s.state) ∧
    (data.head? ≠ some RESPONSE_CODE_KEY →
      ∃ s1, notify NORDIC_SECURE_DFU_SERVICE NORDIC_DFU_CONTROL_POINT_CHAR data s = some s1 ∧
        s1.received_event = .ERROR_NO_RESP_KEY ∧
        s1.response = s.response ∧ s1.state = s.state) := by
  constructor
  · intro hch
    refine ⟨{ s with received_event := .ERROR_NOT_SUP_SERV_CHAR }, ?_, rfl, rfl, rfl⟩
    unfold notify
    rw [if_neg hch]
  · intro hkey
    refine ⟨{ s with received_event := .ERROR_NO_RESP_KEY }, ?_, rfl, rfl, rfl⟩
    unfold notify
    cases data with
    | nil =>
      have h0 : char_at ([] : List Byte) 0 = some 0 := by simp [char_at]
      rw [h0]
      simp [RESPONSE_CODE_KEY]
    | cons b rest =>
      have h0 : char_at (b :: rest) 0 = some b := by simp [char_at]
      have hb : b ≠ RESPONSE_CODE_KEY := by
        intro hb
        apply hkey
        simp [hb]
      rw [h0]
      simp [hb]

/-- C12 at a notification on the packet characteristic. -/
theorem C12_framing_errors_witness :
    ¬ (NORDIC_SECURE_DFU_SERVICE = NORDIC_SECURE_DFU_SERVICE ∧
        NORDIC_DFU_PACKET_CHAR = NORDIC_DFU_CONTROL_POINT_CHAR) ∧
    ∃ s1, notify NORDIC_SECURE_DFU_SERVICE NORDIC_DFU_PACKET_CHAR [0x60, 0x01, 0x01]
            mismatch_without_checksum_event = some s1 ∧
      s1.received_event = .ERROR_NOT_SUP_SERV_CHAR ∧
      s1.response = mismatch_without_checksum_event.response ∧
      s1.state = mismatch_without_checksum_event.state :=
  ⟨by decide,
    (C12_framing_errors NORDIC_SECURE_DFU_SERVICE NORDIC_DFU_PACKET_CHAR [0x60, 0x01, 0x01]
      mismatch_without_checksum_event).1 (by decide)⟩

/-! ## The object planner: `BINFILE_CREATE_DATA_OBJ` -/

theorem manage_state_create (s : Session) (hs : s.state = .BINFILE_CREATE_DATA_OBJ) :
    manage_state s = manage_create_data_obj { s with waiting_response := false } := by
  simp [manage_state, hs]

theorem manage_state_write (s : Session) (hs : s.state = .BINFILE_WRITE_MTU_CHUNK) :
    manage_state s = manage_write_mtu_chunk { s with waiting_response := false } := by
  simp [manage_state, hs]

theorem bytes_remaining_eq (s : Session) (hw : s.bin_bytes_written ≤ s.binfile_data.length)
    (hL : s.binfile_data.length < 2 ^ 64) :
    bytes_remaining s = s.binfile_data.length - s.bin_bytes_written := by
  simp only [bytes_remaining]
  omega

/-- The fields the case `BINFILE_CREATE_DATA_OBJ` plans with, for any count of bytes written
up to the length of the payload. -/
theorem manage_create_data_obj_plan (s : Session)
    (hw : s.bin_bytes_written ≤ s.binfile_data.length)
    (hL : s.binfile_data.length < 2 ^ 64) :
    (manage_create_data_obj s).state = s.state ∧
    (manage_create_data_obj s).binfile_data = s.binfile_data ∧
    (manage_create_data_obj s).bin_bytes_written = s.bin_bytes_written ∧
    (manage_create_data_obj s).bin_bytes_to_write
      = min FLASH_PAGE_SIZE (s.binfile_data.length - s.bin_bytes_written) ∧
    (manage_create_data_obj s).mtu_last_chunk
      = (if s.binfile_data.length - s.bin_bytes_written ≤ FLASH_PAGE_SIZE then true
          else s.mtu_last_chunk) := by
  have hrem : bytes_remaining { s with bin_bytes_to_write := FLASH_PAGE_SIZE }
      = s.binfile_data.length - s.bin_bytes_written := bytes_remaining_eq _ hw hL
  by_cases hle : s.binfile_data.length - s.bin_bytes_written ≤ FLASH_PAGE_SIZE
  · have hmod : (s.binfile_data.length - s.bin_bytes_written) % 2 ^ 32
        = s.binfile_data.length - s.bin_bytes_written :=
      Nat.mod_eq_of_lt (by simp only [FLASH_PAGE_SIZE] at hle; omega)
    have hmin : min FLASH_PAGE_SIZE (s.binfile_data.length - s.bin_bytes_written)
        = s.binfile_data.length - s.bin_bytes_written := Nat.min_eq_right hle
    by_cases hz : s.binfile_data.length - s.bin_bytes_written = 0
    · simp [manage_create_data_obj, hrem, hz]
    · simp only [manage_create_data_obj, hrem, if_pos hle, hmod, hmin, ne_eq, hz,
        not_false_eq_true, if_true, write_create_request, write_procedure, write_request,
        calculate_crc]
      exact ⟨trivial, trivial, trivial, trivial, trivial⟩
  · have hmin : min FLASH_PAGE_SIZE (s.binfile_data.length - s.bin_bytes_written)
        = FLASH_PAGE_SIZE := Nat.min_eq_left (by omega)
    have hne : FLASH_PAGE_SIZE ≠ 0 := by decide
    simp only [manage_create_data_obj, hrem, if_neg hle, hmin, ne_eq, hne,
      not_false_eq_true, if_true, write_create_request, write_procedure, write_request,
      calculate_crc]
    exact ⟨trivial, trivial, trivial, trivial, trivial⟩

/-- C13: for every binary payload of length `L` (a `size_t` value) and every count `w ≤ L`
of bytes written, in a session whose final flag is not yet set, the action of
`BINFILE_CREATE_DATA_OBJ` leaves `bin_bytes_to_write = min(4096, L - w)` and
`mtu_last_chunk = (L - w ≤ 4096)`. -/
theorem C13_object_size (s : Session) (hs : s.state = .BINFILE_CREATE_DATA_OBJ)
    (hw : s.bin_bytes_written ≤ s.binfile_data.length)
    (hL : s.binfile_data.length < 2 ^ 64) (hflag : s.mtu_last_chunk = false) :
    (manage_state s).bin_bytes_to_write
      = min 4096 (s.binfile_data.length - s.bin_bytes_written) ∧
    (manage_state s).mtu_last_chunk
      = decide (s.binfile_data.length - s.bin_bytes_written ≤ 4096) := by
  obtain ⟨-, -, -, h4, h5⟩ :=
    manage_create_data_obj_plan { s with waiting_response := false } hw hL
  rw [manage_state_create s hs, h4, h5]
  refine ⟨rfl, ?_⟩
  by_cases hle : s.binfile_data.length - s.bin_bytes_written ≤ 4096
  · simp [FLASH_PAGE_SIZE, hle]
  · simp [FLASH_PAGE_SIZE, hle, hflag]

/-- C13 for a payload of three bytes with nothing written. -/
theorem C13_object_size_witness :
    (({ Session.init [] [0x0A, 0x0B, 0x0C] with
          state := .BINFILE_CREATE_DATA_OBJ } : Session).state = .BINFILE_CREATE_DATA_OBJ ∧
      ({ Session.init [] [0x0A, 0x0B, 0x0C] with
          state := .BINFILE_CREATE_DATA_OBJ } : Session).bin_bytes_written
        ≤ ({ Session.init [] [0x0A, 0x0B, 0x0C] with
          state := .BINFILE_CREATE_DATA_OBJ } : Session).binfile_data.length ∧
      ({ Session.init [] [0x0A, 0x0B, 0x0C] with
          state := .BINFILE_CREATE_DATA_OBJ } : Session).binfile_data.length < 2 ^ 64 ∧
      ({ Session.init [] [0x0A, 0x0B, 0x0C] with
          state := .BINFILE_CREATE_DATA_OBJ } : Session).mtu_last_chunk = false) ∧
    (manage_state { Session.init [] [0x0A, 0x0B, 0x0C] with
        state := .BINFILE_CREATE_DATA_OBJ }).bin_bytes_to_write
      = min 4096 (({ Session.init [] [0x0A, 0x0B, 0x0C] with
          state := .BINFILE_CREATE_DATA_OBJ } : Session).binfile_data.length
        - ({ Session.init [] [0x0A, 0x0B, 0x0C] with
          state := .BINFILE_CREATE_DATA_OBJ } : Session).bin_bytes_written) ∧
    (manage_state { Session.init [] [0x0A, 0x0B, 0x0C] with
        state := .BINFILE_CREATE_DATA_OBJ }).mtu_last_chunk
      = decide (({ Session.init [] [0x0A, 0x0B, 0x0C] with
          state := .BINFILE_CREATE_DATA_OBJ } : Session).binfile_data.length
        - ({ Session.init [] [0x0A, 0x0B, 0x0C] with
          state := .BINFILE_CREATE_DATA_OBJ } : Session).bin_bytes_written ≤ 4096) :=
  ⟨⟨rfl, Nat.zero_le _, by decide, rfl⟩,
    C13_object_size { Session.init [] [0x0A, 0x0B, 0x0C] with
      state := .BINFILE_CREATE_DATA_OBJ } rfl (Nat.zero_le _) (by decide) rfl⟩

/-! ## The packets of `BINFILE_WRITE_MTU_CHUNK` -/

theorem substr_length (data : List Byte) (pos n : Nat) (h : pos + n ≤ data.length) :
    (substr data pos n).length = n := by
  simp only [substr, List.length_take, List.length_drop]
  omega

theorem substr_append (data : List Byte) (pos a b : Nat) :
    substr data pos a ++ substr data (pos + a) b = substr data pos (a + b) := by
  simp only [substr]
  rw [List.take_add, List.drop_drop]

/-- The log after the packet loop: one packet for each index of the list. -/
theorem write_full_chunks_writes (l : List Nat) (s : Session)
    (hw : s.waiting_response = false) :
    (write_full_chunks l s).writes
      = s.writes ++ l.map (fun i =>
          packet_write s.binfile_data ((s.bin_bytes_written + MTU_CHUNK * i) % 2 ^ 32)
            MTU_CHUNK) := by
  induction l generalizing s with
  | nil => simp [write_full_chunks]
  | cons i l ih =>
    have h := ih (write_packet
      (substr s.binfile_data ((s.bin_bytes_written + MTU_CHUNK * i) % 2 ^ 32) MTU_CHUNK) s)
      (by simpa [write_packet, write_command] using hw)
    simp only [write_full_chunks, List.foldl_cons] at h ⊢
    rw [h]
    simp [write_packet, write_command, packet_write, hw]

/-- The log after the action of `BINFILE_WRITE_MTU_CHUNK`: the full packets, then the
trailing packet when the object size is not a multiple of `MTU_CHUNK`. -/
theorem manage_write_mtu_chunk_writes (s : Session) :
    (manage_write_mtu_chunk s).writes
      = s.writes
        ++ ((List.range (s.bin_bytes_to_write / MTU_CHUNK)).map (fun i =>
              packet_write s.binfile_data ((s.bin_bytes_written + MTU_CHUNK * i) % 2 ^ 32)
                MTU_CHUNK)
            ++ (if s.bin_bytes_to_write % MTU_CHUNK = 0 then []
                else [packet_write s.binfile_data
                  ((s.bin_bytes_written
                    + MTU_CHUNK * (s.bin_bytes_to_write / MTU_CHUNK)) % 2 ^ 32)
                  (s.bin_bytes_to_write % MTU_CHUNK)])) := by
  obtain ⟨-, h2, h3, h4, -, -, -, h8, h9, -⟩ :=
    write_full_chunks_fields (List.range (s.bin_bytes_to_write / MTU_CHUNK))
      { s with waiting_response := false
               mtu_chunks_remaing := s.bin_bytes_to_write / MTU_CHUNK
               mtu_extra_bytes := s.bin_bytes_to_write % MTU_CHUNK }
  have hw := write_full_chunks_writes (List.range (s.bin_bytes_to_write / MTU_CHUNK))
      { s with waiting_response := false
               mtu_chunks_remaing := s.bin_bytes_to_write / MTU_CHUNK
               mtu_extra_bytes := s.bin_bytes_to_write % MTU_CHUNK } rfl
  simp only at h2 h3 h4 h8 h9 hw
  unfold manage_write_mtu_chunk
  simp only [h8, h9]
  by_cases hz : s.bin_bytes_to_write % MTU_CHUNK = 0
  · rw [if_neg (not_not.mpr hz), if_pos hz]
    simp only [hw, List.append_nil]
  · rw [if_pos hz, if_neg hz]
    simp only [write_packet, write_command, hw, h2, h3, h4, packet_write, List.append_assoc]

/-- The packets the action of `BINFILE_WRITE_MTU_CHUNK` adds to the log. -/
theorem new_writes_write_mtu_chunk (s : Session) (hs : s.state = .BINFILE_WRITE_MTU_CHUNK) :
    new_writes s (manage_state s)
      = (List.range (s.bin_bytes_to_write / MTU_CHUNK)).map (fun i =>
            packet_write s.binfile_data ((s.bin_bytes_written + MTU_CHUNK * i) % 2 ^ 32)
              MTU_CHUNK)
          ++ (if s.bin_bytes_to_write % MTU_CHUNK = 0 then []
              else [packet_write s.binfile_data
                ((s.bin_bytes_written
                  + MTU_CHUNK * (s.bin_bytes_to_write / MTU_CHUNK)) % 2 ^ 32)
                (s.bin_bytes_to_write % MTU_CHUNK)]) := by
  have h := manage_write_mtu_chunk_writes { s with waiting_response := false }
  simp only at h
  rw [new_writes, manage_state_write s hs, h, List.drop_left]

/-- The lengths of the packets the action of `BINFILE_WRITE_MTU_CHUNK` writes, for an object
that lies inside the payload. -/
theorem write_mtu_chunk_lengths (s : Session) (hs : s.state = .BINFILE_WRITE_MTU_CHUNK)
    (hb : s.bin_bytes_written + s.bin_bytes_to_write ≤ s.binfile_data.length) :
    (new_writes s (manage_state s)).map (fun x => x.data.length)
      = List.replicate (s.bin_bytes_to_write / MTU_CHUNK) MTU_CHUNK
        ++ (if s.bin_bytes_to_write % MTU_CHUNK = 0 then []
            else [s.bin_bytes_to_write % MTU_CHUNK]) := by
  have hdiv := Nat.div_add_mod s.bin_bytes_to_write MTU_CHUNK
  rw [new_writes_write_mtu_chunk s hs, List.map_append]
  congr 1
  · rw [List.map_map]
    apply List.ext_getElem
    · simp
    · intro i h1 h2
      have hi : i < s.bin_bytes_to_write / MTU_CHUNK := by simpa using h1
      have hmul : MTU_CHUNK * (i + 1) ≤ MTU_CHUNK * (s.bin_bytes_to_write / MTU_CHUNK) :=
        Nat.mul_le_mul_left _ hi
      have hmod := Nat.mod_le (s.bin_bytes_written + MTU_CHUNK * i) (2 ^ 32)
      simp only [List.getElem_map, List.getElem_range, List.getElem_replicate,
        Function.comp_apply, packet_write]
      apply substr_length
      rw [Nat.mul_add, Nat.mul_one] at hmul
      omega
  · by_cases hz : s.bin_bytes_to_write % MTU_CHUNK = 0
    · simp [hz]
    · have hmod := Nat.mod_le
        (s.bin_bytes_written + MTU_CHUNK * (s.bin_bytes_to_write / MTU_CHUNK)) (2 ^ 32)
      simp only [hz, if_false, List.map_cons, List.map_nil, packet_write]
      rw [substr_length _ _ _ (by omega)]

/-- C14: for every object size `s`, lying inside the payload from the bytes written, the
lengths of the packets the action of `BINFILE_WRITE_MTU_CHUNK` writes are `s / 244` times 244
followed by `s % 244` when that is not zero; they sum to `s`, each is between 1 and 244, and
there are `ceil(s / 244)` of them. -/
theorem C14_packet_lengths (s : Session) (hs : s.state = .BINFILE_WRITE_MTU_CHUNK)
    (hb : s.bin_bytes_written + s.bin_bytes_to_write ≤ s.binfile_data.length) :
    (new_writes s (manage_state s)).map (fun x => x.data.length)
      = List.replicate (s.bin_bytes_to_write / 244) 244
        ++ (if s.bin_bytes_to_write % 244 = 0 then [] else [s.bin_bytes_to_write % 244]) ∧
    ((new_writes s (manage_state s)).map (fun x => x.data.length)).sum
      = s.bin_bytes_to_write ∧
    (∀ n ∈ (new_writes s (manage_state s)).map (fun x => x.data.length),
      1 ≤ n ∧ n ≤ 244) ∧
    (new_writes s (manage_state s)).length = (s.bin_bytes_to_write + 243) / 244 := by
  have hl := write_mtu_chunk_lengths s hs hb
  simp only [MTU_CHUNK] at hl
  have hlen : (new_writes s (manage_state s)).length
      = ((new_writes s (manage_state s)).map (fun x => x.data.length)).length := by
    rw [List.length_map]
  rw [hlen, hl]
  refine ⟨rfl, ?_, ?_, ?_⟩
  · by_cases hz : s.bin_bytes_to_write % 244 = 0
    · simp only [hz, if_true, List.append_nil, List.sum_replicate, smul_eq_mul]
      omega
    · simp only [hz, if_false, List.sum_append, List.sum_replicate, smul_eq_mul,
        List.sum_cons, List.sum_nil]
      omega
  · intro n hn
    by_cases hz : s.bin_bytes_to_write % 244 = 0
    · simp only [hz, if_true, List.append_nil, List.mem_replicate] at hn
      omega
    · simp only [hz, if_false, List.mem_append, List.mem_replicate, List.mem_singleton] at hn
      omega
  · by_cases hz : s.bin_bytes_to_write % 244 = 0
    · simp only [hz, if_true, List.append_nil, List.length_replicate]
      omega
    · simp only [hz, if_false, List.length_append, List.length_replicate,
        List.length_singleton]
      omega

/-- C14 at a payload of five bytes with one written and an object of three bytes. -/
theorem C14_packet_lengths_witness :
    (({ Session.init [] [1, 2, 3, 4, 5] with
          state := .BINFILE_WRITE_MTU_CHUNK, bin_bytes_written := 1,
          bin_bytes_to_write := 3 } : Session).state = .BINFILE_WRITE_MTU_CHUNK ∧
      (1 : Nat) + 3 ≤ ([1, 2, 3, 4, 5] : List Byte).length) ∧
    ((new_writes
        { Session.init [] [1, 2, 3, 4, 5] with
          state := .BINFILE_WRITE_MTU_CHUNK, bin_bytes_written := 1, bin_bytes_to_write := 3 }
        (manage_state { Session.init [] [1, 2, 3, 4, 5] with
          state := .BINFILE_WRITE_MTU_CHUNK, bin_bytes_written := 1,
          bin_bytes_to_write := 3 })).map (fun x => x.data.length)).sum = 3 :=
  ⟨⟨rfl, by decide⟩,
    (C14_packet_lengths
      { Session.init [] [1, 2, 3, 4, 5] with
        state := .BINFILE_WRITE_MTU_CHUNK, bin_bytes_written := 1, bin_bytes_to_write := 3 }
      rfl (by decide)).2.1⟩

/-- C20 as stated fails: for an object of 4096 bytes the action writes 16 packets of 244
bytes followed by one of 192 bytes, not one of 72 bytes. -/
theorem C20_counterexample :
    page_write_session.state = .BINFILE_WRITE_MTU_CHUNK ∧
    page_write_session.bin_bytes_to_write = 4096 ∧
    (new_writes page_write_session (manage_state page_write_session)).map
        (fun x => x.data.length) = List.replicate 16 244 ++ [192] ∧
    (new_writes page_write_session (manage_state page_write_session)).map
        (fun x => x.data.length) ≠ List.replicate 16 244 ++ [72] := by
  have hb : page_write_session.bin_bytes_written + page_write_session.bin_bytes_to_write
      ≤ page_write_session.binfile_data.length := by
    show 0 + 4096 ≤ (List.replicate 4096 (0 : Byte)).length
    rw [List.length_replicate]
  have hl := write_mtu_chunk_lengths page_write_session rfl hb
  have h1 : page_write_session.bin_bytes_to_write / MTU_CHUNK = 16 := by decide
  have h2 : page_write_session.bin_bytes_to_write % MTU_CHUNK = 192 := by decide
  rw [h1, h2] at hl
  refine ⟨rfl, rfl, ?_, ?_⟩
  · rw [hl]
    rfl
  · rw [hl]
    decide

/-- C20, amended: with chunk size 244, for an object of 4096 bytes inside the payload the
action of `BINFILE_WRITE_MTU_CHUNK` writes exactly 17 packets: 16 of 244 bytes followed by
one of 192 bytes. -/
theorem C20_page_packets (s : Session) (hs : s.state = .BINFILE_WRITE_MTU_CHUNK)
    (ht : s.bin_bytes_to_write = 4096)
    (hb : s.bin_bytes_written + 4096 ≤ s.binfile_data.length) :
    (new_writes s (manage_state s)).length = 17 ∧
    (new_writes s (manage_state s)).map (fun x => x.data.length)
      = List.replicate 16 244 ++ [192] := by
  have hl := write_mtu_chunk_lengths s hs (by rw [ht]; exact hb)
  have h1 : s.bin_bytes_to_write / MTU_CHUNK = 16 := by rw [ht]; decide
  have h2 : s.bin_bytes_to_write % MTU_CHUNK = 192 := by rw [ht]; decide
  rw [h1, h2] at hl
  have hl2 : (new_writes s (manage_state s)).map (fun x => x.data.length)
      = List.replicate 16 244 ++ [192] := by
    rw [hl]
    rfl
  refine ⟨?_, hl2⟩
  have hlen := congrArg List.length hl2
  rw [List.length_map] at hlen
  rw [hlen]
  rfl

/-- C20, amended, at the session that writes a payload of 4096 bytes as one object. -/
theorem C20_page_packets_witness :
    (page_write_session.state = .BINFILE_WRITE_MTU_CHUNK ∧
      page_write_session.bin_bytes_to_write = 4096) ∧
    (new_writes page_write_session (manage_state page_write_session)).length = 17 ∧
    (new_writes page_write_session (manage_state page_write_session)).map
        (fun x => x.data.length) = List.replicate 16 244 ++ [192] :=
  ⟨⟨rfl, rfl⟩,
    C20_page_packets page_write_session rfl rfl
      (by
        show 0 + 4096 ≤ (List.replicate 4096 (0 : Byte)).length
        rw [List.length_replicate])⟩

/-- Consecutive chunks of `MTU_CHUNK` bytes put together are one stretch of the payload. -/
theorem chunks_flatten (data : List Byte) (w c : Nat) :
    ((List.range c).map (fun i => substr data (w + MTU_CHUNK * i) MTU_CHUNK)).flatten
      = substr data w (MTU_CHUNK * c) := by
  induction c with
  | zero => simp [substr]
  | succ k ih =>
    rw [List.range_succ, List.map_append, List.flatten_append, ih]
    simp only [List.map_cons, List.map_nil, List.flatten_cons, List.flatten_nil,
      List.append_nil]
    rw [substr_append, Nat.mul_succ]

/-- The payloads of the packets the action of `BINFILE_WRITE_MTU_CHUNK` writes, put
together, when the 32-bit offsets do not wrap. -/
theorem write_mtu_chunk_payloads (s : Session) (hs : s.state = .BINFILE_WRITE_MTU_CHUNK)
    (h32 : s.bin_bytes_written + s.bin_bytes_to_write < 2 ^ 32) :
    ((new_writes s (manage_state s)).map (fun x => x.data)).flatten
      = substr s.binfile_data s.bin_bytes_written s.bin_bytes_to_write := by
  have hdiv := Nat.div_add_mod s.bin_bytes_to_write MTU_CHUNK
  have hfull : (List.range (s.bin_bytes_to_write / MTU_CHUNK)).map
      ((fun x : BleWrite => x.data) ∘ fun i =>
        packet_write s.binfile_data ((s.bin_bytes_written + MTU_CHUNK * i) % 2 ^ 32)
          MTU_CHUNK)
      = (List.range (s.bin_bytes_to_write / MTU_CHUNK)).map
          (fun i => substr s.binfile_data (s.bin_bytes_written + MTU_CHUNK * i) MTU_CHUNK) := by
    apply List.map_congr_left
    intro i hi
    have hi2 : i < s.bin_bytes_to_write / MTU_CHUNK := List.mem_range.mp hi
    have hmul : MTU_CHUNK * i ≤ MTU_CHUNK * (s.bin_bytes_to_write / MTU_CHUNK) :=
      Nat.mul_le_mul_left _ (Nat.le_of_lt hi2)
    simp only [Function.comp_apply, packet_write]
    rw [Nat.mod_eq_of_lt (by omega)]
  have hpos : (s.bin_bytes_written + MTU_CHUNK * (s.bin_bytes_to_write / MTU_CHUNK)) % 2 ^ 32
      = s.bin_bytes_written + MTU_CHUNK * (s.bin_bytes_to_write / MTU_CHUNK) :=
    Nat.mod_eq_of_lt (by omega)
  rw [new_writes_write_mtu_chunk s hs, List.map_append, List.flatten_append, List.map_map,
    hfull, chunks_flatten, hpos]
  by_cases hz : s.bin_bytes_to_write % MTU_CHUNK = 0
  · rw [if_pos hz]
    simp only [List.map_nil, List.flatten_nil, List.append_nil]
    congr 1
    omega
  · rw [if_neg hz]
    simp only [List.map_cons, List.map_nil, List.flatten_cons, List.flatten_nil,
      List.append_nil, packet_write]
    rw [substr_append, hdiv]

/-- C15 as stated fails: with 2^32 - 4096 bytes written of a payload of 2^32 bytes and an
object of 4096 bytes, which ends where the payload ends, `bin_bytes_written` is 0 after the
action of `BINFILE_WRITE_MTU_CHUNK`, not 2^32. -/
theorem C15_counterexample :
    wrapping_write_session.state = .BINFILE_WRITE_MTU_CHUNK ∧
    wrapping_write_session.bin_bytes_written + wrapping_write_session.bin_bytes_to_write
      ≤ wrapping_write_session.binfile_data.length ∧
    (manage_state wrapping_write_session).bin_bytes_written = 0 ∧
    (manage_state wrapping_write_session).bin_bytes_written
      ≠ wrapping_write_session.bin_bytes_written
        + wrapping_write_session.bin_bytes_to_write := by
  have hw : (manage_state wrapping_write_session).bin_bytes_written = 0 := by
    rw [manage_state_write wrapping_write_session rfl,
      (manage_write_mtu_chunk_spec _).2.2.2.1]
    show (2 ^ 32 - 4096 + 4096) % 2 ^ 32 = 0
    norm_num
  refine ⟨rfl, ?_, hw, ?_⟩
  · show 2 ^ 32 - 4096 + 4096 ≤ (List.replicate (2 ^ 32) (0 : Byte)).length
    rw [List.length_replicate]
    norm_num
  · rw [hw]
    show 0 ≠ 2 ^ 32 - 4096 + 4096
    norm_num

/-- C15, amended: for every binary payload, count `w` of bytes written and object size `s`
with `w + s` at most the length of the payload and below 2^32, the action of
`BINFILE_WRITE_MTU_CHUNK` issues only `write_command` calls on the packet characteristic,
their payloads put together in order are the bytes `[w, w + s)` of the payload, and
afterwards `bin_bytes_written = w + s`. -/
theorem C15_packets_cover_object (s : Session) (hs : s.state = .BINFILE_WRITE_MTU_CHUNK)
    (_hb : s.bin_bytes_written + s.bin_bytes_to_write ≤ s.binfile_data.length)
    (h32 : s.bin_bytes_written + s.bin_bytes_to_write < 2 ^ 32) :
    (∀ x ∈ new_writes s (manage_state s),
      x.kind = .command ∧ x.service = NORDIC_SECURE_DFU_SERVICE ∧
      x.characteristic = NORDIC_DFU_PACKET_CHAR) ∧
    ((new_writes s (manage_state s)).map (fun x => x.data)).flatten
      = (s.binfile_data.drop s.bin_bytes_written).take s.bin_bytes_to_write ∧
    (manage_state s).bin_bytes_written = s.bin_bytes_written + s.bin_bytes_to_write := by
  refine ⟨?_, write_mtu_chunk_payloads s hs h32, ?_⟩
  · intro x hx
    rw [new_writes_write_mtu_chunk s hs, List.mem_append] at hx
    rcases hx with hx | hx
    · obtain ⟨i, -, rfl⟩ := List.mem_map.mp hx
      exact ⟨rfl, rfl, rfl⟩
    · by_cases hz : s.bin_bytes_to_write % MTU_CHUNK = 0
      · rw [if_pos hz] at hx
        cases hx
      · rw [if_neg hz, List.mem_singleton] at hx
        subst hx
        exact ⟨rfl, rfl, rfl⟩
  · rw [manage_state_write s hs, (manage_write_mtu_chunk_spec _).2.2.2.1]
    exact Nat.mod_eq_of_lt h32

/-- C15, amended, at a payload of five bytes with one written and an object of three
bytes. -/
theorem C15_packets_cover_object_witness :
    (({ Session.init [] [1, 2, 3, 4, 5] with
          state := .BINFILE_WRITE_MTU_CHUNK, bin_bytes_written := 1,
          bin_bytes_to_write := 3 } : Session).state = .BINFILE_WRITE_MTU_CHUNK ∧
      (1 : Nat) + 3 ≤ ([1, 2, 3, 4, 5] : List Byte).length ∧ (1 : Nat) + 3 < 2 ^ 32) ∧
    ((new_writes
        { Session.init [] [1, 2, 3, 4, 5] with
          state := .BINFILE_WRITE_MTU_CHUNK, bin_bytes_written := 1, bin_bytes_to_write := 3 }
        (manage_state { Session.init [] [1, 2, 3, 4, 5] with
          state := .BINFILE_WRITE_MTU_CHUNK, bin_bytes_written := 1,
          bin_bytes_to_write := 3 })).map (fun x => x.data)).flatten
      = (([1, 2, 3, 4, 5] : List Byte).drop 1).take 3 :=
  ⟨⟨rfl, by decide, by decide⟩,
    (C15_packets_cover_object
      { Session.init [] [1, 2, 3, 4, 5] with
        state := .BINFILE_WRITE_MTU_CHUNK, bin_bytes_written := 1, bin_bytes_to_write := 3 }
      rfl (by decide) (by decide)).2.1⟩

/-! ## The planner over a whole payload -/

/-- One pass of the planner, for any count of bytes written up to the length of the
payload. -/
theorem plan_object_spec (s : Session) (hw : s.bin_bytes_written ≤ s.binfile_data.length)
    (hL : s.binfile_data.length < 2 ^ 64) :
    (plan_object s).binfile_data = s.binfile_data ∧
    (plan_object s).bin_bytes_to_write
      = min FLASH_PAGE_SIZE (s.binfile_data.length - s.bin_bytes_written) ∧
    (plan_object s).mtu_last_chunk
      = (if s.binfile_data.length - s.bin_bytes_written ≤ FLASH_PAGE_SIZE then true
          else s.mtu_last_chunk) ∧
    (plan_object s).bin_bytes_written
      = (s.bin_bytes_written
          + min FLASH_PAGE_SIZE (s.binfile_data.length - s.bin_bytes_written)) % 2 ^ 32 := by
  obtain ⟨-, c2, c3, c4, c5⟩ := manage_create_data_obj_plan
    { s with state := .BINFILE_CREATE_DATA_OBJ, waiting_response := false } hw hL
  have hc := manage_state_create { s with state := .BINFILE_CREATE_DATA_OBJ } rfl
  simp only at hc c2 c3 c4 c5
  rw [← hc] at c2 c3 c4 c5
  obtain ⟨-, -, w3, w4, w5, w6, -⟩ := manage_write_mtu_chunk_spec
    { manage_state { s with state := .BINFILE_CREATE_DATA_OBJ } with
      state := .BINFILE_WRITE_MTU_CHUNK, waiting_response := false }
  have hwm := manage_state_write
    { manage_state { s with state := .BINFILE_CREATE_DATA_OBJ } with
      state := .BINFILE_WRITE_MTU_CHUNK } rfl
  simp only at hwm w3 w4 w5 w6
  rw [← hwm] at w3 w4 w5 w6
  unfold plan_object
  rw [w3, w4, w5, w6, c2, c3, c4, c5]
  exact ⟨rfl, rfl, rfl, rfl⟩

/-- The passes of the planner from `w` bytes written of `L ≤ 2^32`, the flag not yet set:
as many objects as there are pages in the `L - w` bytes that remain. -/
theorem plan_objects_spec (n : Nat) :
    ∀ (s : Session) (fuel : Nat), s.mtu_last_chunk = false →
      s.bin_bytes_written < s.binfile_data.length → s.binfile_data.length ≤ 2 ^ 32 →
      (s.binfile_data.length - s.bin_bytes_written + 4095) / 4096 = n → n ≤ fuel →
      ∃ objs, plan_objects fuel s = some objs ∧ objs.length = n ∧
        objs.map Prod.snd = List.replicate (n - 1) false ++ [true] ∧
        (objs.map Prod.fst).sum = s.binfile_data.length - s.bin_bytes_written := by
  induction n with
  | zero =>
    intro s fuel _ hw _ hn _
    omega
  | succ k ih =>
    intro s fuel hflag hw hL hn hf
    obtain ⟨f, rfl⟩ : ∃ f, fuel = f + 1 := ⟨fuel - 1, by omega⟩
    obtain ⟨p1, p2, p3, p4⟩ := plan_object_spec s (Nat.le_of_lt hw) (by omega)
    simp only [FLASH_PAGE_SIZE] at p2 p3 p4
    by_cases hle : s.binfile_data.length - s.bin_bytes_written ≤ 4096
    · have hk : k = 0 := by omega
      subst hk
      rw [if_pos hle] at p3
      rw [Nat.min_eq_right hle] at p2
      have hne : (plan_object s).bin_bytes_to_write ≠ 0 := by rw [p2]; omega
      refine ⟨[((plan_object s).bin_bytes_to_write, true)], ?_, rfl, rfl, ?_⟩
      · simp only [plan_objects, p3, if_true, hne, if_false]
      · simp [p2]
    · rw [if_neg hle, hflag] at p3
      rw [Nat.min_eq_left (by omega)] at p2 p4
      have hwr : (plan_object s).bin_bytes_written = s.bin_bytes_written + 4096 := by
        rw [p4]
        exact Nat.mod_eq_of_lt (by omega)
      obtain ⟨objs, ho, hlen, hflags, hsum⟩ := ih (plan_object s) f p3
        (by rw [p1, hwr]; omega) (by rw [p1]; exact hL) (by rw [p1, hwr]; omega) (by omega)
      obtain ⟨j, rfl⟩ : ∃ j, k = j + 1 := ⟨k - 1, by rw [p1, hwr] at hsum; omega⟩
      refine ⟨((plan_object s).bin_bytes_to_write, false) :: objs, ?_, ?_, ?_, ?_⟩
      · simp [plan_objects, p3, ho]
      · simp [hlen]
      · simp only [List.map_cons, hflags, Nat.add_sub_cancel, List.replicate_succ,
          List.cons_append]
      · simp only [List.map_cons, List.sum_cons, hsum, p2, p1, hwr]
        omega

/-- With a payload of 2^33 bytes no pass of the planner sets the final flag. -/
theorem plan_objects_oversized (fuel : Nat) :
    ∀ s : Session, s.binfile_data.length = 2 ^ 33 → s.mtu_last_chunk = false →
      s.bin_bytes_written < 2 ^ 32 → plan_objects fuel s = none := by
  induction fuel with
  | zero =>
    intro s _ _ _
    rfl
  | succ f ih =>
    intro s hL hflag hw
    obtain ⟨p1, -, p3, p4⟩ := plan_object_spec s (by omega) (by omega)
    simp only [FLASH_PAGE_SIZE] at p3 p4
    rw [if_neg (by omega), hflag] at p3
    have hlt : (plan_object s).bin_bytes_written < 2 ^ 32 := by
      rw [p4]
      exact Nat.mod_lt _ (by norm_num)
    have h := ih (plan_object s) (by rw [p1]; exact hL) p3 hlt
    simp [plan_objects, p3, h]

/-- C16 as stated fails: for a payload of 2^33 bytes the planner, started at no bytes
written, never flags an object final, however many passes it makes. -/
theorem C16_counterexample :
    ¬ ∃ fuel objs, plan_objects fuel (Session.init [] oversized_payload) = some objs := by
  rintro ⟨fuel, objs, h⟩
  have hL : (Session.init [] oversized_payload).binfile_data.length = 2 ^ 33 := by
    show (List.replicate (2 ^ 33) (0 : Byte)).length = 2 ^ 33
    rw [List.length_replicate]
  have hw : (Session.init [] oversized_payload).bin_bytes_written < 2 ^ 32 := by
    show 0 < 2 ^ 32
    norm_num
  rw [plan_objects_oversized fuel _ hL rfl hw] at h
  cases h

/-- C16, amended: for every binary length `L ≤ 2^32`, the passes of the planner from the
constructed session (no bytes written), repeated until one sets the final flag, create
exactly `ceil(L / 4096)` objects, only the last of them flagged final, and their sizes sum
to `L`. -/
theorem C16_planner_objects (datafile binfile : List Byte) (hL : binfile.length ≤ 2 ^ 32)
    (fuel : Nat) (hf : (binfile.length + 4095) / 4096 < fuel) :
    ∃ objs, plan_objects fuel (Session.init datafile binfile) = some objs ∧
      objs.length = (binfile.length + 4095) / 4096 ∧
      objs.map Prod.snd
        = List.replicate ((binfile.length + 4095) / 4096 - 1) false
          ++ List.replicate (min ((binfile.length + 4095) / 4096) 1) true ∧
      (objs.map Prod.fst).sum = binfile.length := by
  by_cases h0 : binfile.length = 0
  · obtain ⟨f, rfl⟩ : ∃ f, fuel = f + 1 := ⟨fuel - 1, by omega⟩
    obtain ⟨-, p2, p3, -⟩ := plan_object_spec (Session.init datafile binfile)
      (Nat.zero_le _) (by show binfile.length < 2 ^ 64; omega)
    have hz : (Session.init datafile binfile).binfile_data.length = 0 := h0
    rw [hz] at p2 p3
    simp only [Nat.zero_sub, Nat.min_zero, Nat.zero_le, if_true] at p2 p3
    refine ⟨[], ?_, ?_, ?_, ?_⟩
    · simp only [plan_objects, p3, if_true, p2]
    · simp [h0]
    · simp [h0]
    · simp [h0]
  · obtain ⟨objs, ho, hlen, hflags, hsum⟩ := plan_objects_spec _
      (Session.init datafile binfile) fuel rfl (Nat.pos_of_ne_zero h0) hL rfl
      (Nat.le_of_lt hf)
    have hone : min ((binfile.length + 4095) / 4096) 1 = 1 := by omega
    refine ⟨objs, ho, hlen, ?_, hsum⟩
    rw [hone]
    exact hflags

/-- C16, amended, for a payload of three bytes, with room for five passes. -/
theorem C16_planner_objects_witness :
    (([1, 2, 3] : List Byte).length ≤ 2 ^ 32 ∧
      (([1, 2, 3] : List Byte).length + 4095) / 4096 < 5) ∧
    ∃ objs, plan_objects 5 (Session.init [] [1, 2, 3]) = some objs ∧
      objs.length = (([1, 2, 3] : List Byte).length + 4095) / 4096 ∧
      objs.map Prod.snd
        = List.replicate ((([1, 2, 3] : List Byte).length + 4095) / 4096 - 1) false
          ++ List.replicate (min ((([1, 2, 3] : List Byte).length + 4095) / 4096) 1) true ∧
      (objs.map Prod.fst).sum = ([1, 2, 3] : List Byte).length :=
  ⟨⟨by decide, by decide⟩, C16_planner_objects [] [1, 2, 3] (by decide) 5 (by decide)⟩

/-! ## What a notification leaves untouched -/

theorem DriverFrame.refl (s : Session) : DriverFrame s s :=
  ⟨rfl, rfl, rfl, rfl, rfl, rfl, rfl, rfl⟩

theorem DriverFrame.trans (s t u : Session) (h1 : DriverFrame s t) (h2 : DriverFrame t u) :
    DriverFrame s u := by
  obtain ⟨a1, a2, a3, a4, a5, a6, a7, a8⟩ := h1
  obtain ⟨b1, b2, b3, b4, b5, b6, b7, b8⟩ := h2
  exact ⟨b1.trans a1, b2.trans a2, b3.trans a3, b4.trans a4, b5.trans a5, b6.trans a6,
    b7.trans a7, b8.trans a8⟩

theorem process_response_data_frame (data : List Byte) (s t : Session)
    (h : process_response_data data s = some t) : DriverFrame s t := by
  unfold process_response_data at h
  split at h
  · simp only at h
    split_ifs at h
    · split at h
      · cases h
        exact DriverFrame.refl s
      · cases h
    · split at h
      · cases h
        exact DriverFrame.refl s
      · cases h
    · cases h
      exact DriverFrame.refl s
    · cases h
      exact DriverFrame.refl s
    · cases h
      exact DriverFrame.refl s
  · cases h

theorem notify_frame (service characteristic : String) (data : List Byte) (s t : Session)
    (h : notify service characteristic data s = some t) : DriverFrame s t := by
  unfold notify at h
  split_ifs at h
  · split at h
    · split_ifs at h
      · split at h
        · rename_i s1 hp
          cases h
          exact process_response_data_frame data s s1 hp
        · cases h
      · cases h
        exact DriverFrame.refl s
    · cases h
  · cases h
    exact DriverFrame.refl s

theorem deliver_frame (ns : List Notification) (s t : Session)
    (h : deliver ns s = some t) : DriverFrame s t := by
  induction ns generalizing s with
  | nil =>
    simp only [deliver, Option.some.injEq] at h
    subst h
    exact DriverFrame.refl s
  | cons n ns ih =>
    simp only [deliver] at h
    split at h
    · rename_i s1 hn
      exact DriverFrame.trans s s1 t (notify_frame _ _ _ s s1 hn) (ih s1 h)
    · cases h

/-- One iteration of the driver is `manage_state`, notifications, `event_handler`. -/
theorem run_frame (dev : Device) (s s1 : Session) (h : run dev s = some s1) :
    ∃ m, deliver (dev (manage_state s)) (manage_state s) = some m ∧
      DriverFrame (manage_state s) m ∧ m.waiting_response = false ∧
      s1 = event_handler m := by
  unfold run at h
  split at h
  · rename_i m hm
    split_ifs at h with hw
    cases h
    exact ⟨m, hm, deliver_frame _ _ m hm, by simpa using hw, rfl⟩
  · cases h

/-! ## The invariant of the planner's counters -/

/-- The actions other than those of the two planner states leave the planner's fields and
the state as they are. -/
theorem manage_state_other (s : Session) (h1 : s.state ≠ .BINFILE_CREATE_DATA_OBJ)
    (h2 : s.state ≠ .BINFILE_WRITE_MTU_CHUNK) :
    (manage_state s).state = s.state ∧
    (manage_state s).binfile_data = s.binfile_data ∧
    (manage_state s).bin_bytes_written = s.bin_bytes_written ∧
    (manage_state s).bin_bytes_to_write = s.bin_bytes_to_write ∧
    (manage_state s).mtu_last_chunk = s.mtu_last_chunk := by
  cases hs : s.state <;>
    first
    | exact absurd hs h1
    | exact absurd hs h2
    | simp [manage_state, hs, set_pck_notif_value, write_create_request, write_packet,
        write_command, calculate_crc, request_checksum, write_execute, write_procedure,
        write_request]

theorem event_handler_fields (s : Session) :
    (event_handler s).state = next_state s ∧
    (event_handler s).binfile_data = s.binfile_data ∧
    (event_handler s).bin_bytes_written = s.bin_bytes_written ∧
    (event_handler s).bin_bytes_to_write = s.bin_bytes_to_write ∧
    (event_handler s).mtu_last_chunk = s.mtu_last_chunk :=
  ⟨rfl, rfl, rfl, rfl, rfl⟩

/-- The transition of `event_handler` keeps the invariant. -/
theorem plan_ok_next_state (s : Session) (L : Nat)
    (h : plan_ok s.state true s.bin_bytes_written s.bin_bytes_to_write s.mtu_last_chunk L) :
    plan_ok (next_state s) false s.bin_bytes_written s.bin_bytes_to_write
      s.mtu_last_chunk L := by
  unfold next_state
  cases hs : s.state <;> rw [hs] at h <;> simp only [plan_ok] at h ⊢ <;>
    (try split_ifs) <;> simp_all [plan_ok]

/-- A step keeps the invariant. -/
theorem plan_inv_step (L : Nat) (hL : L < 2 ^ 64) (c c1 : Bool × Session)
    (hinv : PlanInv L c) (hstep : Step c c1) : PlanInv L c1 := by
  cases hstep with
  | manage s hterm =>
    obtain ⟨i1, i2, i3⟩ := hinv
    simp only at i1 i2 i3
    by_cases hc : s.state = .BINFILE_CREATE_DATA_OBJ
    · obtain ⟨c1, c2, c3, c4, c5⟩ := manage_create_data_obj_plan
        { s with waiting_response := false }
        (by show s.bin_bytes_written ≤ s.binfile_data.length; rw [i1]; exact i2)
        (by show s.binfile_data.length < 2 ^ 64; rw [i1]; exact hL)
      rw [← manage_state_create s hc] at c1 c2 c3 c4 c5
      simp only at c1 c2 c3 c4 c5
      have hflag : s.mtu_last_chunk = false := by simpa [hc, plan_ok] using i3
      refine ⟨by rw [c2]; exact i1, by rw [c3]; exact i2, ?_⟩
      simp only [c1, hc, c3, c4, c5, plan_ok, planned, if_true, i1, FLASH_PAGE_SIZE]
      by_cases hle : L - s.bin_bytes_written ≤ 4096
      · rw [Nat.min_eq_right hle]
        exact ⟨by omega, fun _ => by omega⟩
      · rw [Nat.min_eq_left (by omega), if_neg hle, hflag]
        exact ⟨by omega, fun h => by cases h⟩
    · by_cases hw : s.state = .BINFILE_WRITE_MTU_CHUNK
      · obtain ⟨w1, -, w3, w4, w5, w6, -⟩ :=
          manage_write_mtu_chunk_spec { s with waiting_response := false }
        rw [← manage_state_write s hw] at w1 w3 w4 w5 w6
        simp only at w1 w3 w4 w5 w6
        have hp : planned s.bin_bytes_written s.bin_bytes_to_write s.mtu_last_chunk L := by
          simpa [hw, plan_ok] using i3
        have hmod := Nat.mod_le (s.bin_bytes_written + s.bin_bytes_to_write) (2 ^ 32)
        refine ⟨by rw [w3]; exact i1, by rw [w4]; exact Nat.le_trans hmod hp.1, ?_⟩
        simp only [w1, hw, w4, w5, w6, plan_ok, if_true]
        intro hf
        rw [hp.2 hf]
      · obtain ⟨o1, o2, o3, o4, o5⟩ := manage_state_other s hc hw
        refine ⟨by rw [o2]; exact i1, by rw [o3]; exact i2, ?_⟩
        simp only [o1, o3, o4, o5]
        revert i3 hc hw
        cases s.state <;> simp [plan_ok]
  | handle s hwait =>
    obtain ⟨i1, i2, i3⟩ := hinv
    exact ⟨i1, i2, plan_ok_next_state s L i3⟩
  | notified mid s s1 service characteristic data hn =>
    obtain ⟨i1, i2, i3⟩ := hinv
    obtain ⟨f1, -, f3, f4, f5, f6, -, -⟩ := notify_frame _ _ _ s s1 hn
    simp only at i1 i2 i3
    refine ⟨by rw [f3]; exact i1, by rw [f4]; exact i2, ?_⟩
    simp only [f1, f4, f5, f6]
    exact i3

/-- A step from a pair that satisfies the invariant does not decrease `bin_bytes_written`,
for a payload shorter than 2^32 bytes. -/
theorem plan_inv_step_mono (L : Nat) (hL : L < 2 ^ 32) (c c1 : Bool × Session)
    (hinv : PlanInv L c) (hstep : Step c c1) :
    c.2.bin_bytes_written ≤ c1.2.bin_bytes_written := by
  cases hstep with
  | manage s hterm =>
    obtain ⟨i1, i2, i3⟩ := hinv
    simp only at i1 i2 i3
    show s.bin_bytes_written ≤ (manage_state s).bin_bytes_written
    by_cases hc : s.state = .BINFILE_CREATE_DATA_OBJ
    · obtain ⟨-, -, c3, -, -⟩ := manage_create_data_obj_plan
        { s with waiting_response := false }
        (by show s.bin_bytes_written ≤ s.binfile_data.length; rw [i1]; exact i2)
        (by show s.binfile_data.length < 2 ^ 64; rw [i1]; omega)
      rw [← manage_state_create s hc] at c3
      simp only at c3
      rw [c3]
    · by_cases hw : s.state = .BINFILE_WRITE_MTU_CHUNK
      · obtain ⟨-, -, -, w4, -, -, -⟩ :=
          manage_write_mtu_chunk_spec { s with waiting_response := false }
        rw [← manage_state_write s hw] at w4
        simp only at w4
        have hp : planned s.bin_bytes_written s.bin_bytes_to_write s.mtu_last_chunk L := by
          simpa [hw, plan_ok] using i3
        rw [w4, Nat.mod_eq_of_lt (by have := hp.1; omega)]
        omega
      · rw [(manage_state_other s hc hw).2.2.1]
  | handle s hwait => exact Nat.le_refl _
  | notified mid s s1 service characteristic data hn =>
    obtain ⟨-, -, -, f4, -, -, -, -⟩ := notify_frame _ _ _ s s1 hn
    show s.bin_bytes_written ≤ s1.bin_bytes_written
    rw [f4]

/-- The invariant holds of every reachable pair. -/
theorem reachable_plan_inv (datafile binfile : List Byte) (hL : binfile.length < 2 ^ 64)
    (c : Bool × Session) (hc : Reachable datafile binfile c) : PlanInv binfile.length c := by
  induction hc with
  | init => exact ⟨rfl, Nat.zero_le _, rfl⟩
  | step c c1 _ hstep ih => exact plan_inv_step _ hL c c1 ih hstep

/-! ## Iterations of `run_dfu` are steps -/

theorem reachable_deliver (datafile binfile : List Byte) (mid : Bool)
    (ns : List Notification) (s m : Session) (hs : Reachable datafile binfile (mid, s))
    (hd : deliver ns s = some m) : Reachable datafile binfile (mid, m) := by
  induction ns generalizing s with
  | nil =>
    simp only [deliver, Option.some.injEq] at hd
    subst hd
    exact hs
  | cons n ns ih =>
    simp only [deliver] at hd
    split at hd
    · rename_i s1 hn
      exact ih s1 (Reachable.step _ _ hs (Step.notified mid s s1 _ _ _ hn)) hd
    · cases hd

theorem reachable_of_run (datafile binfile : List Byte) (dev : Device) (s s1 : Session)
    (hs : Reachable datafile binfile (false, s)) (hterm : terminal s.state = false)
    (hrun : run dev s = some s1) : Reachable datafile binfile (false, s1) := by
  obtain ⟨m, hd, -, hw, rfl⟩ := run_frame dev s s1 hrun
  have h1 := Reachable.step _ _ hs (Step.manage s hterm)
  have h2 := reachable_deliver datafile binfile true _ _ m h1 hd
  exact Reachable.step _ _ h2 (Step.handle m hw)

theorem reachable_of_reaches (datafile binfile : List Byte) (dev : Device)
    (path : List state_t) (s t : Session) (hs : Reachable datafile binfile (false, s))
    (h : Reaches dev s path t) : Reachable datafile binfile (false, t) := by
  induction path generalizing s with
  | nil =>
    have hst : s = t := h
    subst hst
    exact hs
  | cons st p ih =>
    obtain ⟨hst, hterm, s1, hrun, hrest⟩ := h
    exact ih s1 (reachable_of_run datafile binfile dev s s1 hs (by rw [hst]; exact hterm) hrun)
      hrest

/-- C17 as stated fails, in two ways. With a payload of one byte, the session after the
packets of the only object are written is reachable, is in state `BINFILE_REQ_CHECKSUM`,
before the execute of that object, and has `bin_bytes_written` equal to the length of the
payload. With a payload of 2^32 bytes, a session in state `BINFILE_WRITE_EXECUTE_FINAL` is
reachable, and `bin_bytes_written` is 0 there, not the length of the payload. -/
theorem C17_counterexample :
    (∃ s, Reachable [] [0xAA] (false, s) ∧
      s.bin_bytes_written = ([0xAA] : List Byte).length ∧
      s.state = .BINFILE_REQ_CHECKSUM ∧
      ¬ (s.state = .BINFILE_WRITE_EXECUTE_FINAL ∨ s.state = .DFU_FINISHED)) ∧
    (∃ s, Reachable [] full_range_payload (false, s) ∧
      s.state = .BINFILE_WRITE_EXECUTE_FINAL ∧
      s.bin_bytes_written = 0 ∧
      s.bin_bytes_written ≠ full_range_payload.length) := by
  constructor
  · obtain ⟨m, hr, hm, hb⟩ :=
      reaches_first_object honest_device honest_device_answers (Session.init [] [0xAA]) rfl
    simp only [SameBin, Session.init] at hb
    obtain ⟨hbd, hbw, -, -⟩ := hb
    obtain ⟨s1, r1, e1, d1, w1, t1, -, -⟩ := step_binfile_create honest_device
      honest_device_answers m hm (by rw [hbd, hbw]; decide) (by rw [hbd]; decide)
    obtain ⟨s2, r2, e2, -, w2, -, -, -⟩ :=
      step_binfile_write honest_device honest_device_answers s1 e1
    have hreach : Reachable [] [0xAA] (false, s2) := by
      have hm' := reachable_of_reaches [] [0xAA] honest_device _ _ m Reachable.init hr
      have h1 := reachable_of_run [] [0xAA] honest_device m s1 hm' (by rw [hm]; rfl) r1
      exact reachable_of_run [] [0xAA] honest_device s1 s2 h1 (by rw [e1]; rfl) r2
    refine ⟨s2, hreach, ?_, e2, ?_⟩
    · rw [w2, w1, t1, hbd, hbw]
      decide
    · rw [e2]
      decide
  · have hlen : full_range_payload.length = 2 ^ 32 := by
      unfold full_range_payload
      rw [List.length_replicate]
    obtain ⟨m, hr, hm, hb⟩ := reaches_first_object honest_device honest_device_answers
      (Session.init [] full_range_payload) rfl
    simp only [SameBin, Session.init] at hb
    obtain ⟨hbd, hbw, -, hbl⟩ := hb
    have hmlen : m.binfile_data.length = 2 ^ 32 := by rw [hbd]; exact hlen
    obtain ⟨u, hru, hus, -⟩ := reaches_final_execute honest_device honest_device_answers _ m
      hm (by rw [hmlen, hbw]; norm_num) (by rw [hmlen]) hbl rfl
    have hreach : Reachable [] full_range_payload (false, u) :=
      reachable_of_reaches [] full_range_payload honest_device _ m u
        (reachable_of_reaches [] full_range_payload honest_device _ _ m Reachable.init hr) hru
    obtain ⟨-, -, i3⟩ := reachable_plan_inv [] full_range_payload
      (by rw [hlen]; norm_num) (false, u) hreach
    simp only at i3
    rw [hus] at i3
    simp only [plan_ok] at i3
    have hz : u.bin_bytes_written = 0 := by
      rw [i3, hlen, Nat.mod_self]
    refine ⟨u, hreach, hus, hz, ?_⟩
    rw [hz, hlen]
    norm_num

/-- C17, amended: for a payload shorter than 2^32 bytes, in every pair reachable from the
constructed session by driver steps and notifications, `bin_bytes_written` is at most the
length of the payload, no step decreases it, and it equals the length of the payload when
the state is `BINFILE_WRITE_EXECUTE_FINAL` or `DFU_FINISHED`. -/
theorem C17_bytes_written (datafile binfile : List Byte) (hL : binfile.length < 2 ^ 32)
    (c : Bool × Session) (hc : Reachable datafile binfile c) :
    c.2.bin_bytes_written ≤ binfile.length ∧
    (∀ c1, Step c c1 → c.2.bin_bytes_written ≤ c1.2.bin_bytes_written) ∧
    (c.2.state = .BINFILE_WRITE_EXECUTE_FINAL ∨ c.2.state = .DFU_FINISHED →
      c.2.bin_bytes_written = binfile.length) := by
  have hinv := reachable_plan_inv datafile binfile (by omega) c hc
  refine ⟨hinv.2.1, fun c1 hstep => plan_inv_step_mono _ hL c c1 hinv hstep, ?_⟩
  obtain ⟨-, -, i3⟩ := hinv
  have hmod : binfile.length % 2 ^ 32 = binfile.length := Nat.mod_eq_of_lt hL
  rintro (hs | hs) <;> rw [hs] at i3 <;> simp only [plan_ok] at i3 <;> rw [i3, hmod]

/-- C17, amended, at the constructed session for a payload of one byte. -/
theorem C17_bytes_written_witness :
    (([0xAA] : List Byte).length < 2 ^ 32 ∧
      Reachable [] [0xAA] (false, Session.init [] [0xAA])) ∧
    (Session.init [] [0xAA]).bin_bytes_written ≤ ([0xAA] : List Byte).length :=
  ⟨⟨by decide, Reachable.init⟩,
    (C17_bytes_written [] [0xAA] (by decide) (false, Session.init [] [0xAA])
      Reachable.init).1⟩

/-! ## The create requests of a run -/

theorem data_object_requests_append (l1 l2 : List BleWrite) :
    data_object_requests (l1 ++ l2) = data_object_requests l1 ++ data_object_requests l2 := by
  simp [data_object_requests]

/-- After one iteration the log and the final flag are as `manage_state` left them. -/
theorem run_fields (dev : Device) (s s1 : Session) (h : run dev s = some s1) :
    s1.writes = (manage_state s).writes ∧
    s1.mtu_last_chunk = (manage_state s).mtu_last_chunk := by
  obtain ⟨m, -, hf, -, rfl⟩ := run_frame dev s s1 h
  obtain ⟨-, -, -, -, -, f6, -, f8⟩ := hf
  exact ⟨f8, f6⟩

/-- The packets of `BINFILE_WRITE_MTU_CHUNK` are no create requests. -/
theorem data_object_requests_packets (l : List BleWrite)
    (h : ∀ x ∈ l, x.kind = .command) : data_object_requests l = [] := by
  simp only [data_object_requests, List.map_eq_nil_iff, List.filter_eq_nil_iff]
  intro x hx
  simp [h x hx]

/-- The actions other than that of `BINFILE_CREATE_DATA_OBJ` write no create request for a
data object and leave the final flag as it is. -/
theorem manage_state_requests_other (s : Session) (h : s.state ≠ .BINFILE_CREATE_DATA_OBJ) :
    data_object_requests (manage_state s).writes = data_object_requests s.writes ∧
    (manage_state s).mtu_last_chunk = s.mtu_last_chunk := by
  by_cases hw : s.state = .BINFILE_WRITE_MTU_CHUNK
  · have hlog := manage_write_mtu_chunk_writes { s with waiting_response := false }
    obtain ⟨-, -, -, -, -, w6, -⟩ :=
      manage_write_mtu_chunk_spec { s with waiting_response := false }
    rw [← manage_state_write s hw] at hlog w6
    simp only at hlog w6
    refine ⟨?_, w6⟩
    rw [hlog, data_object_requests_append, List.append_right_eq_self]
    apply data_object_requests_packets
    intro x hx
    rw [List.mem_append] at hx
    rcases hx with hx | hx
    · obtain ⟨i, -, rfl⟩ := List.mem_map.mp hx
      rfl
    · split_ifs at hx
      · cases hx
      · rw [List.mem_singleton] at hx
        subst hx
        rfl
  · refine ⟨?_, (manage_state_other s h hw).2.2.2.2⟩
    cases hs : s.state <;>
      first
      | exact absurd hs h
      | exact absurd hs hw
      | simp [manage_state, hs, set_pck_notif_value, write_create_request, write_packet,
          write_command, calculate_crc, request_checksum, write_execute, write_procedure,
          write_request, data_object_requests, le16_bytes, CREATE_KEY,
          PACKET_RECEIPT_NOTIF_REQ_KEY, CALCULATE_CHECKSUM_KEY, EXECUTE_KEY,
          object_type_t.toByte]

/-- The action of `BINFILE_CREATE_DATA_OBJ`, when bytes remain, logs one create request for a
data object of the planned size. -/
theorem manage_create_data_obj_writes (s : Session)
    (hw : s.bin_bytes_written < s.binfile_data.length)
    (hL : s.binfile_data.length < 2 ^ 64) :
    (manage_create_data_obj s).writes
      = s.writes ++ [⟨.request, NORDIC_SECURE_DFU_SERVICE, NORDIC_DFU_CONTROL_POINT_CHAR,
          CREATE_KEY :: object_type_t.DATA.toByte ::
            le32_bytes (min FLASH_PAGE_SIZE (s.binfile_data.length - s.bin_bytes_written)),
          true⟩] := by
  have hrem : bytes_remaining { s with bin_bytes_to_write := FLASH_PAGE_SIZE }
      = s.binfile_data.length - s.bin_bytes_written :=
    bytes_remaining_eq _ (Nat.le_of_lt hw) hL
  by_cases hle : s.binfile_data.length - s.bin_bytes_written ≤ FLASH_PAGE_SIZE
  · have hmod : (s.binfile_data.length - s.bin_bytes_written) % 2 ^ 32
        = s.binfile_data.length - s.bin_bytes_written :=
      Nat.mod_eq_of_lt (by simp only [FLASH_PAGE_SIZE] at hle; omega)
    have hne : s.binfile_data.length - s.bin_bytes_written ≠ 0 := by omega
    have hmin : min FLASH_PAGE_SIZE (s.binfile_data.length - s.bin_bytes_written)
        = s.binfile_data.length - s.bin_bytes_written := Nat.min_eq_right hle
    simp only [manage_create_data_obj, hrem, if_pos hle, hmod, hmin, ne_eq, hne,
      not_false_eq_true, if_true, write_create_request, write_procedure, write_request,
      calculate_crc]
  · have hmin : min FLASH_PAGE_SIZE (s.binfile_data.length - s.bin_bytes_written)
        = FLASH_PAGE_SIZE := Nat.min_eq_left (by omega)
    have hne : FLASH_PAGE_SIZE ≠ 0 := by decide
    simp only [manage_create_data_obj, hrem, if_neg hle, hmin, ne_eq, hne,
      not_false_eq_true, if_true, write_create_request, write_procedure, write_request,
      calculate_crc]

/-- Iterations none of which is at `BINFILE_CREATE_DATA_OBJ` add no create request for a
data object and leave the final flag as it is. -/
theorem reaches_requests_other (dev : Device) (path : List state_t) (s t : Session)
    (h : Reaches dev s path t) (hp : state_t.BINFILE_CREATE_DATA_OBJ ∉ path) :
    data_object_requests t.writes = data_object_requests s.writes ∧
    t.mtu_last_chunk = s.mtu_last_chunk := by
  induction path generalizing s with
  | nil =>
    have hst : s = t := h
    subst hst
    exact ⟨rfl, rfl⟩
  | cons st p ih =>
    obtain ⟨hst, -, s1, hrun, hrest⟩ := h
    have hne : s.state ≠ .BINFILE_CREATE_DATA_OBJ := by
      rw [hst]
      intro hc
      exact hp (by rw [hc]; exact List.mem_cons_self _ _)
    obtain ⟨a1, a2⟩ := ih s1 hrest (fun hc => hp (List.mem_cons_of_mem _ hc))
    obtain ⟨b1, b2⟩ := run_fields dev s s1 hrun
    obtain ⟨c1, c2⟩ := manage_state_requests_other s hne
    exact ⟨by rw [a1, b1, c1], by rw [a2, b2, c2]⟩

/-- The four iterations of one data object add one create request, of the planned size, and
set the final flag when the object is the last. -/
theorem object_cycle_effect (dev : Device) (s t : Session)
    (h : Reaches dev s object_cycle t)
    (hw : s.bin_bytes_written < s.binfile_data.length)
    (hL : s.binfile_data.length < 2 ^ 64) :
    data_object_requests t.writes
      = data_object_requests s.writes
        ++ [CREATE_KEY :: object_type_t.DATA.toByte ::
            le32_bytes (min FLASH_PAGE_SIZE (s.binfile_data.length - s.bin_bytes_written))] ∧
    t.mtu_last_chunk
      = (if s.binfile_data.length - s.bin_bytes_written ≤ FLASH_PAGE_SIZE then true
          else s.mtu_last_chunk) := by
  obtain ⟨hst, -, s1, hrun, hrest⟩ := h
  obtain ⟨a1, a2⟩ := reaches_requests_other dev _ s1 t hrest (by decide)
  obtain ⟨b1, b2⟩ := run_fields dev s s1 hrun
  have hlog := manage_create_data_obj_writes { s with waiting_response := false } hw hL
  obtain ⟨-, -, -, -, c5⟩ := manage_create_data_obj_plan
    { s with waiting_response := false } (Nat.le_of_lt hw) hL
  rw [← manage_state_create s hst] at hlog c5
  simp only at hlog c5
  refine ⟨?_, by rw [a2, b2, c5]⟩
  rw [a1, b1, hlog, data_object_requests_append]
  congr 1

/-- C19: for an init payload of 20 bytes and a binary payload of 5000 bytes, against a peer
that answers every awaited request with success and the matching CRC, the iterations of
`run_dfu` go through the six states up to the first data object and two object cycles; the
create requests for data objects are exactly two, of sizes 4096 and then 904; the final flag
is not set after the first cycle and is set after the second; the run is then in
`BINFILE_WRITE_EXECUTE_FINAL`, whose action leaves `waiting_response` false. -/
theorem C19_two_objects (dev : Device) (datafile binfile : List Byte) (hdev : Answers dev)
    (_hd : datafile.length = 20) (hb : binfile.length = 5000) :
    ∃ t1 t2,
      Reaches dev (Session.init datafile binfile)
        ([.DFU_IDLE, .SET_NOTIF_VALUE, .DATAFILE_CREATE_COM_OBJ, .DATAFILE_WRITE_FILE,
          .DATAFILE_REQ_CHECKSUM, .DATAFILE_WRITE_EXECUTE] ++ object_cycle) t1 ∧
      Reaches dev t1 object_cycle t2 ∧
      data_object_requests t1.writes = [CREATE_KEY :: 0x02 :: le32_bytes 4096] ∧
      t1.mtu_last_chunk = false ∧
      data_object_requests t2.writes
        = [CREATE_KEY :: 0x02 :: le32_bytes 4096, CREATE_KEY :: 0x02 :: le32_bytes 904] ∧
      t2.mtu_last_chunk = true ∧
      t2.state = .BINFILE_WRITE_EXECUTE_FINAL ∧
      (manage_state t2).waiting_response = false := by
  obtain ⟨m, hr0, hm, hsame⟩ :=
    reaches_first_object dev hdev (Session.init datafile binfile) rfl
  obtain ⟨q1, -⟩ := reaches_requests_other dev _ _ m hr0 (by decide)
  simp only [SameBin, Session.init] at hsame
  obtain ⟨hbd, hbw, -, hbl⟩ := hsame
  have hmL : m.binfile_data.length = 5000 := by rw [hbd]; exact hb
  -- first object
  obtain ⟨t1, hr1, hd1, -, -, hmore1⟩ := reaches_object_cycle dev hdev m hm
    (by rw [hmL, hbw]; decide) (by rw [hmL]; decide) hbl
  obtain ⟨hs1, hw1, hl1⟩ := hmore1 (by rw [hmL, hbw]; decide)
  obtain ⟨e1, -⟩ := object_cycle_effect dev m t1 hr1 (by rw [hmL, hbw]; decide)
    (by rw [hmL]; decide)
  have ht1L : t1.binfile_data.length = 5000 := by rw [hd1]; exact hmL
  have hw1' : t1.bin_bytes_written = 4096 := by rw [hw1, hbw]; rfl
  -- second object
  obtain ⟨t2, hr2, -, -, hfin2, -⟩ := reaches_object_cycle dev hdev t1 hs1
    (by rw [ht1L, hw1']; decide) (by rw [ht1L]; decide) hl1
  have hs2 := hfin2 (by rw [ht1L, hw1']; decide)
  obtain ⟨e2, f2⟩ := object_cycle_effect dev t1 t2 hr2 (by rw [ht1L, hw1']; decide)
    (by rw [ht1L]; decide)
  have hreq1 : data_object_requests t1.writes = [CREATE_KEY :: 0x02 :: le32_bytes 4096] := by
    rw [e1, q1, hmL, hbw]
    rfl
  refine ⟨t1, t2, Reaches.append dev _ _ _ m t1 hr0 hr1, hr2, hreq1, hl1, ?_, ?_, hs2, ?_⟩
  · rw [e2, hreq1, ht1L, hw1']
    rfl
  · rw [f2, ht1L, hw1']
    rfl
  · simp [manage_state, hs2, write_execute, write_procedure, write_request]

/-- C19 for payloads of 20 and 5000 zero bytes, against the peer `honest_device`. -/
theorem C19_two_objects_witness :
    (Answers honest_device ∧ (List.replicate 20 (0 : Byte)).length = 20 ∧
      (List.replicate 5000 (0 : Byte)).length = 5000) ∧
    ∃ t1 t2,
      Reaches honest_device (Session.init (List.replicate 20 0) (List.replicate 5000 0))
        ([.DFU_IDLE, .SET_NOTIF_VALUE, .DATAFILE_CREATE_COM_OBJ, .DATAFILE_WRITE_FILE,
          .DATAFILE_REQ_CHECKSUM, .DATAFILE_WRITE_EXECUTE] ++ object_cycle) t1 ∧
      Reaches honest_device t1 object_cycle t2 ∧
      data_object_requests t1.writes = [CREATE_KEY :: 0x02 :: le32_bytes 4096] ∧
      t1.mtu_last_chunk = false ∧
      data_object_requests t2.writes
        = [CREATE_KEY :: 0x02 :: le32_bytes 4096, CREATE_KEY :: 0x02 :: le32_bytes 904] ∧
      t2.mtu_last_chunk = true ∧
      t2.state = .BINFILE_WRITE_EXECUTE_FINAL ∧
      (manage_state t2).waiting_response = false :=
  ⟨⟨honest_device_answers, List.length_replicate _ _, List.length_replicate _ _⟩,
    C19_two_objects honest_device (List.replicate 20 0) (List.replicate 5000 0)
      honest_device_answers (List.length_replicate _ _) (List.length_replicate _ _)⟩

/-! ## The checksum engine: bounds and injectivity -/

theorem crc_bit_step_lt (r : Nat) : crc_bit_step r < 2 ^ 32 := by
  unfold crc_bit_step
  split <;> exact Nat.mod_lt _ (by norm_num)

theorem crc_bit_step_testBit (r j : Nat) (hj : j < 32) :
    (crc_bit_step r).testBit j
      = ((r.testBit 31 && POLYNOMIAL.testBit j) ^^ (decide (1 ≤ j) && r.testBit (j - 1))) := by
  unfold crc_bit_step
  by_cases h : r.testBit 31 = true
  · rw [if_pos h, Nat.testBit_mod_two_pow, Nat.testBit_xor, Nat.testBit_shiftLeft]
    simp [h, hj, Bool.xor_comm]
  · rw [if_neg h, Nat.testBit_mod_two_pow, Nat.testBit_shiftLeft]
    simp [h, hj]

theorem crc_bit_step_injOn (a b : Nat) (ha : a < 2 ^ 32) (hb : b < 2 ^ 32)
    (h : crc_bit_step a = crc_bit_step b) : a = b := by
  have hbit : ∀ j, j < 32 → (crc_bit_step a).testBit j = (crc_bit_step b).testBit j :=
    fun j _ => by rw [h]
  have h31 : a.testBit 31 = b.testBit 31 := by
    have h0 := hbit 0 (by norm_num)
    rw [crc_bit_step_testBit a 0 (by norm_num), crc_bit_step_testBit b 0 (by norm_num)] at h0
    have hp : POLYNOMIAL.testBit 0 = true := by decide
    simpa [hp] using h0
  apply Nat.eq_of_testBit_eq
  intro i
  by_cases hi : i < 31
  · have hj := hbit (i + 1) (by omega)
    rw [crc_bit_step_testBit a (i + 1) (by omega), crc_bit_step_testBit b (i + 1) (by omega),
      h31] at hj
    simpa using hj
  · by_cases hi2 : i = 31
    · rw [hi2]; exact h31
    · have hge : 32 ≤ i := by omega
      have e1 : a < 2 ^ i := Nat.lt_of_lt_of_le ha (Nat.pow_le_pow_right (by norm_num) hge)
      have e2 : b < 2 ^ i := Nat.lt_of_lt_of_le hb (Nat.pow_le_pow_right (by norm_num) hge)
      rw [Nat.testBit_lt_two_pow e1, Nat.testBit_lt_two_pow e2]
theorem crc_bit_step_iterate_lt (k : Nat) (r : Nat) (hr : r < 2 ^ 32) :
    crc_bit_step^[k] r < 2 ^ 32 := by
  induction k generalizing r with
  | zero => exact hr
  | succ k ih =>
    rw [Function.iterate_succ_apply]
    exact ih _ (crc_bit_step_lt r)

theorem crc_bit_step_iterate_injOn (k : Nat) (a b : Nat) (ha : a < 2 ^ 32) (hb : b < 2 ^ 32)
    (h : crc_bit_step^[k] a = crc_bit_step^[k] b) : a = b := by
  induction k generalizing a b with
  | zero => exact h
  | succ k ih =>
    rw [Function.iterate_succ_apply, Function.iterate_succ_apply] at h
    exact crc_bit_step_injOn a b ha hb
      (ih _ _ (crc_bit_step_lt a) (crc_bit_step_lt b) h)

theorem crc_byte_step_lt (r : Nat) (b : Byte) : crc_byte_step r b < 2 ^ 32 := by
  unfold crc_byte_step
  rw [Function.iterate_succ_apply']
  exact crc_bit_step_lt _

theorem crc_fold_lt (l : List Byte) (r : Nat) (hr : r < 2 ^ 32) :
    l.foldl crc_byte_step r < 2 ^ 32 := by
  induction l generalizing r with
  | nil => exact hr
  | cons b l ih => exact ih _ (crc_byte_step_lt r b)

/-- Two payloads that differ in their last byte only have different remainders. -/
theorem crc_byte_step_zero_ne_one (r : Nat) (hr : r < 2 ^ 32) :
    crc_byte_step r 0 ≠ crc_byte_step r 1 := by
  intro h
  unfold crc_byte_step at h
  have h0 : reflect (0 : Byte).val 8 <<< 24 = 0 := by decide
  have h1 : reflect (1 : Byte).val 8 <<< 24 = 2 ^ 31 := by decide
  rw [h0, h1] at h
  have hx := crc_bit_step_iterate_injOn 8 _ _
    (Nat.xor_lt_two_pow hr (by norm_num)) (Nat.xor_lt_two_pow hr (by norm_num)) h
  have := Nat.xor_right_inj.mp hx
  norm_num at this

theorem reflect_fold_testBit (d n : Nat) (l : List Nat) (acc j : Nat) :
    (l.foldl (fun acc i => if d.testBit i then acc ||| 1 <<< (n - 1 - i) else acc)
        acc).testBit j
      = (acc.testBit j || l.any (fun i => d.testBit i && decide (n - 1 - i = j))) := by
  induction l generalizing acc with
  | nil => simp
  | cons i l ih =>
    rw [List.foldl_cons, ih, List.any_cons]
    by_cases hd : d.testBit i = true
    · rw [if_pos hd, Nat.testBit_or, Nat.one_shiftLeft, Nat.testBit_two_pow, hd]
      simp [Bool.or_assoc]
    · rw [if_neg hd]
      simp [hd]

theorem reflect_testBit (d j : Nat) :
    (reflect d 32).testBit j = (decide (j < 32) && d.testBit (31 - j)) := by
  unfold reflect
  rw [reflect_fold_testBit, Nat.zero_testBit, Bool.false_or]
  rw [Bool.eq_iff_iff]
  simp only [List.any_eq_true, List.mem_range, Bool.and_eq_true, decide_eq_true_eq]
  constructor
  · rintro ⟨i, hi, hd, hij⟩
    have : 31 - j = i := by omega
    exact ⟨by omega, by rw [this]; exact hd⟩
  · rintro ⟨hj, hd⟩
    exact ⟨31 - j, by omega, hd, by omega⟩

theorem reflect_lt (d : Nat) : reflect d 32 < 2 ^ 32 := by
  apply Nat.lt_pow_two_of_testBit
  intro i hi
  rw [reflect_testBit]
  simp only [Bool.and_eq_false_imp, decide_eq_true_eq]
  intro h
  omega

theorem reflect_injOn (a b : Nat) (ha : a < 2 ^ 32) (hb : b < 2 ^ 32)
    (h : reflect a 32 = reflect b 32) : a = b := by
  apply Nat.eq_of_testBit_eq
  intro i
  by_cases hi : i < 32
  · have h1 := reflect_testBit a (31 - i)
    have h2 := reflect_testBit b (31 - i)
    rw [h] at h1
    rw [h1] at h2
    have e : 31 - (31 - i) = i := by omega
    have d : decide (31 - i < 32) = true := by simp; omega
    rw [e, d] at h2
    simpa using h2
  · have hge : 32 ≤ i := by omega
    have e1 : a < 2 ^ i := Nat.lt_of_lt_of_le ha (Nat.pow_le_pow_right (by norm_num) hge)
    have e2 : b < 2 ^ i := Nat.lt_of_lt_of_le hb (Nat.pow_le_pow_right (by norm_num) hge)
    rw [Nat.testBit_lt_two_pow e1, Nat.testBit_lt_two_pow e2]

theorem crcFast_lt (message : List Byte) (nBytes : Nat) : crcFast message nBytes < 2 ^ 32 := by
  unfold crcFast
  exact Nat.xor_lt_two_pow (reflect_lt _) (by norm_num [FINAL_XOR_VALUE])

/-- The checksums of two payloads with the same bytes but the last, 0 in one and 1 in the
other, differ. -/
theorem crcFast_last_byte (pre : List Byte) (n : Nat) (hn : pre.length + 1 ≤ n) :
    crcFast (pre ++ [0]) n ≠ crcFast (pre ++ [1]) n := by
  intro h
  unfold crcFast at h
  rw [List.take_of_length_le (by simpa using hn), List.take_of_length_le (by simpa using hn),
    List.foldl_append, List.foldl_append] at h
  simp only [List.foldl_cons, List.foldl_nil] at h
  have hS := crc_fold_lt pre INITIAL_REMAINDER (by norm_num [INITIAL_REMAINDER])
  have h2 := Nat.xor_left_inj.mp h
  have h3 := reflect_injOn _ _ (crc_byte_step_lt _ _) (crc_byte_step_lt _ _) h2
  exact crc_byte_step_zero_ne_one _ hS h3

/-! ## The checksum of a data object -/

/-- The action of `BINFILE_CREATE_DATA_OBJ`, when bytes remain, stores the checksum of the
payload up to the 32-bit sum of the bytes written and the object size. -/
theorem manage_create_data_obj_crc (s : Session)
    (hw : s.bin_bytes_written < s.binfile_data.length)
    (hL : s.binfile_data.length < 2 ^ 64) :
    (manage_create_data_obj s).crc32_result
      = crcFast s.binfile_data
          ((s.bin_bytes_written
            + min FLASH_PAGE_SIZE (s.binfile_data.length - s.bin_bytes_written)) % 2 ^ 32) := by
  have hrem : bytes_remaining { s with bin_bytes_to_write := FLASH_PAGE_SIZE }
      = s.binfile_data.length - s.bin_bytes_written :=
    bytes_remaining_eq _ (Nat.le_of_lt hw) hL
  have hcrc : ∀ (d : List Byte) (n : Nat), crcFast d n % 2 ^ 32 = crcFast d n :=
    fun d n => Nat.mod_eq_of_lt (crcFast_lt d n)
  by_cases hle : s.binfile_data.length - s.bin_bytes_written ≤ FLASH_PAGE_SIZE
  · have hmod : (s.binfile_data.length - s.bin_bytes_written) % 2 ^ 32
        = s.binfile_data.length - s.bin_bytes_written :=
      Nat.mod_eq_of_lt (by simp only [FLASH_PAGE_SIZE] at hle; omega)
    have hne : s.binfile_data.length - s.bin_bytes_written ≠ 0 := by omega
    have hmin : min FLASH_PAGE_SIZE (s.binfile_data.length - s.bin_bytes_written)
        = s.binfile_data.length - s.bin_bytes_written := Nat.min_eq_right hle
    simp only [manage_create_data_obj, hrem, if_pos hle, hmod, hmin, ne_eq, hne,
      not_false_eq_true, if_true, write_create_request, write_procedure, write_request,
      calculate_crc, hcrc]
  · have hmin : min FLASH_PAGE_SIZE (s.binfile_data.length - s.bin_bytes_written)
        = FLASH_PAGE_SIZE := Nat.min_eq_left (by omega)
    have hne : FLASH_PAGE_SIZE ≠ 0 := by decide
    simp only [manage_create_data_obj, hrem, if_neg hle, hmin, ne_eq, hne,
      not_false_eq_true, if_true, write_create_request, write_procedure, write_request,
      calculate_crc, hcrc]

/-- The action of `BINFILE_CREATE_DATA_OBJ` on the last object of a payload of 2^32 bytes:
an object of 4096 bytes, and the checksum of no bytes at all. -/
theorem wrapping_create_session_action (b : Byte) :
    (manage_state (wrapping_create_session b)).bin_bytes_to_write = 4096 ∧
    (manage_state (wrapping_create_session b)).crc32_result
      = crcFast (List.replicate (2 ^ 32 - 1) 0 ++ [b]) 0 := by
  have hlen : (wrapping_create_session b).binfile_data.length = 2 ^ 32 := by
    show (List.replicate (2 ^ 32 - 1) (0 : Byte) ++ [b]).length = 2 ^ 32
    rw [List.length_append, List.length_replicate, List.length_singleton]
    norm_num
  have hwr : (wrapping_create_session b).bin_bytes_written = 2 ^ 32 - 4096 := rfl
  have hw' : ({ wrapping_create_session b with waiting_response := false } :
      Session).bin_bytes_written
      < ({ wrapping_create_session b with waiting_response := false } :
      Session).binfile_data.length := by
    show (wrapping_create_session b).bin_bytes_written
      < (wrapping_create_session b).binfile_data.length
    rw [hlen, hwr]
    norm_num
  have hL' : ({ wrapping_create_session b with waiting_response := false } :
      Session).binfile_data.length < 2 ^ 64 := by
    show (wrapping_create_session b).binfile_data.length < 2 ^ 64
    rw [hlen]
    norm_num
  obtain ⟨-, -, -, p4, -⟩ := manage_create_data_obj_plan _ (Nat.le_of_lt hw') hL'
  have pc := manage_create_data_obj_crc _ hw' hL'
  rw [← manage_state_create (wrapping_create_session b) rfl] at p4 pc
  have hdata : ({ wrapping_create_session b with waiting_response := false } :
      Session).binfile_data = List.replicate (2 ^ 32 - 1) 0 ++ [b] := rfl
  have hlen2 : ({ wrapping_create_session b with waiting_response := false } :
      Session).binfile_data.length = 2 ^ 32 := hlen
  have hwr2 : ({ wrapping_create_session b with waiting_response := false } :
      Session).bin_bytes_written = 2 ^ 32 - 4096 := rfl
  rw [hlen2, hwr2] at p4 pc
  rw [hdata] at pc
  have hobj : min FLASH_PAGE_SIZE (2 ^ 32 - (2 ^ 32 - 4096)) = 4096 := by decide
  have hzero : (2 ^ 32 - 4096 + 4096) % 2 ^ 32 = 0 := by norm_num
  rw [hobj] at p4 pc
  rw [hzero] at pc
  exact ⟨p4, pc⟩

/-- C18 as stated fails: with 2^32 - 4096 bytes written of a payload of 2^32 bytes, the
action of `BINFILE_CREATE_DATA_OBJ` creates an object of 4096 bytes and stores the checksum
of the first (2^32 - 4096 + 4096) mod 2^32 = 0 bytes. For the two payloads that end in the
byte 0 and in the byte 1 after 2^32 - 1 zero bytes this is the same value, and the
checksums of their first 2^32 bytes differ: the stored value is not that checksum for both. -/
theorem C18_counterexample :
    (manage_state (wrapping_create_session 0)).bin_bytes_to_write = 4096 ∧
    (manage_state (wrapping_create_session 1)).bin_bytes_to_write = 4096 ∧
    ¬ ((manage_state (wrapping_create_session 0)).crc32_result
          = crcFast (wrapping_create_session 0).binfile_data
              ((wrapping_create_session 0).bin_bytes_written
                + (manage_state (wrapping_create_session 0)).bin_bytes_to_write) ∧
        (manage_state (wrapping_create_session 1)).crc32_result
          = crcFast (wrapping_create_session 1).binfile_data
              ((wrapping_create_session 1).bin_bytes_written
                + (manage_state (wrapping_create_session 1)).bin_bytes_to_write)) := by
  obtain ⟨a0, c0⟩ := wrapping_create_session_action 0
  obtain ⟨a1, c1⟩ := wrapping_create_session_action 1
  refine ⟨a0, a1, ?_⟩
  rintro ⟨h0, h1⟩
  rw [a0, c0] at h0
  rw [a1, c1] at h1
  have hd0 : (wrapping_create_session 0).binfile_data = List.replicate (2 ^ 32 - 1) 0 ++ [0] :=
    rfl
  have hd1 : (wrapping_create_session 1).binfile_data = List.replicate (2 ^ 32 - 1) 0 ++ [1] :=
    rfl
  have hw0 : (wrapping_create_session 0).bin_bytes_written = 2 ^ 32 - 4096 := rfl
  have hw1 : (wrapping_create_session 1).bin_bytes_written = 2 ^ 32 - 4096 := rfl
  rw [hd0, hw0] at h0
  rw [hd1, hw1] at h1
  have hempty : crcFast (List.replicate (2 ^ 32 - 1) (0 : Byte) ++ [0]) 0
      = crcFast (List.replicate (2 ^ 32 - 1) (0 : Byte) ++ [1]) 0 := by
    unfold crcFast
    rw [List.take_zero, List.take_zero]
  have hne := crcFast_last_byte (List.replicate (2 ^ 32 - 1) (0 : Byte))
    (2 ^ 32 - 4096 + 4096) (by rw [List.length_replicate]; norm_num)
  exact hne (by rw [← h0, ← h1, hempty])

theorem manage_state_checksum_fields (s : Session) (hs : s.state = .BINFILE_REQ_CHECKSUM) :
    (manage_state s).state = .BINFILE_REQ_CHECKSUM ∧
    (manage_state s).crc32_result = s.crc32_result := by
  simp [manage_state, hs, request_checksum, write_procedure, write_request]

/-- C18, amended: whenever the action of `BINFILE_CREATE_DATA_OBJ` creates an object of
non-zero size `s` with `w` bytes already written of the payload and `w + s < 2^32`,
`crc32_result` afterwards is the CRC-32 of the first `w + s` bytes of the payload; and
whatever notifications arrive, through the transition to `BINFILE_WRITE_MTU_CHUNK`, its
action, the transition to `BINFILE_REQ_CHECKSUM` and its action, `crc32_result` is still
that value, and the transition from `BINFILE_REQ_CHECKSUM` goes to `BINFILE_WRITE_EXECUTE`
exactly when the event is `CHECKSUM_RECEIVED` and the CRC of the response is that value. -/
theorem C18_cumulative_crc (s : Session) (hs : s.state = .BINFILE_CREATE_DATA_OBJ)
    (hw : s.bin_bytes_written ≤ s.binfile_data.length)
    (hL : s.binfile_data.length < 2 ^ 64)
    (hobj : (manage_state s).bin_bytes_to_write ≠ 0)
    (h32 : s.bin_bytes_written + (manage_state s).bin_bytes_to_write < 2 ^ 32) :
    (manage_state s).crc32_result
      = crcFast s.binfile_data
          (s.bin_bytes_written + (manage_state s).bin_bytes_to_write) ∧
    ∀ (n1 n2 n3 : List Notification) (b c d : Session),
      deliver n1 (manage_state s) = some b →
      (event_handler b).state = .BINFILE_WRITE_MTU_CHUNK →
      deliver n2 (manage_state (event_handler b)) = some c →
      deliver n3 (manage_state (event_handler c)) = some d →
      d.state = .BINFILE_REQ_CHECKSUM ∧
      d.crc32_result
        = crcFast s.binfile_data
            (s.bin_bytes_written + (manage_state s).bin_bytes_to_write) ∧
      ((event_handler d).state = .BINFILE_WRITE_EXECUTE ↔
        d.received_event = .CHECKSUM_RECEIVED ∧
        d.response.resp_val.checksum_crc32
          = crcFast s.binfile_data
              (s.bin_bytes_written + (manage_state s).bin_bytes_to_write)) := by
  obtain ⟨-, -, -, p4, -⟩ :=
    manage_create_data_obj_plan { s with waiting_response := false } hw hL
  rw [← manage_state_create s hs] at p4
  simp only at p4
  have hlt : s.bin_bytes_written < s.binfile_data.length := by
    rcases Nat.lt_or_ge s.bin_bytes_written s.binfile_data.length with h | h
    · exact h
    · exfalso
      apply hobj
      rw [p4, Nat.sub_eq_zero_of_le h, Nat.min_zero]
  have hcrc := manage_create_data_obj_crc { s with waiting_response := false } hlt hL
  rw [← manage_state_create s hs] at hcrc
  simp only at hcrc
  rw [← p4, Nat.mod_eq_of_lt h32] at hcrc
  refine ⟨hcrc, ?_⟩
  intro n1 n2 n3 b c d hb hbs hc hd
  -- the notifications after each action leave the state and the checksum as they are
  obtain ⟨-, -, -, -, -, -, fb7, -⟩ := deliver_frame n1 _ b hb
  obtain ⟨fc1, -, -, -, -, -, fc7, -⟩ := deliver_frame n2 _ c hc
  obtain ⟨fd1, -, -, -, -, -, fd7, -⟩ := deliver_frame n3 _ d hd
  -- the action of BINFILE_WRITE_MTU_CHUNK
  obtain ⟨w1, -, -, -, -, -, w7⟩ :=
    manage_write_mtu_chunk_spec { event_handler b with waiting_response := false }
  rw [← manage_state_write (event_handler b) hbs] at w1 w7
  simp only at w1 w7
  have hcs : c.state = .BINFILE_WRITE_MTU_CHUNK := by
    rw [fc1, w1]
    exact hbs
  have hes : (event_handler c).state = .BINFILE_REQ_CHECKSUM := by
    simp [event_handler, next_state, hcs]
  -- the action of BINFILE_REQ_CHECKSUM
  obtain ⟨q1, q2⟩ := manage_state_checksum_fields (event_handler c) hes
  have hds : d.state = .BINFILE_REQ_CHECKSUM := by rw [fd1, q1]
  have hdc : d.crc32_result
      = crcFast s.binfile_data
          (s.bin_bytes_written + (manage_state s).bin_bytes_to_write) := by
    rw [fd7, q2]
    show c.crc32_result = _
    rw [fc7, w7]
    show b.crc32_result = _
    rw [fb7, hcrc]
  refine ⟨hds, hdc, ?_⟩
  rw [← hdc]
  by_cases he : d.received_event = .CHECKSUM_RECEIVED
  · by_cases hm : d.crc32_result = d.response.resp_val.checksum_crc32
    · simp [event_handler, next_state, hds, he, checksum_match, hm]
    · have hm' : ¬ d.response.resp_val.checksum_crc32 = d.crc32_result :=
        fun h => hm h.symm
      simp [event_handler, next_state, hds, he, checksum_match, hm, hm']
  · simp [event_handler, next_state, hds, he]

/-- C18, amended, at a payload of three bytes with nothing written. -/
theorem C18_cumulative_crc_witness :
    (({ Session.init [] [1, 2, 3] with state := .BINFILE_CREATE_DATA_OBJ } : Session).state
        = .BINFILE_CREATE_DATA_OBJ ∧
      (0 : Nat) ≤ ([1, 2, 3] : List Byte).length ∧
      ([1, 2, 3] : List Byte).length < 2 ^ 64 ∧
      (manage_state { Session.init [] [1, 2, 3] with
        state := .BINFILE_CREATE_DATA_OBJ }).bin_bytes_to_write ≠ 0 ∧
      0 + (manage_state { Session.init [] [1, 2, 3] with
        state := .BINFILE_CREATE_DATA_OBJ }).bin_bytes_to_write < 2 ^ 32) ∧
    (manage_state { Session.init [] [1, 2, 3] with
        state := .BINFILE_CREATE_DATA_OBJ }).crc32_result
      = crcFast [1, 2, 3]
          (0 + (manage_state { Session.init [] [1, 2, 3] with
            state := .BINFILE_CREATE_DATA_OBJ }).bin_bytes_to_write) :=
  ⟨⟨rfl, by decide, by decide, by decide, by decide⟩,
    (C18_cumulative_crc { Session.init [] [1, 2, 3] with state := .BINFILE_CREATE_DATA_OBJ }
      rfl (by decide) (by decide) (by decide) (by decide)).1⟩

/-! ## The final flag on entry of `BINFILE_CREATE_DATA_OBJ` -/

/-- In every session reachable at the head of an iteration in `BINFILE_CREATE_DATA_OBJ` the
final flag is not set and the bytes written do not exceed the payload. -/
theorem reachable_create_flag (datafile binfile : List Byte) (hL : binfile.length < 2 ^ 64)
    (s : Session) (hr : Reachable datafile binfile (false, s))
    (hs : s.state = .BINFILE_CREATE_DATA_OBJ) :
    s.mtu_last_chunk = false ∧ s.bin_bytes_written ≤ s.binfile_data.length := by
  obtain ⟨i1, i2, i3⟩ := reachable_plan_inv datafile binfile hL (false, s) hr
  simp only at i1 i2 i3
  refine ⟨by simpa [hs, plan_ok] using i3, by rw [i1]; exact i2⟩

/-! ## The requests of the actions -/

theorem new_writes_append (s t : Session) (l : List BleWrite) (h : t.writes = s.writes ++ l) :
    new_writes s t = l := by
  rw [new_writes, h, List.drop_left]

theorem le32_bytes_val (n : Nat) (hn : n < 2 ^ 32) :
    (le32_bytes n).map Fin.val
      = [n % 256, n / 256 % 256, n / 65536 % 256, n / 16777216] := by
  simp only [le32_bytes, List.map_cons, List.map_nil, ofNat_mod_val]
  congr 3
  have h : n / 16777216 < 256 := by omega
  rw [Nat.mod_eq_of_lt h]

/-- The one entry `write_create_request` adds to the log. -/
theorem write_create_request_writes (t : object_type_t) (n : Nat) (s : Session) :
    (write_create_request t n s).writes
      = s.writes ++ [request_write (CREATE_KEY :: t.toByte :: le32_bytes n)
          s.waiting_response] := rfl

theorem manage_state_datafile_create (s : Session)
    (hs : s.state = .DATAFILE_CREATE_COM_OBJ) :
    manage_state s = write_create_request .COMMAND (s.datafile_data.length % 2 ^ 32)
      { s with waiting_response := true } := by
  simp [manage_state, hs]

/-- C21 as stated fails in its second part: for an init payload of 2^32 bytes the action of
`DATAFILE_CREATE_COM_OBJ` sends the size bytes 0, 0, 0, 0, the size 0, and not the length of
the init payload. -/
theorem C21_counterexample :
    oversized_init_session.state = .DATAFILE_CREATE_COM_OBJ ∧
    oversized_init_session.datafile_data.length = 2 ^ 32 ∧
    (new_writes oversized_init_session (manage_state oversized_init_session)).map
        (fun w => w.data.map Fin.val) = [[0x01, 0x01, 0, 0, 0, 0]] ∧
    (new_writes oversized_init_session (manage_state oversized_init_session)).map
        (fun w => w.data.map Fin.val)
      ≠ [[0x01, 0x01, 2 ^ 32 % 256, 2 ^ 32 / 256 % 256, 2 ^ 32 / 65536 % 256,
          2 ^ 32 / 16777216]] := by
  have hlen : oversized_init_session.datafile_data.length = 2 ^ 32 := by
    show (List.replicate (2 ^ 32) (0 : Byte)).length = 2 ^ 32
    rw [List.length_replicate]
  have hnw : new_writes oversized_init_session (manage_state oversized_init_session)
      = [request_write (CREATE_KEY :: object_type_t.COMMAND.toByte :: le32_bytes 0) true] := by
    apply new_writes_append
    rw [manage_state_datafile_create oversized_init_session rfl, write_create_request_writes,
      hlen, Nat.mod_self]
  refine ⟨rfl, hlen, ?_, ?_⟩
  · rw [hnw]
    decide
  · rw [hnw]
    decide

/-- C21, amended: for every object type `t` and every 32-bit size `n`,
`write_create_request(t, n)` issues exactly one write, a `write_request` on the DFU service
and the control-point characteristic, whose payload is the six bytes 0x01, `t`, `n mod 256`,
`(n / 256) mod 256`, `(n / 65536) mod 256`, `n / 16777216`; and the action of
`DATAFILE_CREATE_COM_OBJ` issues exactly this request with `t = COMMAND` and `n` the length
of the init payload reduced modulo 2^32 (the length itself when it is below 2^32). -/
theorem C21_create_request (t : object_type_t) (n : Nat) (s : Session) (hn : n < 2 ^ 32) :
    (∃ w, new_writes s (write_create_request t n s) = [w] ∧
      w.kind = .request ∧ w.service = NORDIC_SECURE_DFU_SERVICE ∧
      w.characteristic = NORDIC_DFU_CONTROL_POINT_CHAR ∧
      w.data.map Fin.val
        = [0x01, t.toByte.val, n % 256, n / 256 % 256, n / 65536 % 256, n / 16777216]) ∧
    (t = .COMMAND → t.toByte = 0x01) ∧ (t = .DATA → t.toByte = 0x02) ∧
    (s.state = .DATAFILE_CREATE_COM_OBJ →
      ∃ w, new_writes s (manage_state s) = [w] ∧
        w.kind = .request ∧ w.service = NORDIC_SECURE_DFU_SERVICE ∧
        w.characteristic = NORDIC_DFU_CONTROL_POINT_CHAR ∧
        w.data.map Fin.val
          = [0x01, 0x01, s.datafile_data.length % 2 ^ 32 % 256,
              s.datafile_data.length % 2 ^ 32 / 256 % 256,
              s.datafile_data.length % 2 ^ 32 / 65536 % 256,
              s.datafile_data.length % 2 ^ 32 / 16777216] ∧
        (s.datafile_data.length < 2 ^ 32 →
          s.datafile_data.length % 2 ^ 32 = s.datafile_data.length)) := by
  refine ⟨⟨_, new_writes_append s _ _ (write_create_request_writes t n s), rfl, rfl, rfl, ?_⟩,
    ?_, ?_, ?_⟩
  · show (CREATE_KEY :: t.toByte :: le32_bytes n).map Fin.val = _
    rw [List.map_cons, List.map_cons, le32_bytes_val n hn]
    rfl
  · rintro rfl
    rfl
  · rintro rfl
    rfl
  · intro hs
    refine ⟨request_write (CREATE_KEY :: object_type_t.COMMAND.toByte
        :: le32_bytes (s.datafile_data.length % 2 ^ 32)) true,
      new_writes_append s _ _ ?_, rfl, rfl, rfl, ?_, fun h => Nat.mod_eq_of_lt h⟩
    · rw [manage_state_datafile_create s hs, write_create_request_writes]
    · show (CREATE_KEY :: object_type_t.COMMAND.toByte
        :: le32_bytes (s.datafile_data.length % 2 ^ 32)).map Fin.val = _
      rw [List.map_cons, List.map_cons,
        le32_bytes_val _ (Nat.mod_lt _ (Nat.two_pow_pos 32))]
      rfl

theorem C21_create_request_witness :
    (5000 : Nat) < 2 ^ 32 ∧
    ∃ w, new_writes (Session.init [0x0A, 0x0B, 0x0C] [0xAA])
        (write_create_request .DATA 5000 (Session.init [0x0A, 0x0B, 0x0C] [0xAA])) = [w] ∧
      w.data.map Fin.val = [0x01, 0x02, 136, 19, 0, 0] :=
  ⟨by decide,
    (C21_create_request .DATA 5000 (Session.init [0x0A, 0x0B, 0x0C] [0xAA]) (by decide)).1.elim
      fun w h => ⟨w, h.1, h.2.2.2.2⟩⟩

/-! ## The fixed requests -/

theorem manage_state_set_notif (s : Session) (hs : s.state = .SET_NOTIF_VALUE) :
    (manage_state s).writes
      = s.writes ++ [request_write [PACKET_RECEIPT_NOTIF_REQ_KEY, 0x00, 0x00] true] := by
  simp [manage_state, hs, set_pck_notif_value, write_procedure, write_request, request_write,
    le16_bytes]
  decide

theorem manage_state_req_checksum (s : Session)
    (hs : s.state = .DATAFILE_REQ_CHECKSUM ∨ s.state = .BINFILE_REQ_CHECKSUM) :
    (manage_state s).writes = s.writes ++ [request_write [CALCULATE_CHECKSUM_KEY] true] := by
  rcases hs with hs | hs <;>
    simp [manage_state, hs, request_checksum, write_procedure, write_request, request_write]

theorem manage_state_execute (s : Session)
    (hs : s.state = .DATAFILE_WRITE_EXECUTE ∨ s.state = .BINFILE_WRITE_EXECUTE) :
    (manage_state s).writes = s.writes ++ [request_write [EXECUTE_KEY] true] := by
  rcases hs with hs | hs <;>
    simp [manage_state, hs, write_execute, write_procedure, write_request, request_write]

theorem manage_state_execute_final (s : Session)
    (hs : s.state = .BINFILE_WRITE_EXECUTE_FINAL) :
    (manage_state s).writes = s.writes ++ [request_write [EXECUTE_KEY] false] := by
  simp [manage_state, hs, write_execute, write_procedure, write_request, request_write]

/-- C22: the actions without a free parameter emit bit-exact requests. In `SET_NOTIF_VALUE`
`manage_state` issues exactly one write, a `write_request` on the control-point
characteristic with payload 0x02, 0x00, 0x00; in the two checksum states exactly one with
payload 0x03; in the three execute states exactly one with payload 0x04; none of them is a
write to the packet characteristic. -/
theorem C22_fixed_requests (s : Session) :
    (s.state = .SET_NOTIF_VALUE →
      new_writes s (manage_state s) = [request_write [0x02, 0x00, 0x00] true]) ∧
    (s.state = .DATAFILE_REQ_CHECKSUM ∨ s.state = .BINFILE_REQ_CHECKSUM →
      new_writes s (manage_state s) = [request_write [0x03] true]) ∧
    (s.state = .DATAFILE_WRITE_EXECUTE ∨ s.state = .BINFILE_WRITE_EXECUTE →
      new_writes s (manage_state s) = [request_write [0x04] true]) ∧
    (s.state = .BINFILE_WRITE_EXECUTE_FINAL →
      new_writes s (manage_state s) = [request_write [0x04] false]) ∧
    (∀ d a, (request_write d a).kind = .request ∧
      (request_write d a).service = NORDIC_SECURE_DFU_SERVICE ∧
      (request_write d a).characteristic = NORDIC_DFU_CONTROL_POINT_CHAR ∧
      (request_write d a).characteristic ≠ NORDIC_DFU_PACKET_CHAR ∧
      (request_write d a).data = d) := by
  refine ⟨fun hs => new_writes_append s _ _ (manage_state_set_notif s hs),
    fun hs => new_writes_append s _ _ (manage_state_req_checksum s hs),
    fun hs => new_writes_append s _ _ (manage_state_execute s hs),
    fun hs => new_writes_append s _ _ (manage_state_execute_final s hs),
    fun d a => ⟨rfl, rfl, rfl, ?_, rfl⟩⟩
  show NORDIC_DFU_CONTROL_POINT_CHAR ≠ NORDIC_DFU_PACKET_CHAR
  decide

theorem C22_fixed_requests_witness :
    new_writes
        { Session.init [0x0A] [0xAA] with state := .SET_NOTIF_VALUE }
        (manage_state { Session.init [0x0A] [0xAA] with state := .SET_NOTIF_VALUE })
      = [request_write [0x02, 0x00, 0x00] true] :=
  (C22_fixed_requests { Session.init [0x0A] [0xAA] with state := .SET_NOTIF_VALUE }).1 rfl

set_option maxRecDepth 100000 in
/-- C24: the checksum engine, CRC-32 with polynomial 0x04C11DB7, reflected data and
remainder, initial remainder 0xFFFFFFFF and final XOR 0xFFFFFFFF, returns 0xCBF43926 for the
nine ASCII bytes `123456789`, and `calculate_crc` stores that value. -/
theorem C24_check_value :
    check_message.length = 9 ∧
    crcFast check_message 9 = 0xCBF43926 ∧
    (calculate_crc check_message 9 (Session.init [] [])).crc32_result = 0xCBF43926 := by
  decide

/-! ## The await flag -/

/-- The case `BINFILE_CREATE_DATA_OBJ` for every session: the state and the received event
are kept, and the request is written, with the flag set before, exactly when the planned
size is not zero. -/
theorem manage_create_data_obj_cases (s : Session) :
    (manage_create_data_obj s).state = s.state ∧
    (manage_create_data_obj s).received_event = s.received_event ∧
    ((manage_create_data_obj s).bin_bytes_to_write ≠ 0 →
      (manage_create_data_obj s).waiting_response = true ∧
      (manage_create_data_obj s).writes
        = s.writes ++ [request_write (CREATE_KEY :: object_type_t.DATA.toByte ::
            le32_bytes (manage_create_data_obj s).bin_bytes_to_write) true]) ∧
    ((manage_create_data_obj s).bin_bytes_to_write = 0 →
      (manage_create_data_obj s).waiting_response = s.waiting_response ∧
      (manage_create_data_obj s).writes = s.writes) := by
  simp only [manage_create_data_obj]
  generalize bytes_remaining { s with bin_bytes_to_write := FLASH_PAGE_SIZE } = r
  simp only [FLASH_PAGE_SIZE]
  by_cases hle : r ≤ 4096
  · rw [if_pos hle]
    generalize r % 2 ^ 32 = m
    by_cases hz : m = 0
    · subst hz
      simp
    · simp [hz, write_create_request, write_procedure, write_request, calculate_crc,
        request_write]
  · rw [if_neg hle]
    simp [write_create_request, write_procedure, write_request, calculate_crc, request_write]

theorem manage_state_waiting (s : Session) :
    (manage_state s).waiting_response = true ↔
      s.state = .SET_NOTIF_VALUE ∨ s.state = .DATAFILE_CREATE_COM_OBJ ∨
      s.state = .DATAFILE_REQ_CHECKSUM ∨ s.state = .DATAFILE_WRITE_EXECUTE ∨
      s.state = .BINFILE_REQ_CHECKSUM ∨ s.state = .BINFILE_WRITE_EXECUTE ∨
      (s.state = .BINFILE_CREATE_DATA_OBJ ∧ (manage_state s).bin_bytes_to_write ≠ 0) := by
  cases hs : s.state
  case BINFILE_CREATE_DATA_OBJ =>
    obtain ⟨-, -, h1, h2⟩ := manage_create_data_obj_cases { s with waiting_response := false }
    rw [← manage_state_create s hs] at h1 h2
    by_cases hz : (manage_state s).bin_bytes_to_write = 0
    · simp [hz, (h2 hz).1]
    · simp [hz, (h1 hz).1]
  case BINFILE_WRITE_MTU_CHUNK =>
    obtain ⟨-, h, -⟩ := manage_write_mtu_chunk_spec { s with waiting_response := false }
    rw [← manage_state_write s hs] at h
    simp [h]
  all_goals
    simp [manage_state, hs, set_pck_notif_value, write_create_request, write_packet,
      write_command, calculate_crc, request_checksum, write_execute, write_procedure,
      write_request]

/-- C23 as stated fails at `BINFILE_CREATE_DATA_OBJ`: with no byte of the binary payload
left to send, the action writes nothing and leaves `waiting_response` false. -/
theorem C23_counterexample :
    empty_create_session.state = .BINFILE_CREATE_DATA_OBJ ∧
    (manage_state empty_create_session).waiting_response = false ∧
    new_writes empty_create_session (manage_state empty_create_session) = [] := by
  decide

/-- C23, amended: for every session, after `manage_state` runs in state `s` the flag
`waiting_response` is true exactly when `s` is one of `SET_NOTIF_VALUE`,
`DATAFILE_CREATE_COM_OBJ`, `DATAFILE_REQ_CHECKSUM`, `DATAFILE_WRITE_EXECUTE`,
`BINFILE_REQ_CHECKSUM`, `BINFILE_WRITE_EXECUTE`, or `s` is `BINFILE_CREATE_DATA_OBJ` and the
size planned for the object is not zero; in particular it is false for `DFU_IDLE`,
`DATAFILE_WRITE_FILE`, `BINFILE_WRITE_MTU_CHUNK`, `BINFILE_WRITE_EXECUTE_FINAL` and the three
terminal states, and in `BINFILE_CREATE_DATA_OBJ` it is true whenever fewer bytes are written
than the payload holds. -/
theorem C23_await_flag (s : Session) :
    ((manage_state s).waiting_response = true ↔
      s.state = .SET_NOTIF_VALUE ∨ s.state = .DATAFILE_CREATE_COM_OBJ ∨
      s.state = .DATAFILE_REQ_CHECKSUM ∨ s.state = .DATAFILE_WRITE_EXECUTE ∨
      s.state = .BINFILE_REQ_CHECKSUM ∨ s.state = .BINFILE_WRITE_EXECUTE ∨
      (s.state = .BINFILE_CREATE_DATA_OBJ ∧ (manage_state s).bin_bytes_to_write ≠ 0)) ∧
    (s.state = .DFU_IDLE ∨ s.state = .DATAFILE_WRITE_FILE ∨
        s.state = .BINFILE_WRITE_MTU_CHUNK ∨ s.state = .BINFILE_WRITE_EXECUTE_FINAL ∨
        s.state = .DFU_FINISHED ∨ s.state = .DFU_ERROR ∨ s.state = .DFU_ERROR_CHECKSUM →
      (manage_state s).waiting_response = false) ∧
    (s.state = .BINFILE_CREATE_DATA_OBJ →
      s.bin_bytes_written < s.binfile_data.length → s.binfile_data.length < 2 ^ 64 →
      (manage_state s).waiting_response = true) := by
  refine ⟨manage_state_waiting s, ?_, ?_⟩
  · intro h
    rw [← Bool.not_eq_true, manage_state_waiting]
    rcases h with h | h | h | h | h | h | h <;> simp [h]
  · intro hs hw hL
    rw [manage_state_waiting]
    refine Or.inr (Or.inr (Or.inr (Or.inr (Or.inr (Or.inr ⟨hs, ?_⟩)))))
    obtain ⟨-, -, -, h, -⟩ := manage_create_data_obj_plan { s with waiting_response := false }
      (Nat.le_of_lt hw) hL
    rw [← manage_state_create s hs] at h
    rw [h]
    simp only [FLASH_PAGE_SIZE]
    have : 0 < s.binfile_data.length - s.bin_bytes_written := Nat.sub_pos_of_lt hw
    show min 4096 (s.binfile_data.length - s.bin_bytes_written) ≠ 0
    omega

theorem C23_await_flag_witness :
    (manage_state { Session.init [0x0A] [0xAA] with state := .BINFILE_CREATE_DATA_OBJ }
      ).waiting_response = true :=
  (C23_await_flag { Session.init [0x0A] [0xAA] with state := .BINFILE_CREATE_DATA_OBJ }).2.2
    rfl (by decide) (by decide)

theorem manage_state_datafile_create_writes (s : Session)
    (hs : s.state = .DATAFILE_CREATE_COM_OBJ) :
    (manage_state s).writes
      = s.writes ++ [request_write (CREATE_KEY :: object_type_t.COMMAND.toByte ::
          le32_bytes (s.datafile_data.length % 2 ^ 32)) true] := by
  rw [manage_state_datafile_create s hs, write_create_request_writes]

/-- Whatever `manage_state` logs, it logs with the value the flag has when it returns. -/
theorem manage_state_awaiting (s : Session) :
    ∀ w ∈ new_writes s (manage_state s), w.awaiting = (manage_state s).waiting_response := by
  cases hs : s.state
  case BINFILE_CREATE_DATA_OBJ =>
    obtain ⟨-, -, h1, h2⟩ := manage_create_data_obj_cases { s with waiting_response := false }
    rw [← manage_state_create s hs] at h1 h2
    by_cases hz : (manage_state s).bin_bytes_to_write = 0
    · rw [new_writes_append s _ [] (by rw [(h2 hz).2]; simp)]
      simp
    · rw [new_writes_append s _ _ (h1 hz).2, (h1 hz).1]
      simp [request_write]
  case BINFILE_WRITE_MTU_CHUNK =>
    obtain ⟨-, h, -⟩ := manage_write_mtu_chunk_spec { s with waiting_response := false }
    rw [← manage_state_write s hs] at h
    rw [new_writes_write_mtu_chunk s hs, h]
    intro w hw
    rw [List.mem_append] at hw
    rcases hw with hw | hw
    · obtain ⟨i, -, rfl⟩ := List.mem_map.mp hw
      rfl
    · split_ifs at hw
      · cases hw
      · rw [List.mem_singleton] at hw
        rw [hw]
        rfl
  all_goals
    simp [new_writes, manage_state, hs, set_pck_notif_value, write_create_request, write_packet,
      write_command, calculate_crc, request_checksum, write_execute, write_procedure,
      write_request]

/-- C25: in every state whose action awaits a response, `manage_state` assigns
`waiting_response = true` before it calls the transport: every `write_request` issued from
`SET_NOTIF_VALUE`, `DATAFILE_CREATE_COM_OBJ`, `DATAFILE_REQ_CHECKSUM`,
`DATAFILE_WRITE_EXECUTE`, `BINFILE_CREATE_DATA_OBJ`, `BINFILE_REQ_CHECKSUM` or
`BINFILE_WRITE_EXECUTE` is called with the flag already true; and in no state does
`manage_state` change the flag after a write, the flag at each call being the flag on
return. -/
theorem C25_flag_before_write (s : Session) :
    (s.state = .SET_NOTIF_VALUE ∨ s.state = .DATAFILE_CREATE_COM_OBJ ∨
        s.state = .DATAFILE_REQ_CHECKSUM ∨ s.state = .DATAFILE_WRITE_EXECUTE ∨
        s.state = .BINFILE_CREATE_DATA_OBJ ∨ s.state = .BINFILE_REQ_CHECKSUM ∨
        s.state = .BINFILE_WRITE_EXECUTE →
      ∀ w ∈ new_writes s (manage_state s), w.kind = .request ∧ w.awaiting = true) ∧
    (∀ w ∈ new_writes s (manage_state s), w.awaiting = (manage_state s).waiting_response) := by
  refine ⟨?_, manage_state_awaiting s⟩
  intro h w hw
  rcases h with h | h | h | h | h | h | h
  · rw [new_writes_append s _ _ (manage_state_set_notif s h), List.mem_singleton] at hw
    rw [hw]
    exact ⟨rfl, rfl⟩
  · rw [new_writes_append s _ _ (manage_state_datafile_create_writes s h),
      List.mem_singleton] at hw
    rw [hw]
    exact ⟨rfl, rfl⟩
  · rw [new_writes_append s _ _ (manage_state_req_checksum s (Or.inl h)),
      List.mem_singleton] at hw
    rw [hw]
    exact ⟨rfl, rfl⟩
  · rw [new_writes_append s _ _ (manage_state_execute s (Or.inl h)), List.mem_singleton] at hw
    rw [hw]
    exact ⟨rfl, rfl⟩
  · obtain ⟨-, -, h1, h2⟩ := manage_create_data_obj_cases { s with waiting_response := false }
    rw [← manage_state_create s h] at h1 h2
    by_cases hz : (manage_state s).bin_bytes_to_write = 0
    · rw [new_writes_append s _ [] (by rw [(h2 hz).2]; simp)] at hw
      cases hw
    · rw [new_writes_append s _ _ (h1 hz).2, List.mem_singleton] at hw
      rw [hw]
      exact ⟨rfl, rfl⟩
  · rw [new_writes_append s _ _ (manage_state_req_checksum s (Or.inr h)),
      List.mem_singleton] at hw
    rw [hw]
    exact ⟨rfl, rfl⟩
  · rw [new_writes_append s _ _ (manage_state_execute s (Or.inr h)), List.mem_singleton] at hw
    rw [hw]
    exact ⟨rfl, rfl⟩

theorem C25_flag_before_write_witness :
    request_write [0x04] true
      ∈ new_writes { Session.init [0x0A] [0xAA] with state := .DATAFILE_WRITE_EXECUTE }
        (manage_state { Session.init [0x0A] [0xAA] with state := .DATAFILE_WRITE_EXECUTE }) ∧
    (request_write [0x04] true).kind = .request ∧
    (request_write [0x04] true).awaiting = true :=
  ⟨by decide,
    (C25_flag_before_write
      { Session.init [0x0A] [0xAA] with state := .DATAFILE_WRITE_EXECUTE }).1
      (Or.inr (Or.inr (Or.inr (Or.inl rfl)))) (request_write [0x04] true) (by decide)⟩

/-! ## The terminal states -/

/-- C26: the three terminal states are absorbing and silent. For every session whose state
is `DFU_FINISHED`, `DFU_ERROR` or `DFU_ERROR_CHECKSUM`, whatever its other fields,
`manage_state` issues no transport write and leaves `waiting_response` false,
`event_handler` leaves the state unchanged, and `run_dfu` started there makes no iteration,
for every peer and every bound on the iterations. -/
theorem C26_terminal_states (s : Session)
    (h : s.state = .DFU_FINISHED ∨ s.state = .DFU_ERROR ∨ s.state = .DFU_ERROR_CHECKSUM) :
    new_writes s (manage_state s) = [] ∧
    (manage_state s).writes = s.writes ∧
    (manage_state s).waiting_response = false ∧
    (manage_state s).state = s.state ∧
    (event_handler s).state = s.state ∧
    (event_handler (manage_state s)).state = s.state ∧
    ∀ (dev : Device) (fuel : Nat), run_dfu dev fuel s = some ([], s) := by
  have hw : (manage_state s).writes = s.writes := by
    rcases h with h | h | h <;> simp [manage_state, h]
  refine ⟨new_writes_append s _ [] (by rw [hw, List.append_nil]), hw, ?_, ?_, ?_, ?_, ?_⟩
  · rcases h with h | h | h <;> simp [manage_state, h]
  · rcases h with h | h | h <;> simp [manage_state, h]
  · rcases h with h | h | h <;> simp [event_handler, next_state, h]
  · rcases h with h | h | h <;> simp [event_handler, next_state, manage_state, h]
  · intro dev fuel
    have ht : terminal s.state = true := by
      rcases h with h | h | h <;> rw [h] <;> rfl
    cases fuel <;> simp [run_dfu, ht]

theorem C26_terminal_states_witness :
    run_dfu honest_device 100 { Session.init [0x0A] [0xAA] with state := .DFU_ERROR }
      = some ([], { Session.init [0x0A] [0xAA] with state := .DFU_ERROR }) :=
  (C26_terminal_states { Session.init [0x0A] [0xAA] with state := .DFU_ERROR }
    (Or.inr (Or.inl rfl))).2.2.2.2.2.2 honest_device 100

/-! ## Notifications rejected as framing errors -/

theorem notify_not_supported (service characteristic : String) (data : List Byte)
    (s : Session)
    (hch : ¬ (service = NORDIC_SECURE_DFU_SERVICE ∧
      characteristic = NORDIC_DFU_CONTROL_POINT_CHAR)) :
    notify service characteristic data s
      = some { s with received_event := .ERROR_NOT_SUP_SERV_CHAR } := by
  unfold notify
  rw [if_neg hch]

theorem notify_no_resp_key (data : List Byte) (s : Session)
    (hkey : data.head? ≠ some RESPONSE_CODE_KEY) :
    notify NORDIC_SECURE_DFU_SERVICE NORDIC_DFU_CONTROL_POINT_CHAR data s
      = some { s with received_event := .ERROR_NO_RESP_KEY } := by
  unfold notify
  cases data with
  | nil =>
    have h0 : char_at ([] : List Byte) 0 = some 0 := by simp [char_at]
    rw [h0]
    simp [RESPONSE_CODE_KEY]
  | cons b rest =>
    have h0 : char_at (b :: rest) 0 = some b := by simp [char_at]
    have hb : b ≠ RESPONSE_CODE_KEY := by
      intro hb
      apply hkey
      simp [hb]
    rw [h0]
    simp [hb]

/-- The decoder overwrites `received_event`: what it leaves does not depend on the event
stored before. -/
theorem notify_overwrites_event (rest : List Byte) (e : event_t) (s : Session) :
    notify NORDIC_SECURE_DFU_SERVICE NORDIC_DFU_CONTROL_POINT_CHAR (RESPONSE_CODE_KEY :: rest)
        { s with received_event := e }
      = notify NORDIC_SECURE_DFU_SERVICE NORDIC_DFU_CONTROL_POINT_CHAR
          (RESPONSE_CODE_KEY :: rest) s := by
  have h0 : char_at (RESPONSE_CODE_KEY :: rest) 0 = some RESPONSE_CODE_KEY := by
    simp [char_at]
  have hp : process_response_data (RESPONSE_CODE_KEY :: rest) { s with received_event := e }
      = process_response_data (RESPONSE_CODE_KEY :: rest) s := by
    unfold process_response_data
    rfl
  unfold notify
  rw [h0, hp]

/-- C28: a notification rejected as a framing error (wrong service or characteristic, or a
payload that does not start with 0x60) overwrites `received_event` and nothing else: it
leaves `waiting_response` as it is, so for a session with `waiting_response = true` the flag
is still true after the call and the driver, which waits for the flag to be false, is not
released by it; and a valid response that arrives later leaves the session it would have
left without the rejected notification, the error event being overwritten. -/
theorem C28_framing_error_keeps_waiting (service characteristic : String)
    (data : List Byte) (s : Session)
    (herr : ¬ (service = NORDIC_SECURE_DFU_SERVICE ∧
        characteristic = NORDIC_DFU_CONTROL_POINT_CHAR) ∨
      (service = NORDIC_SECURE_DFU_SERVICE ∧ characteristic = NORDIC_DFU_CONTROL_POINT_CHAR ∧
        data.head? ≠ some RESPONSE_CODE_KEY)) :
    ∃ s1, notify service characteristic data s = some s1 ∧
      (s1.received_event = .ERROR_NOT_SUP_SERV_CHAR ∨
        s1.received_event = .ERROR_NO_RESP_KEY) ∧
      s1 = { s with received_event := s1.received_event } ∧
      s1.waiting_response = s.waiting_response ∧
      (s.waiting_response = true → s1.waiting_response = true) ∧
      (∀ (dev : Device) (s0 : Session), manage_state s0 = s → s.waiting_response = true →
        dev s = [(service, characteristic, data)] → run dev s0 = none) ∧
      (∀ rest : List Byte,
        notify NORDIC_SECURE_DFU_SERVICE NORDIC_DFU_CONTROL_POINT_CHAR
            (RESPONSE_CODE_KEY :: rest) s1
          = notify NORDIC_SECURE_DFU_SERVICE NORDIC_DFU_CONTROL_POINT_CHAR
              (RESPONSE_CODE_KEY :: rest) s) := by
  have key : ∃ e, (e = event_t.ERROR_NOT_SUP_SERV_CHAR ∨ e = event_t.ERROR_NO_RESP_KEY) ∧
      notify service characteristic data s = some { s with received_event := e } := by
    rcases herr with hch | ⟨rfl, rfl, hkey⟩
    · exact ⟨_, Or.inl rfl, notify_not_supported service characteristic data s hch⟩
    · exact ⟨_, Or.inr rfl, notify_no_resp_key data s hkey⟩
  obtain ⟨e, he, hn⟩ := key
  refine ⟨{ s with received_event := e }, hn, he, rfl, rfl, fun h => h, ?_,
    fun rest => notify_overwrites_event rest e s⟩
  intro dev s0 hm hw hd
  unfold run
  rw [hm, hd]
  simp [deliver, hn, hw]

theorem C28_framing_error_keeps_waiting_witness :
    ∃ s1, notify NORDIC_SECURE_DFU_SERVICE NORDIC_DFU_PACKET_CHAR [0x60, 0x01, 0x01]
        (manage_state { Session.init [0x0A] [0xAA] with state := .SET_NOTIF_VALUE })
          = some s1 ∧
      (s1.received_event = .ERROR_NOT_SUP_SERV_CHAR ∨
        s1.received_event = .ERROR_NO_RESP_KEY) ∧
      s1.waiting_response = true :=
  (C28_framing_error_keeps_waiting NORDIC_SECURE_DFU_SERVICE NORDIC_DFU_PACKET_CHAR
    [0x60, 0x01, 0x01]
    (manage_state { Session.init [0x0A] [0xAA] with state := .SET_NOTIF_VALUE })
    (Or.inl (by decide))).elim
    fun s1 h => ⟨s1, h.1, h.2.1, h.2.2.2.2.1 rfl⟩

/-! ## The final execute -/

theorem manage_write_mtu_chunk_event (s : Session) :
    (manage_write_mtu_chunk s).received_event = s.received_event := by
  obtain ⟨-, -, -, -, -, -, -, h8, -, h10⟩ :=
    write_full_chunks_fields (List.range (s.bin_bytes_to_write / MTU_CHUNK))
      { s with waiting_response := false
               mtu_chunks_remaing := s.bin_bytes_to_write / MTU_CHUNK
               mtu_extra_bytes := s.bin_bytes_to_write % MTU_CHUNK }
  simp only at h8 h10
  unfold manage_write_mtu_chunk
  simp only [h8]
  split_ifs <;> simp only [write_packet, write_command, h10]

/-- The action of a state changes neither the state nor the received event. -/
theorem manage_state_event (s : Session) :
    (manage_state s).state = s.state ∧
    (manage_state s).received_event = s.received_event := by
  cases hs : s.state
  case BINFILE_CREATE_DATA_OBJ =>
    obtain ⟨h1, h2, -⟩ := manage_create_data_obj_cases { s with waiting_response := false }
    rw [← manage_state_create s hs] at h1 h2
    exact ⟨h1.trans hs, h2⟩
  case BINFILE_WRITE_MTU_CHUNK =>
    obtain ⟨h1, -⟩ := manage_write_mtu_chunk_spec { s with waiting_response := false }
    have h2 := manage_write_mtu_chunk_event { s with waiting_response := false }
    rw [← manage_state_write s hs] at h1 h2
    exact ⟨h1.trans hs, h2⟩
  all_goals
    simp [manage_state, hs, set_pck_notif_value, write_create_request, write_packet,
      write_command, calculate_crc, request_checksum, write_execute, write_procedure,
      write_request]

/-- The state `BINFILE_WRITE_EXECUTE_FINAL` is entered with the event `EXECUTE_SUC` only. -/
theorem next_state_final (s : Session)
    (h : next_state s = .BINFILE_WRITE_EXECUTE_FINAL) : s.received_event = .EXECUTE_SUC := by
  unfold next_state at h
  cases hs : s.state <;> rw [hs] at h <;> simp only at h <;>
    first
    | cases h
    | (split_ifs at h <;> assumption)

theorem quiet_step_final (c c1 : Bool × Session) (h : QuietStep c c1)
    (inv : c.1 = false → c.2.state = .BINFILE_WRITE_EXECUTE_FINAL →
      c.2.received_event = .EXECUTE_SUC) :
    c1.1 = false → c1.2.state = .BINFILE_WRITE_EXECUTE_FINAL →
      c1.2.received_event = .EXECUTE_SUC := by
  cases h with
  | manage s hterm =>
    intro hmid
    cases hmid
  | handle s hw =>
    intro _ hs
    exact next_state_final s hs
  | notified mid s s1 service characteristic data hq hn =>
    intro hmid hs
    exact absurd ((notify_frame _ _ _ s s1 hn).1.symm.trans hs) (hq hmid)

theorem quiet_reachable_final (datafile binfile : List Byte) (c : Bool × Session)
    (h : QuietReachable datafile binfile c) :
    c.1 = false → c.2.state = .BINFILE_WRITE_EXECUTE_FINAL →
      c.2.received_event = .EXECUTE_SUC := by
  induction h with
  | init =>
    intro _ hs
    cases hs
  | step c c1 _ hstep ih => exact quiet_step_final c c1 hstep ih

theorem quiet_reachable_deliver (datafile binfile : List Byte)
    (ns : List Notification) (s m : Session)
    (hs : QuietReachable datafile binfile (true, s))
    (hd : deliver ns s = some m) : QuietReachable datafile binfile (true, m) := by
  induction ns generalizing s with
  | nil =>
    simp only [deliver, Option.some.injEq] at hd
    subst hd
    exact hs
  | cons n ns ih =>
    simp only [deliver] at hd
    split at hd
    · rename_i s1 hn
      exact ih s1 (QuietReachable.step _ _ hs
        (QuietStep.notified true s s1 _ _ _ (fun h => Bool.noConfusion h) hn)) hd
    · cases hd

/-- The iterations of `run` are steps of `QuietStep`: the notifications of an iteration are
handed over after its call of `manage_state`. -/
theorem quiet_reachable_of_run (datafile binfile : List Byte) (dev : Device)
    (s s1 : Session)
    (hs : QuietReachable datafile binfile (false, s)) (hterm : terminal s.state = false)
    (hrun : run dev s = some s1) : QuietReachable datafile binfile (false, s1) := by
  obtain ⟨m, hd, -, hw, rfl⟩ := run_frame dev s s1 hrun
  have h1 := QuietReachable.step _ _ hs (QuietStep.manage s hterm)
  have h2 := quiet_reachable_deliver datafile binfile _ _ m h1 hd
  exact QuietReachable.step _ _ h2 (QuietStep.handle m hw)

theorem quiet_reachable_of_reaches (datafile binfile : List Byte) (dev : Device)
    (path : List state_t) (s t : Session)
    (hs : QuietReachable datafile binfile (false, s))
    (h : Reaches dev s path t) : QuietReachable datafile binfile (false, t) := by
  induction path generalizing s with
  | nil =>
    have hst : s = t := h
    subst hst
    exact hs
  | cons st p ih =>
    obtain ⟨hst, hterm, s1, hrun, hrest⟩ := h
    exact ih s1 (quiet_reachable_of_run datafile binfile dev s s1 hs
      (by rw [hst]; exact hterm) hrun) hrest

/-- The final execute is reached, for a binary payload that is not empty. -/
theorem quiet_reachable_final_state (datafile binfile : List Byte)
    (h0 : binfile.length ≠ 0) (h32 : binfile.length ≤ 2 ^ 32) :
    ∃ t, QuietReachable datafile binfile (false, t) ∧
      t.state = .BINFILE_WRITE_EXECUTE_FINAL := by
  obtain ⟨m, hm, hms, hb1, hb2, -, hb4⟩ :=
    reaches_first_object honest_device honest_device_answers
      (Session.init datafile binfile) rfl
  have hb1' : m.binfile_data = binfile := hb1
  have hb2' : m.bin_bytes_written = 0 := hb2
  have hb4' : m.mtu_last_chunk = false := hb4
  obtain ⟨t, ht, hts, -⟩ := reaches_final_execute honest_device honest_device_answers _ m hms
    (by rw [hb1', hb2']; omega) (by rw [hb1']; exact h32) hb4' rfl
  exact ⟨t, quiet_reachable_of_reaches datafile binfile honest_device _ _ t
    (quiet_reachable_of_reaches datafile binfile honest_device _ _ m
      QuietReachable.init hm) ht, hts⟩

/-- C27: in every session reachable from the constructed one by steps of the driver and
notifications, none of which arrives between the step that enters
`BINFILE_WRITE_EXECUTE_FINAL` and the next step, the state `BINFILE_WRITE_EXECUTE_FINAL` at
the head of an iteration implies `received_event = EXECUTE_SUC`; the action of that state
awaits nothing and keeps the event, so the step taken there ends in `DFU_FINISHED`, with no
further response of the device. -/
theorem C27_final_execute (datafile binfile : List Byte) (s : Session)
    (hr : QuietReachable datafile binfile (false, s))
    (hs : s.state = .BINFILE_WRITE_EXECUTE_FINAL) :
    s.received_event = .EXECUTE_SUC ∧
    (manage_state s).waiting_response = false ∧
    (manage_state s).received_event = .EXECUTE_SUC ∧
    (event_handler (manage_state s)).state = .DFU_FINISHED ∧
    (∀ dev : Device, dev (manage_state s) = [] →
      ∃ s1, run dev s = some s1 ∧ s1.state = .DFU_FINISHED) := by
  have he := quiet_reachable_final datafile binfile (false, s) hr rfl hs
  have hw : (manage_state s).waiting_response = false := by
    simp [manage_state, hs, write_execute, write_procedure, write_request]
  have hev : (manage_state s).received_event = .EXECUTE_SUC := by
    rw [(manage_state_event s).2]
    exact he
  have hf : (event_handler (manage_state s)).state = .DFU_FINISHED := by
    show next_state (manage_state s) = .DFU_FINISHED
    unfold next_state
    rw [(manage_state_event s).1, hs]
    simp only
    rw [hev]
    rfl
  refine ⟨he, hw, hev, hf, ?_⟩
  intro dev hd
  refine ⟨event_handler (manage_state s), ?_, hf⟩
  unfold run
  rw [hd]
  simp [deliver, hw]

theorem C27_final_execute_witness :
    ∃ t, QuietReachable [0x0A] [0xAA] (false, t) ∧ t.state = .BINFILE_WRITE_EXECUTE_FINAL ∧
      t.received_event = .EXECUTE_SUC ∧
      (event_handler (manage_state t)).state = .DFU_FINISHED :=
  (quiet_reachable_final_state [0x0A] [0xAA] (by decide) (by decide)).elim
    fun t h => ⟨t, h.1, h.2,
      (C27_final_execute [0x0A] [0xAA] t h.1 h.2).1,
      (C27_final_execute [0x0A] [0xAA] t h.1 h.2).2.2.2.1⟩

/-! ## An empty binary payload -/

theorem packet_payloads_append (l1 l2 : List BleWrite) :
    packet_payloads (l1 ++ l2) = packet_payloads l1 ++ packet_payloads l2 := by
  simp [packet_payloads]

theorem packet_payloads_request (d : List Byte) (a : Bool) :
    packet_payloads [request_write d a] = [] := by
  have h : NORDIC_DFU_CONTROL_POINT_CHAR ≠ NORDIC_DFU_PACKET_CHAR := by decide
  simp [packet_payloads, request_write, h]

/-- After one iteration the log and the init payload are as `manage_state` left them. -/
theorem run_log (dev : Device) (s s1 : Session) (h : run dev s = some s1) :
    s1.writes = (manage_state s).writes ∧
    s1.datafile_data = (manage_state s).datafile_data := by
  obtain ⟨m, -, hf, -, rfl⟩ := run_frame dev s s1 h
  obtain ⟨-, f2, -, -, -, -, -, f8⟩ := hf
  exact ⟨f8, f2⟩

/-- The packets an iteration adds to the log in the states before the first data object:
the init payload in `DATAFILE_WRITE_FILE`, and nothing in the other states. -/
theorem run_packets_init (dev : Device) (s s1 : Session) (h : run dev s = some s1)
    (hs : s.state = .DFU_IDLE ∨ s.state = .SET_NOTIF_VALUE ∨
      s.state = .DATAFILE_CREATE_COM_OBJ ∨ s.state = .DATAFILE_WRITE_FILE ∨
      s.state = .DATAFILE_REQ_CHECKSUM ∨ s.state = .DATAFILE_WRITE_EXECUTE) :
    s1.datafile_data = s.datafile_data ∧
    packet_payloads s1.writes
      = packet_payloads s.writes
        ++ (if s.state = .DATAFILE_WRITE_FILE then [s.datafile_data] else []) := by
  obtain ⟨hw, hd⟩ := run_log dev s s1 h
  rw [hw, hd]
  rcases hs with hs | hs | hs | hs | hs | hs
  · simp [manage_state, hs]
  · rw [manage_state_set_notif s hs, packet_payloads_append, packet_payloads_request]
    simp [manage_state, hs, set_pck_notif_value, write_procedure, write_request]
  · rw [manage_state_datafile_create_writes s hs, packet_payloads_append,
      packet_payloads_request]
    simp [manage_state, hs, write_create_request, write_procedure, write_request]
  · simp [manage_state, hs, write_packet, write_command, calculate_crc, packet_payloads]
  · rw [manage_state_req_checksum s (Or.inl hs), packet_payloads_append,
      packet_payloads_request]
    simp [manage_state, hs, request_checksum, write_procedure, write_request]
  · rw [manage_state_execute s (Or.inl hs), packet_payloads_append, packet_payloads_request]
    simp [manage_state, hs, write_execute, write_procedure, write_request]

theorem step_datafile_execute_event (dev : Device) (hdev : Answers dev) (s : Session)
    (hs : s.state = .DATAFILE_WRITE_EXECUTE) :
    ∃ s1, run dev s = some s1 ∧ s1.state = .BINFILE_CREATE_DATA_OBJ ∧ SameBin s s1 ∧
      s1.received_event = .EXECUTE_SUC := by
  have hm : manage_state s = write_execute { s with waiting_response := true } := by
    simp [manage_state, hs]
  refine ⟨_, run_awaiting_plain dev hdev s (request_write [EXECUTE_KEY] true)
    EXECUTE_KEY [] ?_ ?_ rfl rfl (by decide) (by decide), ?_, ?_, ?_⟩
  · simp [hm, write_execute, write_procedure, write_request]
  · simp [hm, write_execute, write_procedure, write_request, request_write]
  · simp [hm, event_handler, next_state, write_execute, write_procedure, write_request,
      hs, success_event, EXECUTE_KEY, CREATE_KEY, PACKET_RECEIPT_NOTIF_REQ_KEY]
  · simp [SameBin, hm, event_handler, write_execute, write_procedure, write_request]
  · simp [event_handler, success_event, EXECUTE_KEY, CREATE_KEY, PACKET_RECEIPT_NOTIF_REQ_KEY]

/-- The iterations up to the first data object, with the event and the packets they leave. -/
theorem reaches_first_object_log (dev : Device) (hdev : Answers dev)
    (datafile binfile : List Byte) :
    ∃ t, Reaches dev (Session.init datafile binfile)
        [.DFU_IDLE, .SET_NOTIF_VALUE, .DATAFILE_CREATE_COM_OBJ, .DATAFILE_WRITE_FILE,
         .DATAFILE_REQ_CHECKSUM, .DATAFILE_WRITE_EXECUTE] t ∧
      t.state = .BINFILE_CREATE_DATA_OBJ ∧ t.binfile_data = binfile ∧
      t.bin_bytes_written = 0 ∧ t.received_event = .EXECUTE_SUC ∧
      packet_payloads t.writes = [datafile] := by
  obtain ⟨s1, r1, e1, b1⟩ := step_idle dev hdev (Session.init datafile binfile) rfl
  obtain ⟨s2, r2, e2, b2⟩ := step_set_notif_value dev hdev s1 e1
  obtain ⟨s3, r3, e3, b3⟩ := step_datafile_create dev hdev s2 e2
  obtain ⟨s4, r4, e4, b4, c4⟩ := step_datafile_write dev hdev s3 e3
  obtain ⟨s5, r5, e5, b5⟩ := step_datafile_checksum dev hdev s4 e4 c4
  obtain ⟨s6, r6, e6, b6, v6⟩ := step_datafile_execute_event dev hdev s5 e5
  obtain ⟨d1, p1⟩ := run_packets_init dev _ s1 r1 (Or.inl rfl)
  obtain ⟨d2, p2⟩ := run_packets_init dev s1 s2 r2 (Or.inr (Or.inl e1))
  obtain ⟨d3, p3⟩ := run_packets_init dev s2 s3 r3 (Or.inr (Or.inr (Or.inl e2)))
  obtain ⟨d4, p4⟩ := run_packets_init dev s3 s4 r4 (Or.inr (Or.inr (Or.inr (Or.inl e3))))
  obtain ⟨d5, p5⟩ := run_packets_init dev s4 s5 r5
    (Or.inr (Or.inr (Or.inr (Or.inr (Or.inl e4)))))
  obtain ⟨d6, p6⟩ := run_packets_init dev s5 s6 r6
    (Or.inr (Or.inr (Or.inr (Or.inr (Or.inr e5)))))
  simp only [SameBin] at b1 b2 b3 b4 b5 b6
  refine ⟨s6, ⟨rfl, rfl, s1, r1, e1, rfl, s2, r2, e2, rfl, s3, r3, e3, rfl, s4, r4, e4, rfl,
    s5, r5, e5, rfl, s6, r6, rfl⟩, e6, ?_, ?_, v6, ?_⟩
  · rw [b6.1, b5.1, b4.1, b3.1, b2.1, b1.1]
    rfl
  · rw [b6.2.1, b5.2.1, b4.2.1, b3.2.1, b2.2.1, b1.2.1]
    rfl
  · rw [p6, p5, p4, p3, p2, p1, e1, e2, e3, e4, e5, d3, d2, d1]
    simp [Session.init, packet_payloads]

/-- C29: for an empty binary payload and a peer that answers every awaited request with
success and the matching CRC, the driver arrives in `BINFILE_CREATE_DATA_OBJ` with the event
`EXECUTE_SUC` of `DATAFILE_WRITE_EXECUTE`; the action there writes nothing and awaits no
response, the event is still `EXECUTE_SUC`, which is not `CREATE_SUC`, and `run_dfu` ends in
`DFU_ERROR` after these seven iterations; the log then holds no create request for a data
object and one write to the packet characteristic, the init payload. -/
theorem C29_empty_binary (dev : Device) (hdev : Answers dev) (datafile : List Byte)
    (fuel : Nat) (hfuel : 7 ≤ fuel) :
    ∃ m fin,
      Reaches dev (Session.init datafile [])
        [.DFU_IDLE, .SET_NOTIF_VALUE, .DATAFILE_CREATE_COM_OBJ, .DATAFILE_WRITE_FILE,
         .DATAFILE_REQ_CHECKSUM, .DATAFILE_WRITE_EXECUTE] m ∧
      m.state = .BINFILE_CREATE_DATA_OBJ ∧ m.received_event = .EXECUTE_SUC ∧
      new_writes m (manage_state m) = [] ∧
      (manage_state m).waiting_response = false ∧
      (manage_state m).received_event = .EXECUTE_SUC ∧
      (manage_state m).received_event ≠ .CREATE_SUC ∧
      run dev m = some fin ∧
      run_dfu dev fuel (Session.init datafile [])
        = some ([.DFU_IDLE, .SET_NOTIF_VALUE, .DATAFILE_CREATE_COM_OBJ, .DATAFILE_WRITE_FILE,
            .DATAFILE_REQ_CHECKSUM, .DATAFILE_WRITE_EXECUTE, .BINFILE_CREATE_DATA_OBJ], fin) ∧
      fin.state = .DFU_ERROR ∧
      data_object_requests fin.writes = [] ∧
      packet_payloads fin.writes = [datafile] := by
  obtain ⟨m, hm, hs, hb, hw0, he, hp⟩ := reaches_first_object_log dev hdev datafile []
  obtain ⟨-, -, -, htw, -⟩ := manage_create_data_obj_plan { m with waiting_response := false }
    (by show m.bin_bytes_written ≤ m.binfile_data.length; rw [hw0]; exact Nat.zero_le _)
    (by show m.binfile_data.length < 2 ^ 64; rw [hb]; decide)
  obtain ⟨-, -, -, hz⟩ := manage_create_data_obj_cases { m with waiting_response := false }
  rw [← manage_state_create m hs] at htw hz
  have htw0 : (manage_state m).bin_bytes_to_write = 0 := by
    rw [htw]
    show min FLASH_PAGE_SIZE (m.binfile_data.length - m.bin_bytes_written) = 0
    rw [hb, hw0]
    rfl
  obtain ⟨hwait, hwr⟩ := hz htw0
  have hwait' : (manage_state m).waiting_response = false := hwait
  have hwr' : (manage_state m).writes = m.writes := hwr
  have hev : (manage_state m).received_event = .EXECUTE_SUC := by
    rw [(manage_state_event m).2, he]
  have hrun := run_not_awaiting dev hdev m hwait'
  have hfin : (event_handler (manage_state m)).state = .DFU_ERROR := by
    show next_state (manage_state m) = .DFU_ERROR
    unfold next_state
    rw [(manage_state_event m).1, hs]
    simp only
    rw [hev]
    rfl
  have hreach : Reaches dev (Session.init datafile [])
      ([.DFU_IDLE, .SET_NOTIF_VALUE, .DATAFILE_CREATE_COM_OBJ, .DATAFILE_WRITE_FILE,
         .DATAFILE_REQ_CHECKSUM, .DATAFILE_WRITE_EXECUTE] ++ [.BINFILE_CREATE_DATA_OBJ])
      (event_handler (manage_state m)) :=
    Reaches.append dev _ _ _ m _ hm (Reaches.one dev m _ _ hs rfl hrun)
  refine ⟨m, event_handler (manage_state m), hm, hs, he,
    new_writes_append m _ [] (by rw [hwr', List.append_nil]), hwait', hev, ?_, hrun,
    run_dfu_of_reaches dev _ _ _ hreach (by rw [hfin]; rfl) fuel hfuel, hfin, ?_, ?_⟩
  · rw [hev]
    decide
  · show data_object_requests (manage_state m).writes = []
    rw [hwr', (reaches_requests_other dev _ _ m hm (by decide)).1]
    rfl
  · show packet_payloads (manage_state m).writes = [datafile]
    rw [hwr', hp]

theorem C29_empty_binary_witness :
    (Answers honest_device ∧ 7 ≤ 100) ∧
    ∃ fin, run_dfu honest_device 100 (Session.init [0x01, 0x02, 0x03] [])
        = some ([.DFU_IDLE, .SET_NOTIF_VALUE, .DATAFILE_CREATE_COM_OBJ, .DATAFILE_WRITE_FILE,
            .DATAFILE_REQ_CHECKSUM, .DATAFILE_WRITE_EXECUTE, .BINFILE_CREATE_DATA_OBJ], fin) ∧
      fin.state = .DFU_ERROR ∧ packet_payloads fin.writes = [[0x01, 0x02, 0x03]] :=
  ⟨⟨honest_device_answers, by decide⟩,
    (C29_empty_binary honest_device honest_device_answers [0x01, 0x02, 0x03] 100
      (by decide)).elim
      fun _ h => h.elim fun fin h =>
        ⟨fin, h.2.2.2.2.2.2.2.2.1, h.2.2.2.2.2.2.2.2.2.1, h.2.2.2.2.2.2.2.2.2.2.2⟩⟩

end NativeDFU
